import Mathlib

/-!
Bookstore API (`PractiseForExams/server.js`): embedding and verified properties

The server keeps three in-memory arrays (`books`, `authors`, `categories`) and three
auto-increment counters, and registers five Express handlers per entity.  Each handler
is embedded as a pure function from the store before the request (plus the path
parameter and the parsed JSON body) to the store after it and the response.

Modelling conventions
* JavaScript numbers are modelled by `JsNum`: `NaN`, an infinity, or an integer.  An
  integer returned by `parseInt` is always one a double represents exactly, because
  `parseInt` rounds to the nearest double (`roundToDouble`); an integer literal of a request
  body stands for the double nearest to it; the three counters start at 3 and grow by one
  per `POST`, and are taken to stay below `2 ^ 53`, where `++` is exact.  Fractional numbers
  are outside the embedding.  `-0` and `0` are identified (they are `===`, print alike and
  serialise alike).
* JavaScript strings are Lean strings; conversions work on their character lists.
* `req.body` is the object produced by the JSON body parser, modelled by its list of
  key/value entries (a later duplicate key wins, as in `JSON.parse`).
* `ToString` of an object that has an own `toString` entry throws a `TypeError` (no JSON
  value is callable, and the inherited `valueOf` returns the object itself), so `parseInt`
  of such a body value throws.  A handler that throws is answered by the default error
  handler of Express with status 500; the effects that took place before the throw remain.
* A response is the status passed to `res.status` and the value passed to `res.json`
  (before serialisation), or no body for `res.send()`, or the error answer.
-/

namespace Bookstore

/-! ## JavaScript values -/

/-- A JavaScript number: not-a-number, an integer, or an infinity with its sign. -/
inductive JsNum where
  | nan
  | int (n : Int)
  | inf (negative : Bool)
  deriving DecidableEq

/-- A JavaScript value as it can occur in a parsed JSON body or in a stored record. -/
inductive JsVal where
  | undefined
  | null
  | bool (b : Bool)
  | num (n : JsNum)
  | str (s : String)
  | arr (xs : List JsVal)
  | obj (kvs : List (String × JsVal))

/-- Strict equality `a === b` on numbers: `NaN` is not equal to anything, itself included. -/
def JsNum.strictEq : JsNum → JsNum → Bool
  | .int a, .int b => decide (a = b)
  | .inf a, .inf b => decide (a = b)
  | _, _ => false

/-- The abstract operation `ToBoolean`: the truthiness tested by `if (v)` and `v || w`. -/
def JsVal.truthy : JsVal → Bool
  | .undefined => false
  | .null => false
  | .bool b => b
  | .num .nan => false
  | .num (.int n) => decide (n ≠ 0)
  | .num (.inf _) => true
  | .str s => decide (s.data ≠ [])
  | .arr _ => true
  | .obj _ => true

/-! ## Rounding to a double and printing a number -/

/-- Halving loop behind `floorLog2`; the first argument bounds the number of halvings. -/
def log2Aux : Nat → Nat → Nat
  | 0, _ => 0
  | fuel + 1, n => if n < 2 then 0 else log2Aux fuel (n / 2) + 1

/-- The position of the highest set bit of `n` (`0` for `n ≤ 1`). -/
def floorLog2 (n : Nat) : Nat :=
  log2Aux n n

/-- The double nearest to the natural number `n`, ties going to the even significand
(53 bits); `none` when the rounded value is `2 ^ 1024` or more, which is `Infinity`. -/
def roundToDouble (n : Nat) : Option Nat :=
  if n < 2 ^ 53 then some n
  else
    let e := floorLog2 n - 52
    let q := n >>> e
    let r := n % (1 <<< e)
    let half := 1 <<< (e - 1)
    let q1 := if half < r ∨ (r = half ∧ q % 2 = 1) then q + 1 else q
    if 1024 ≤ floorLog2 (q1 <<< e) then none else some (q1 <<< e)

/-- The multiple of `10 ^ j` nearest to the double `x` among the multiples that round to
`x`, if there is one (on a tie the one with the even quotient). -/
def roundTripAt (x j : Nat) : Option Nat :=
  let p := 10 ^ j
  let lo := x / p * p
  let hi := lo + p
  let okLo := decide (lo ≠ 0) && decide (roundToDouble lo = some x)
  let okHi := decide (roundToDouble hi = some x)
  if okLo && okHi then
    if x - lo < hi - x then some lo
    else if hi - x < x - lo then some hi
    else if (x / p) % 2 = 0 then some lo
    else some hi
  else if okLo then some lo
  else if okHi then some hi
  else none

/-- Search for the largest scale `j` (at most the given one) with a multiple of `10 ^ j`
that rounds to `x`; scale `0` always succeeds with `x` itself. -/
def shortestFrom (x : Nat) : Nat → Nat × Nat
  | 0 => (x, 0)
  | j + 1 =>
    match roundTripAt x (j + 1) with
    | some c => (c, j + 1)
    | none => shortestFrom x j

/-- The decimal with the fewest significant digits that rounds to the double `x`, as the
pair of its value and the number of its trailing zeros that are not significant. -/
def shortestDecimal (x : Nat) : Nat × Nat :=
  shortestFrom x (Nat.toDigits 10 x).length

/-- The operation `Number::toString` on a non-negative integral double: the shortest
digits that read back as the same double, padded with zeros up to 21 digits, in exponent
form beyond. -/
def natToString (x : Nat) : List Char :=
  let c := (shortestDecimal x).1
  let j := (shortestDecimal x).2
  let ds := Nat.toDigits 10 c
  if ds.length ≤ 21 then ds
  else
    let ex := 'e' :: '+' :: Nat.toDigits 10 (ds.length - 1)
    match Nat.toDigits 10 (c / 10 ^ j) with
    | [] => ex
    | [d] => d :: ex
    | d :: rest => d :: '.' :: (rest ++ ex)

/-- The operation `Number::toString`; an integer stands for the double nearest to it. -/
def numberToString : JsNum → List Char
  | .nan => "NaN".data
  | .inf false => "Infinity".data
  | .inf true => "-Infinity".data
  | .int n =>
    match roundToDouble n.natAbs with
    | none => if n < 0 then "-Infinity".data else "Infinity".data
    | some x => if n < 0 then '-' :: natToString x else natToString x

/-! ## `ToString` -/

/-- The object has an own entry named `toString`. -/
def hasOwnToString (kvs : List (String × JsVal)) : Bool :=
  kvs.any (fun kv => kv.1 == "toString")

mutual
/-- The abstract operation `ToString`, as a list of characters; `none` when it throws a
`TypeError`, which happens for an object with an own `toString` entry and for an array
with such an object among the elements it joins. -/
def JsVal.toStr : JsVal → Option (List Char)
  | .undefined => some "undefined".data
  | .null => some "null".data
  | .bool b => some (if b then "true".data else "false".data)
  | .num n => some (numberToString n)
  | .str s => some s.data
  | .arr xs => JsVal.joinStr xs
  | .obj kvs => if hasOwnToString kvs then none else some "[object Object]".data
/-- The function `Array.prototype.join` with the default separator, used by `ToString` on
arrays. -/
def JsVal.joinStr : List JsVal → Option (List Char)
  | [] => some []
  | x :: r =>
    match JsVal.elemStr x with
    | none => none
    | some a =>
      if r.isEmpty then some a
      else
        match JsVal.joinStr r with
        | none => none
        | some b => some (a ++ ',' :: b)
/-- One element inside `join`: `undefined` and `null` give the empty string, any other
element is converted with `ToString`. -/
def JsVal.elemStr : JsVal → Option (List Char)
  | .undefined => some []
  | .null => some []
  | .bool b => some (if b then "true".data else "false".data)
  | .num n => some (numberToString n)
  | .str s => some s.data
  | .arr xs => JsVal.joinStr xs
  | .obj kvs => if hasOwnToString kvs then none else some "[object Object]".data
end

/-! ## `parseInt` with no radix argument -/

/-- The characters `parseInt` skips at the start (`StrWhiteSpaceChar`: white space and
line terminators). -/
def isStrWhiteSpaceChar (c : Char) : Bool :=
  let n := c.toNat
  n = 0x09 || n = 0x0A || n = 0x0B || n = 0x0C || n = 0x0D || n = 0x20 || n = 0xA0 ||
  n = 0x1680 || (0x2000 ≤ n && n ≤ 0x200A) || n = 0x2028 || n = 0x2029 || n = 0x202F ||
  n = 0x205F || n = 0x3000 || n = 0xFEFF

/-- The value of a character as a digit in the given radix, if it is one. -/
def digitValue (radix : Nat) (c : Char) : Option Nat :=
  let n := c.toNat
  let v : Option Nat :=
    if 48 ≤ n ∧ n ≤ 57 then some (n - 48)
    else if 97 ≤ n ∧ n ≤ 122 then some (n - 97 + 10)
    else if 65 ≤ n ∧ n ≤ 90 then some (n - 65 + 10)
    else none
  match v with
  | some d => if d < radix then some d else none
  | none => none

/-- The longest run of radix digits at the start, as digit values. -/
def takeDigits (radix : Nat) : List Char → List Nat
  | [] => []
  | c :: cs =>
    match digitValue radix c with
    | some d => d :: takeDigits radix cs
    | none => []

/-- The number denoted by a list of digit values, most significant first. -/
def digitsToNat (radix : Nat) (ds : List Nat) : Nat :=
  ds.foldl (fun acc d => acc * radix + d) 0

/-- The function `parseInt` on an input string: skip leading white space, read an optional
sign, switch to radix 16 after a `0x`/`0X` mark, then read the longest run of digits; no
digit gives `NaN`, otherwise the result is the double nearest to the signed integer the
digits denote (the exact value is rounded, as V8 does; the language specification lets an
implementation approximate a decimal run after its 20th significant digit). -/
def parseIntChars (input : List Char) : JsNum :=
  let s := input.dropWhile isStrWhiteSpaceChar
  let signed : Int × List Char :=
    match s with
    | '-' :: r => (-1, r)
    | '+' :: r => (1, r)
    | _ => (1, s)
  let radixed : Nat × List Char :=
    match signed.2 with
    | '0' :: 'x' :: r => (16, r)
    | '0' :: 'X' :: r => (16, r)
    | _ => (10, signed.2)
  let z := takeDigits radixed.1 radixed.2
  if z.isEmpty then JsNum.nan
  else
    match roundToDouble (digitsToNat radixed.1 z) with
    | some v => JsNum.int (signed.1 * (v : Int))
    | none => JsNum.inf (decide (signed.1 = -1))

/-- The call `parseInt(v)`: the argument is first converted with `ToString`; `none` when
that conversion throws. -/
def parseInt (v : JsVal) : Option JsNum :=
  match v.toStr with
  | some cs => some (parseIntChars cs)
  | none => none

/-- A parsed JSON request body: the entries of the object. -/
abbrev ReqBody := List (String × JsVal)

/-- Property read `body[key]` (as done by the destructuring `const { key } = req.body`):
the value of the last entry with that key, `undefined` when there is none. -/
def getProp (body : ReqBody) (key : String) : JsVal :=
  match body.reverse.find? (fun kv => kv.1 == key) with
  | some kv => kv.2
  | none => JsVal.undefined

/-! ## Array helpers -/

/-- The method `Array.prototype.findIndex`: the index of the first element satisfying `p`, or `-1`. -/
def findIndex {α : Type} (p : α → Bool) : List α → Int
  | [] => -1
  | x :: xs =>
    if p x then 0
    else
      let i := findIndex p xs
      if i = -1 then -1 else i + 1

/-! ## Records, store and responses -/

/-- A book record. -/
structure Book where
  id : JsNum
  title : JsVal
  author_id : JsNum
  category_id : JsNum
  published_year : JsNum

/-- An author record. -/
structure Author where
  id : JsNum
  name : JsVal

/-- A category record. -/
structure Category where
  id : JsNum
  name : JsVal

/-- The module-level mutable state of `server.js`. -/
structure Store where
  books : List Book
  authors : List Author
  categories : List Category
  currentBookId : Int
  currentAuthorId : Int
  currentCategoryId : Int

/-- The value handed to `res.json`, or nothing for `res.send()`, or the answer of the
error handler when the route handler threw. -/
inductive ResBody where
  | empty
  | emptyObject
  | book (b : Book)
  | books (bs : List Book)
  | author (a : Author)
  | authors (as : List Author)
  | category (c : Category)
  | categories (cs : List Category)
  | thrown

/-- A response: status code and body. -/
structure Response where
  status : Nat
  body : ResBody

/-- The answer to a request whose handler threw: status 500 from the default error
handler. -/
def errorResponse : Response :=
  { status := 500, body := .thrown }

/-- The store at process start (`server.js` lines 11-28). -/
def seed : Store where
  books :=
    [ { id := .int 1, title := .str "The Great Gatsby", author_id := .int 1,
        category_id := .int 1, published_year := .int 1925 },
      { id := .int 2, title := .str "To Kill a Mockingbird", author_id := .int 2,
        category_id := .int 2, published_year := .int 1960 } ]
  authors :=
    [ { id := .int 1, name := .str "F. Scott Fitzgerald" },
      { id := .int 2, name := .str "Harper Lee" } ]
  categories :=
    [ { id := .int 1, name := .str "Fiction" },
      { id := .int 2, name := .str "Classic" } ]
  currentBookId := 3
  currentAuthorId := 3
  currentCategoryId := 3

/-! ## Books endpoints (`server.js` lines 32-101) -/

/-- Handler of `GET /books`. -/
def getBooks (s : Store) : Store × Response :=
  (s, { status := 200, body := .books s.books })

/-- Handler of `GET /books/:bookId`.  The path parameter is a string, so the `parseInt`
call cannot throw and the first branch is never taken. -/
def getBookById (s : Store) (bookIdParam : String) : Store × Response :=
  match parseInt (.str bookIdParam) with
  | none => (s, errorResponse)
  | some bookId =>
    let book := s.books.find? (fun b => b.id.strictEq bookId)
    match book with
    | some b => (s, { status := 200, body := .book b })
    | none => (s, { status := 200, body := .emptyObject })

/-- The object literal `{ id, title, author_id: parseInt(author_id), category_id:
parseInt(category_id), published_year: parseInt(published_year) }` written in `POST /books`
(lines 52-58) and in the insert branch of `PUT /books/:bookId` (lines 73-79); `none` when
one of the `parseInt` calls throws. -/
def newBook (id : JsNum) (title author_id category_id published_year : JsVal) : Option Book :=
  match parseInt author_id with
  | none => none
  | some a =>
    match parseInt category_id with
    | none => none
    | some c =>
      match parseInt published_year with
      | none => none
      | some y =>
        some { id := id, title := title, author_id := a, category_id := c,
               published_year := y }

/-- Handler of `POST /books`.  The literal evaluates `id: currentBookId++` first, so the
counter is already advanced when a later `parseInt` throws; nothing is pushed then. -/
def postBooks (s : Store) (body : ReqBody) : Store × Response :=
  let title := getProp body "title"
  let author_id := getProp body "author_id"
  let category_id := getProp body "category_id"
  let published_year := getProp body "published_year"
  match newBook (.int s.currentBookId) title author_id category_id published_year with
  | none => ({ s with currentBookId := s.currentBookId + 1 }, errorResponse)
  | some b =>
    ({ s with books := s.books ++ [b], currentBookId := s.currentBookId + 1 },
     { status := 201, body := .book b })

/-- One guarded assignment `if (v) record.field = parseInt(v)` of the update branch:
`.ok` with the record after the assignment (or unchanged when `v` is falsy), `.error` with
the record as it stands when `parseInt` throws. -/
def assignParsed (v : JsVal) (assign : Book → JsNum → Book) (b : Book) : Except Book Book :=
  if v.truthy then
    match parseInt v with
    | some n => .ok (assign b n)
    | none => .error b
  else .ok b

/-- The four guarded assignments of the update branch of `PUT /books/:bookId`
(`server.js` lines 85-88), applied in order to the record found: `.ok` with the record
after all four, `.error` with the record as left by the assignments that ran before a
`parseInt` threw. -/
def updateBookFields (b0 : Book) (title author_id category_id published_year : JsVal) :
    Except Book Book :=
  let b1 := if title.truthy then { b0 with title := title } else b0
  match assignParsed author_id (fun b n => { b with author_id := n }) b1 with
  | .error b => .error b
  | .ok b2 =>
    match assignParsed category_id (fun b n => { b with category_id := n }) b2 with
    | .error b => .error b
    | .ok b3 => assignParsed published_year (fun b n => { b with published_year := n }) b3

/-- Handler of `PUT /books/:bookId`.  In the insert branch a throwing `parseInt` leaves the
array as it was; in the update branch the record is mutated in place, so the assignments made
before a throw stay.  The branch for a missing `books[bookIndex]` stands for the `TypeError`
that reading a field of it would raise; it is never taken, since `findIndex` only returns
`-1` or a valid index, and neither is the branch for a throwing parse of the path
parameter. -/
def putBookById (s : Store) (bookIdParam : String) (body : ReqBody) : Store × Response :=
  match parseInt (.str bookIdParam) with
  | none => (s, errorResponse)
  | some bookId =>
    let title := getProp body "title"
    let author_id := getProp body "author_id"
    let category_id := getProp body "category_id"
    let published_year := getProp body "published_year"
    let bookIndex := findIndex (fun b => b.id.strictEq bookId) s.books
    if bookIndex = -1 then
      match newBook bookId title author_id category_id published_year with
      | none => (s, errorResponse)
      | some b => ({ s with books := s.books ++ [b] }, { status := 200, body := .book b })
    else
      match s.books[bookIndex.toNat]? with
      | none => (s, errorResponse)
      | some b0 =>
        match updateBookFields b0 title author_id category_id published_year with
        | .ok b =>
          ({ s with books := s.books.set bookIndex.toNat b }, { status := 200, body := .book b })
        | .error b => ({ s with books := s.books.set bookIndex.toNat b }, errorResponse)

/-- Handler of `DELETE /books/:bookId`. -/
def deleteBookById (s : Store) (bookIdParam : String) : Store × Response :=
  match parseInt (.str bookIdParam) with
  | none => (s, errorResponse)
  | some bookId =>
    ({ s with books := s.books.filter (fun b => !(b.id.strictEq bookId)) },
     { status := 204, body := .empty })

/-! ## Authors endpoints (`server.js` lines 105-161) -/

/-- Handler of `GET /authors`. -/
def getAuthors (s : Store) : Store × Response :=
  (s, { status := 200, body := .authors s.authors })

/-- Handler of `GET /authors/:authorId`. -/
def getAuthorById (s : Store) (authorIdParam : String) : Store × Response :=
  match parseInt (.str authorIdParam) with
  | none => (s, errorResponse)
  | some authorId =>
    let author := s.authors.find? (fun a => a.id.strictEq authorId)
    match author with
    | some a => (s, { status := 200, body := .author a })
    | none => (s, { status := 200, body := .emptyObject })

/-- Handler of `POST /authors`. -/
def postAuthors (s : Store) (body : ReqBody) : Store × Response :=
  let name := getProp body "name"
  let newAuthor : Author := { id := .int s.currentAuthorId, name := name }
  ({ s with authors := s.authors ++ [newAuthor], currentAuthorId := s.currentAuthorId + 1 },
   { status := 201, body := .author newAuthor })

/-- Handler of `PUT /authors/:authorId`: the update branch assigns `name` without a guard
(`server.js` line 150). -/
def putAuthorById (s : Store) (authorIdParam : String) (body : ReqBody) : Store × Response :=
  match parseInt (.str authorIdParam) with
  | none => (s, errorResponse)
  | some authorId =>
    let name := getProp body "name"
    let authorIndex := findIndex (fun a => a.id.strictEq authorId) s.authors
    if authorIndex = -1 then
      let newAuthor : Author := { id := authorId, name := name }
      ({ s with authors := s.authors ++ [newAuthor] },
       { status := 200, body := .author newAuthor })
    else
      match s.authors[authorIndex.toNat]? with
      | none => (s, errorResponse)
      | some a0 =>
        let a : Author := { a0 with name := name }
        ({ s with authors := s.authors.set authorIndex.toNat a },
         { status := 200, body := .author a })

/-- Handler of `DELETE /authors/:authorId`. -/
def deleteAuthorById (s : Store) (authorIdParam : String) : Store × Response :=
  match parseInt (.str authorIdParam) with
  | none => (s, errorResponse)
  | some authorId =>
    ({ s with authors := s.authors.filter (fun a => !(a.id.strictEq authorId)) },
     { status := 204, body := .empty })

/-! ## Categories endpoints (`server.js` lines 165-221) -/

/-- Handler of `GET /categories`. -/
def getCategories (s : Store) : Store × Response :=
  (s, { status := 200, body := .categories s.categories })

/-- Handler of `GET /categories/:categoryId`. -/
def getCategoryById (s : Store) (categoryIdParam : String) : Store × Response :=
  match parseInt (.str categoryIdParam) with
  | none => (s, errorResponse)
  | some categoryId =>
    let category := s.categories.find? (fun c => c.id.strictEq categoryId)
    match category with
    | some c => (s, { status := 200, body := .category c })
    | none => (s, { status := 200, body := .emptyObject })

/-- Handler of `POST /categories`. -/
def postCategories (s : Store) (body : ReqBody) : Store × Response :=
  let name := getProp body "name"
  let newCategory : Category := { id := .int s.currentCategoryId, name := name }
  ({ s with categories := s.categories ++ [newCategory],
            currentCategoryId := s.currentCategoryId + 1 },
   { status := 201, body := .category newCategory })

/-- Handler of `PUT /categories/:categoryId`: the update branch assigns `name` without a
guard (`server.js` line 210). -/
def putCategoryById (s : Store) (categoryIdParam : String) (body : ReqBody) :
    Store × Response :=
  match parseInt (.str categoryIdParam) with
  | none => (s, errorResponse)
  | some categoryId =>
    let name := getProp body "name"
    let categoryIndex := findIndex (fun c => c.id.strictEq categoryId) s.categories
    if categoryIndex = -1 then
      let newCategory : Category := { id := categoryId, name := name }
      ({ s with categories := s.categories ++ [newCategory] },
       { status := 200, body := .category newCategory })
    else
      match s.categories[categoryIndex.toNat]? with
      | none => (s, errorResponse)
      | some c0 =>
        let c : Category := { c0 with name := name }
        ({ s with categories := s.categories.set categoryIndex.toNat c },
         { status := 200, body := .category c })

/-- Handler of `DELETE /categories/:categoryId`. -/
def deleteCategoryById (s : Store) (categoryIdParam : String) : Store × Response :=
  match parseInt (.str categoryIdParam) with
  | none => (s, errorResponse)
  | some categoryId =>
    ({ s with categories := s.categories.filter (fun c => !(c.id.strictEq categoryId)) },
     { status := 204, body := .empty })

/-! ## Requests and request sequences -/

/-- The three entity kinds (route families). -/
inductive Entity where
  | books
  | authors
  | categories
  deriving DecidableEq

/-- A request to one of the fifteen entity routes. -/
inductive Request where
  | getAll (e : Entity)
  | getById (e : Entity) (idParam : String)
  | post (e : Entity) (body : ReqBody)
  | put (e : Entity) (idParam : String) (body : ReqBody)
  | delete (e : Entity) (idParam : String)

/-- Route dispatch: the handler registered for the method and path of the request. -/
def handle (s : Store) : Request → Store × Response
  | .getAll .books => getBooks s
  | .getAll .authors => getAuthors s
  | .getAll .categories => getCategories s
  | .getById .books p => getBookById s p
  | .getById .authors p => getAuthorById s p
  | .getById .categories p => getCategoryById s p
  | .post .books body => postBooks s body
  | .post .authors body => postAuthors s body
  | .post .categories body => postCategories s body
  | .put .books p body => putBookById s p body
  | .put .authors p body => putAuthorById s p body
  | .put .categories p body => putCategoryById s p body
  | .delete .books p => deleteBookById s p
  | .delete .authors p => deleteAuthorById s p
  | .delete .categories p => deleteCategoryById s p

/-- The store after serving a sequence of requests one after the other. -/
def run (s : Store) : List Request → Store
  | [] => s
  | r :: rs => run (handle s r).1 rs

/-- The responses to a sequence of requests served one after the other. -/
def responses (s : Store) : List Request → List Response
  | [] => []
  | r :: rs => (handle s r).2 :: responses (handle s r).1 rs

/-- The auto-increment counter of an entity. -/
def counter (s : Store) : Entity → Int
  | .books => s.currentBookId
  | .authors => s.currentAuthorId
  | .categories => s.currentCategoryId

/-- The ids of the records of an entity, in list order. -/
def ids (s : Store) : Entity → List JsNum
  | .books => s.books.map (fun b => b.id)
  | .authors => s.authors.map (fun a => a.id)
  | .categories => s.categories.map (fun c => c.id)

/-- The id carried by a response body that is a single record. -/
def ResBody.recordId : ResBody → Option JsNum
  | .book b => some b.id
  | .author a => some a.id
  | .category c => some c.id
  | _ => none

/-! ## Notions used to state the properties -/

/-- None of the three `parseInt` calls that `POST /books` and `PUT /books/:bookId` make on
the body fields `author_id`, `category_id` and `published_year` throws. -/
def bookFieldsParse (body : ReqBody) : Bool :=
  (parseInt (getProp body "author_id")).isSome &&
  (parseInt (getProp body "category_id")).isSome &&
  (parseInt (getProp body "published_year")).isSome

/-- No `parseInt` call that a handler of the entity makes on a body field throws: a
condition on the body for books, none for authors and categories, whose handlers do not
call `parseInt` on the body. -/
def fieldsParse : Entity → ReqBody → Bool
  | .books, body => bookFieldsParse body
  | .authors, _ => true
  | .categories, _ => true

/-- The record that the update branch leaves in the array, whether the assignments ran to
the end or stopped at a throwing `parseInt`. -/
def storedAfter : Except Book Book → Book
  | .ok b => b
  | .error b => b

/-- The response of the update branch: 200 with the record, or the error answer. -/
def updateResponse : Except Book Book → Response
  | .ok b => { status := 200, body := .book b }
  | .error _ => errorResponse

/-- No two entries of an id list at different positions are the same number (two `NaN`
entries count as the same id). -/
def uniqueIds (l : List JsNum) : Prop :=
  l.Nodup

/-- Within each collection no two records have the same id. -/
def UniqueIds (s : Store) : Prop :=
  ∀ e, uniqueIds (ids s e)

/-- No record of the entity has an id `===` to `pid`. -/
def absentId (s : Store) (e : Entity) (pid : JsNum) : Bool :=
  (ids s e).all (fun x => !(x.strictEq pid))

/-- The request, served in store `s`, appends a record to the collection of entity `e`: a
`POST` to `e`, or a `PUT` to `e` whose parsed id matches no record, in both cases with body
fields that parse (otherwise the handler throws before the push). -/
def appendsTo (e : Entity) (s : Store) : Request → Bool
  | .post e' body => decide (e' = e) && fieldsParse e' body
  | .put e' p body =>
    decide (e' = e) && fieldsParse e' body && absentId s e' (parseIntChars p.data)
  | _ => false

/-- The request, served in store `s`, appends a record under an id that a record of the
collection already has: a `POST` that appends while some record holds the counter value, or
a `PUT` that appends a record keyed by `NaN` while a record keyed by `NaN` exists. -/
def collides (s : Store) : Request → Bool
  | .post e body => fieldsParse e body && decide (JsNum.int (counter s e) ∈ ids s e)
  | .put e p body =>
    fieldsParse e body && decide (parseIntChars p.data = JsNum.nan) &&
      decide (JsNum.nan ∈ ids s e)
  | _ => false

/-- No request of the sequence, served one after the other from store `s`, collides. -/
def noCollision (s : Store) : List Request → Bool
  | [] => true
  | r :: rs => !(collides s r) && noCollision (handle s r).1 rs

/-- The record `b` is the first element of `l`, in list order, whose id is `===` to `pid`. -/
def FirstWithId {α : Type} (key : α → JsNum) (l : List α) (pid : JsNum) (b : α) : Prop :=
  ∃ pre post, l = pre ++ b :: post ∧ (∀ x ∈ pre, (key x).strictEq pid = false) ∧
    (key b).strictEq pid = true

/-- No element of `l` has an id `===` to `pid`. -/
def NoneWithId {α : Type} (key : α → JsNum) (l : List α) (pid : JsNum) : Prop :=
  ∀ x ∈ l, (key x).strictEq pid = false

/-- The key does not occur in the request body. -/
def absentKey (body : ReqBody) (key : String) : Prop :=
  ∀ kv ∈ body, kv.1 ≠ key

/-- The entity a request is addressed to. -/
def Request.entity : Request → Entity
  | .getAll e => e
  | .getById e _ => e
  | .post e _ => e
  | .put e _ _ => e
  | .delete e _ => e

/-- The success status the routes table gives for each method. -/
def expectedStatus : Request → Nat
  | .getAll _ => 200
  | .getById _ _ => 200
  | .post _ _ => 201
  | .put _ _ _ => 200
  | .delete _ _ => 204

/-- The handler of the request throws: a `POST` or `PUT` whose body fields do not parse
(books only). -/
def throwsInParseInt : Request → Bool
  | .post e body => !(fieldsParse e body)
  | .put e _ body => !(fieldsParse e body)
  | _ => false

/-- The number of `POST` requests to entity `e` in a sequence. -/
def postCount (e : Entity) : List Request → Nat
  | [] => 0
  | .post e' _ :: rs => (if e' = e then 1 else 0) + postCount e rs
  | .getAll _ :: rs => postCount e rs
  | .getById _ _ :: rs => postCount e rs
  | .put _ _ _ :: rs => postCount e rs
  | .delete _ _ :: rs => postCount e rs

/-- A delete operation on entity `e`: a `DELETE` request to `e`. -/
def isDeleteOn (e : Entity) : Request → Bool
  | .delete e' _ => decide (e' = e)
  | _ => false

/-- The number of records of entity `e` that a request removes when served in store `s`:
for a `DELETE` to `e`, the number of records whose id is `===` to the parsed id. -/
def removedBy (e : Entity) (s : Store) : Request → Nat
  | .delete e' p =>
    if e' = e then ((ids s e).filter (fun x => x.strictEq (parseIntChars p.data))).length else 0
  | _ => 0

/-- The number of requests of a sequence served from store `s` that append a record to the
collection of `e`. -/
def createCount (e : Entity) (s : Store) : List Request → Nat
  | [] => 0
  | r :: rs => (if appendsTo e s r then 1 else 0) + createCount e (handle s r).1 rs

/-- The number of delete operations on `e` in a sequence. -/
def deleteCount (e : Entity) : List Request → Nat
  | [] => 0
  | r :: rs => (if isDeleteOn e r then 1 else 0) + deleteCount e rs

/-- The number of records of `e` removed by a sequence served from store `s`. -/
def removedCount (e : Entity) (s : Store) : List Request → Nat
  | [] => 0
  | r :: rs => removedBy e s r + removedCount e (handle s r).1 rs

/-- A decimal digit character `0`..`9`. -/
def isDecimalDigit (c : Char) : Bool :=
  decide (48 ≤ c.toNat ∧ c.toNat ≤ 57)

/-- The integer denoted by a run of decimal digit characters. -/
def decimalValue (ds : List Char) : Nat :=
  ds.foldl (fun acc c => acc * 10 + (c.toNat - 48)) 0

/-- The character list starts with a decimal digit. -/
def startsWithDigit : List Char → Bool
  | [] => false
  | c :: _ => isDecimalDigit c

/-- The character list starts with `0x` or `0X`. -/
def startsWithHexMark : List Char → Bool
  | '0' :: 'x' :: _ => true
  | '0' :: 'X' :: _ => true
  | _ => false

/-- A hexadecimal digit character `0`..`9`, `a`..`f`, `A`..`F`. -/
def isHexDigit (c : Char) : Bool :=
  decide ((48 ≤ c.toNat ∧ c.toNat ≤ 57) ∨ (97 ≤ c.toNat ∧ c.toNat ≤ 102) ∨
    (65 ≤ c.toNat ∧ c.toNat ≤ 70))

/-- The value of a hexadecimal digit character. -/
def hexDigitValue (c : Char) : Nat :=
  if c.toNat ≤ 57 then c.toNat - 48
  else if 97 ≤ c.toNat then c.toNat - 87
  else c.toNat - 55

/-- The integer denoted by a run of hexadecimal digit characters. -/
def hexValue (hs : List Char) : Nat :=
  hs.foldl (fun acc c => acc * 16 + hexDigitValue c) 0

/-- The character list starts with a hexadecimal digit. -/
def startsWithHexDigit : List Char → Bool
  | [] => false
  | c :: _ => isHexDigit c

/-- The Number value of a natural number: the double nearest to it, `Infinity` when that
is out of range. -/
def toDouble (n : Nat) : JsNum :=
  match roundToDouble n with
  | some v => .int v
  | none => .inf false

/-- Property read `book[key]` on a stored book record: the value of the field of that
name, `undefined` for any other key. -/
def Book.prop (b : Book) (key : String) : JsVal :=
  if key = "id" then .num b.id
  else if key = "title" then b.title
  else if key = "author_id" then .num b.author_id
  else if key = "category_id" then .num b.category_id
  else if key = "published_year" then .num b.published_year
  else .undefined

/-- The records of an entity, in list order, each as the body a response would carry. -/
def records (s : Store) : Entity → List ResBody
  | .books => s.books.map ResBody.book
  | .authors => s.authors.map ResBody.author
  | .categories => s.categories.map ResBody.category

/-- The body is a record whose id is `NaN`. -/
def ResBody.nanKeyed (x : ResBody) : Bool :=
  decide (x.recordId = some JsNum.nan)

/-! ## Basic facts about strict equality and array search -/

theorem strictEq_eq_true_iff (a b : JsNum) :
    a.strictEq b = true ↔ a = b ∧ a ≠ .nan := by
  cases a <;> cases b <;> simp [JsNum.strictEq]

theorem strictEq_int_right (a : JsNum) (n : Int) :
    a.strictEq (.int n) = true ↔ a = .int n := by
  cases a <;> simp [JsNum.strictEq]

theorem strictEq_nan_right (a : JsNum) : a.strictEq .nan = false := by
  cases a <;> simp [JsNum.strictEq]

theorem strictEq_eq_of_true {a b : JsNum} (h : a.strictEq b = true) : a = b :=
  ((strictEq_eq_true_iff a b).1 h).1

theorem strictEq_self {a : JsNum} (h : a ≠ .nan) : a.strictEq a = true :=
  (strictEq_eq_true_iff a a).2 ⟨rfl, h⟩

theorem findIndex_ge {α : Type} (p : α → Bool) (l : List α) : -1 ≤ findIndex p l := by
  induction l with
  | nil => simp [findIndex]
  | cons x xs ih =>
    unfold findIndex
    split
    · omega
    · simp only []
      split <;> omega

theorem findIndex_eq_neg_one_iff {α : Type} (p : α → Bool) (l : List α) :
    findIndex p l = -1 ↔ ∀ x ∈ l, p x = false := by
  induction l with
  | nil => simp [findIndex]
  | cons x xs ih =>
    have hge := findIndex_ge p xs
    unfold findIndex
    by_cases hx : p x = true
    · simp [hx]
    · simp only [Bool.not_eq_true] at hx
      simp only [hx, Bool.false_eq_true, if_false, List.mem_cons, forall_eq_or_imp, true_and]
      rw [← ih]
      constructor
      · intro h
        by_contra hne
        simp [hne] at h
        omega
      · intro h
        simp [h]

theorem findIndex_split {α : Type} (p : α → Bool) (pre : List α) (b : α) (post : List α)
    (hpre : ∀ x ∈ pre, p x = false) (hb : p b = true) :
    findIndex p (pre ++ b :: post) = pre.length := by
  induction pre with
  | nil => simp [findIndex, hb]
  | cons x xs ih =>
    have hx : p x = false := hpre x (List.mem_cons_self _ _)
    have ih' := ih (fun y hy => hpre y (List.mem_cons_of_mem _ hy))
    rw [List.cons_append]
    unfold findIndex
    simp only [hx, Bool.false_eq_true, if_false, ih', List.length_cons]
    split
    · omega
    · push_cast; ring

theorem exists_split_of_exists {α : Type} (p : α → Bool) (l : List α)
    (h : ∃ x ∈ l, p x = true) :
    ∃ pre b post, l = pre ++ b :: post ∧ (∀ x ∈ pre, p x = false) ∧ p b = true := by
  induction l with
  | nil => simp at h
  | cons x xs ih =>
    by_cases hx : p x = true
    · exact ⟨[], x, xs, rfl, by simp, hx⟩
    · simp only [Bool.not_eq_true] at hx
      have h' : ∃ y ∈ xs, p y = true := by
        obtain ⟨y, hy, hpy⟩ := h
        rcases List.mem_cons.1 hy with rfl | hy
        · simp [hx] at hpy
        · exact ⟨y, hy, hpy⟩
      obtain ⟨pre, b, post, rfl, hpre, hb⟩ := ih h'
      refine ⟨x :: pre, b, post, rfl, ?_, hb⟩
      intro y hy
      rcases List.mem_cons.1 hy with rfl | hy
      · exact hx
      · exact hpre y hy

theorem find?_split {α : Type} (p : α → Bool) (pre : List α) (b : α) (post : List α)
    (hpre : ∀ x ∈ pre, p x = false) (hb : p b = true) :
    (pre ++ b :: post).find? p = some b := by
  induction pre with
  | nil => simp [hb]
  | cons x xs ih =>
    have hx : p x = false := hpre x (List.mem_cons_self _ _)
    simp [List.find?, hx, ih (fun y hy => hpre y (List.mem_cons_of_mem _ hy))]

theorem getElem?_split {α : Type} (pre : List α) (b : α) (post : List α) :
    (pre ++ b :: post)[((pre.length : Nat) : Int).toNat]? = some b := by
  rw [Int.toNat_ofNat, List.getElem?_append_right (le_refl _)]
  simp

theorem set_split {α : Type} (pre : List α) (b b' : α) (post : List α) :
    (pre ++ b :: post).set ((pre.length : Nat) : Int).toNat b' = pre ++ b' :: post := by
  simp

/-- Either no element satisfies `p`, or the list splits at the first one that does. -/
theorem none_or_split {α : Type} (p : α → Bool) (l : List α) :
    (∀ x ∈ l, p x = false) ∨
    ∃ pre b post, l = pre ++ b :: post ∧ (∀ x ∈ pre, p x = false) ∧ p b = true := by
  by_cases h : ∃ x ∈ l, p x = true
  · exact Or.inr (exists_split_of_exists p l h)
  · left
    intro x hx
    by_contra hpx
    exact h ⟨x, hx, by simpa using hpx⟩

/-! ## `parseInt` on strings and on falsy values never throws -/

/-- The parse of a path parameter: `ToString` is the identity on a string. -/
theorem parseInt_str (p : String) : parseInt (.str p) = some (parseIntChars p.data) := rfl

theorem parseInt_of_falsy (v : JsVal) (h : v.truthy = false) : ∃ n, parseInt v = some n := by
  cases v with
  | undefined => exact ⟨_, rfl⟩
  | null => exact ⟨_, rfl⟩
  | bool b => exact ⟨_, rfl⟩
  | num n => exact ⟨_, rfl⟩
  | str s => exact ⟨_, rfl⟩
  | arr xs => simp [JsVal.truthy] at h
  | obj kvs => simp [JsVal.truthy] at h

theorem bookFieldsParse_iff (body : ReqBody) :
    bookFieldsParse body = true ↔
      ∃ a c y, parseInt (getProp body "author_id") = some a ∧
        parseInt (getProp body "category_id") = some c ∧
        parseInt (getProp body "published_year") = some y := by
  unfold bookFieldsParse
  simp only [Bool.and_eq_true, Option.isSome_iff_exists]
  constructor
  · rintro ⟨⟨⟨a, ha⟩, ⟨c, hc⟩⟩, ⟨y, hy⟩⟩
    exact ⟨a, c, y, ha, hc, hy⟩
  · rintro ⟨a, c, y, ha, hc, hy⟩
    exact ⟨⟨⟨a, ha⟩, ⟨c, hc⟩⟩, ⟨y, hy⟩⟩

theorem newBook_of_parse (id : JsNum) (t a c y : JsVal) (a1 c1 y1 : JsNum)
    (ha : parseInt a = some a1) (hc : parseInt c = some c1) (hy : parseInt y = some y1) :
    newBook id t a c y =
      some { id := id, title := t, author_id := a1, category_id := c1, published_year := y1 } := by
  simp only [newBook, ha, hc, hy]

theorem newBook_none (id : JsNum) (body : ReqBody) (h : bookFieldsParse body = false) :
    newBook id (getProp body "title") (getProp body "author_id") (getProp body "category_id")
      (getProp body "published_year") = none := by
  unfold bookFieldsParse at h
  unfold newBook
  cases ha : parseInt (getProp body "author_id") with
  | none => rfl
  | some a =>
    cases hc : parseInt (getProp body "category_id") with
    | none => rfl
    | some c =>
      cases hy : parseInt (getProp body "published_year") with
      | none => rfl
      | some y => simp [ha, hc, hy] at h

theorem newBook_id (id : JsNum) (t a c y : JsVal) (b : Book) (h : newBook id t a c y = some b) :
    b.id = id ∧ b.title = t ∧ parseInt a = some b.author_id ∧
      parseInt c = some b.category_id ∧ parseInt y = some b.published_year := by
  unfold newBook at h
  cases ha : parseInt a with
  | none => simp [ha] at h
  | some a1 =>
    cases hc : parseInt c with
    | none => simp [ha, hc] at h
    | some c1 =>
      cases hy : parseInt y with
      | none => simp [ha, hc, hy] at h
      | some y1 =>
        simp only [ha, hc, hy, Option.some.injEq] at h
        subst h
        exact ⟨rfl, rfl, rfl, rfl, rfl⟩

/-! ## The update branch of `PUT /books/:bookId` -/

theorem assignParsed_id (v : JsVal) (f : Book → JsNum → Book) (b : Book)
    (hf : ∀ x n, (f x n).id = x.id) : (storedAfter (assignParsed v f b)).id = b.id := by
  unfold assignParsed
  split
  · split
    · exact hf _ _
    · rfl
  · rfl

theorem updateBookFields_id (b : Book) (t a c y : JsVal) :
    (storedAfter (updateBookFields b t a c y)).id = b.id := by
  unfold updateBookFields assignParsed
  cases t.truthy <;> cases a.truthy <;> cases c.truthy <;> cases y.truthy <;>
    cases parseInt a <;> cases parseInt c <;> cases parseInt y <;> rfl

/-- When no `parseInt` throws, the update runs to the end: each field is replaced by the
(parsed) body value when that value is truthy and kept otherwise. -/
theorem updateBookFields_ok (b : Book) (t a c y : JsVal) (a1 c1 y1 : JsNum)
    (ha : parseInt a = some a1) (hc : parseInt c = some c1) (hy : parseInt y = some y1) :
    updateBookFields b t a c y =
      .ok { id := b.id,
            title := if t.truthy then t else b.title,
            author_id := if a.truthy then a1 else b.author_id,
            category_id := if c.truthy then c1 else b.category_id,
            published_year := if y.truthy then y1 else b.published_year } := by
  unfold updateBookFields assignParsed
  simp only [ha, hc, hy]
  cases t.truthy <;> cases a.truthy <;> cases c.truthy <;> cases y.truthy <;> rfl

/-- Serving the same update on the record it left gives the same outcome. -/
theorem updateBookFields_idem (b : Book) (t a c y : JsVal) :
    updateBookFields (storedAfter (updateBookFields b t a c y)) t a c y
      = updateBookFields b t a c y := by
  unfold updateBookFields assignParsed
  cases t.truthy <;> cases a.truthy <;> cases c.truthy <;> cases y.truthy <;>
    cases parseInt a <;> cases parseInt c <;> cases parseInt y <;> rfl

/-- The update throws exactly when a `parseInt` call it makes throws, and falsy values are
never parsed: it runs to the end if and only if the three fields parse. -/
theorem updateBookFields_isOk_iff (b : Book) (body : ReqBody) :
    (∃ b1, updateBookFields b (getProp body "title") (getProp body "author_id")
        (getProp body "category_id") (getProp body "published_year") = .ok b1) ↔
      bookFieldsParse body = true := by
  constructor
  · rintro ⟨b1, h⟩
    rw [bookFieldsParse_iff]
    unfold updateBookFields assignParsed at h
    have fa := parseInt_of_falsy (getProp body "author_id")
    have fc := parseInt_of_falsy (getProp body "category_id")
    have fy := parseInt_of_falsy (getProp body "published_year")
    cases hta : (getProp body "author_id").truthy <;>
      cases htc : (getProp body "category_id").truthy <;>
      cases hty : (getProp body "published_year").truthy <;>
      cases hpa : parseInt (getProp body "author_id") <;>
      cases hpc : parseInt (getProp body "category_id") <;>
      cases hpy : parseInt (getProp body "published_year") <;>
      simp_all
  · intro h
    obtain ⟨a1, c1, y1, ha, hc, hy⟩ := (bookFieldsParse_iff body).1 h
    exact ⟨_, updateBookFields_ok b _ _ _ _ a1 c1 y1 ha hc hy⟩

/-! ## The handlers in terms of the parsed path id -/

theorem getBookById_eq (s : Store) (p : String) :
    getBookById s p =
      match s.books.find? (fun b => b.id.strictEq (parseIntChars p.data)) with
      | some b => (s, { status := 200, body := .book b })
      | none => (s, { status := 200, body := .emptyObject }) := rfl

theorem getAuthorById_eq (s : Store) (p : String) :
    getAuthorById s p =
      match s.authors.find? (fun a => a.id.strictEq (parseIntChars p.data)) with
      | some a => (s, { status := 200, body := .author a })
      | none => (s, { status := 200, body := .emptyObject }) := rfl

theorem getCategoryById_eq (s : Store) (p : String) :
    getCategoryById s p =
      match s.categories.find? (fun c => c.id.strictEq (parseIntChars p.data)) with
      | some c => (s, { status := 200, body := .category c })
      | none => (s, { status := 200, body := .emptyObject }) := rfl

theorem deleteBookById_eq (s : Store) (p : String) :
    deleteBookById s p =
      ({ s with books := s.books.filter (fun b => !(b.id.strictEq (parseIntChars p.data))) },
       { status := 204, body := .empty }) := rfl

theorem deleteAuthorById_eq (s : Store) (p : String) :
    deleteAuthorById s p =
      ({ s with authors := s.authors.filter (fun a => !(a.id.strictEq (parseIntChars p.data))) },
       { status := 204, body := .empty }) := rfl

theorem deleteCategoryById_eq (s : Store) (p : String) :
    deleteCategoryById s p =
      ({ s with categories :=
          s.categories.filter (fun c => !(c.id.strictEq (parseIntChars p.data))) },
       { status := 204, body := .empty }) := rfl

theorem putBookById_eq (s : Store) (p : String) (body : ReqBody) :
    putBookById s p body =
      if findIndex (fun b : Book => b.id.strictEq (parseIntChars p.data)) s.books = -1 then
        match newBook (parseIntChars p.data) (getProp body "title") (getProp body "author_id")
            (getProp body "category_id") (getProp body "published_year") with
        | none => (s, errorResponse)
        | some b => ({ s with books := s.books ++ [b] }, { status := 200, body := .book b })
      else
        match s.books[(findIndex (fun b : Book => b.id.strictEq (parseIntChars p.data))
            s.books).toNat]? with
        | none => (s, errorResponse)
        | some b0 =>
          match updateBookFields b0 (getProp body "title") (getProp body "author_id")
              (getProp body "category_id") (getProp body "published_year") with
          | .ok b =>
            ({ s with books := s.books.set (findIndex (fun b : Book =>
                b.id.strictEq (parseIntChars p.data)) s.books).toNat b },
             { status := 200, body := .book b })
          | .error b =>
            ({ s with books := s.books.set (findIndex (fun b : Book =>
                b.id.strictEq (parseIntChars p.data)) s.books).toNat b }, errorResponse) := rfl

theorem putAuthorById_eq (s : Store) (p : String) (body : ReqBody) :
    putAuthorById s p body =
      if findIndex (fun a : Author => a.id.strictEq (parseIntChars p.data)) s.authors = -1 then
        ({ s with authors := s.authors ++
            [{ id := parseIntChars p.data, name := getProp body "name" }] },
         { status := 200,
           body := .author { id := parseIntChars p.data, name := getProp body "name" } })
      else
        match s.authors[(findIndex (fun a : Author => a.id.strictEq (parseIntChars p.data))
            s.authors).toNat]? with
        | none => (s, errorResponse)
        | some a0 =>
          ({ s with
              authors :=
                s.authors.set
                  (findIndex (fun a : Author => a.id.strictEq (parseIntChars p.data))
                    s.authors).toNat
                  { a0 with name := getProp body "name" } },
           { status := 200, body := .author { a0 with name := getProp body "name" } }) := rfl

theorem putCategoryById_eq (s : Store) (p : String) (body : ReqBody) :
    putCategoryById s p body =
      if findIndex (fun c : Category => c.id.strictEq (parseIntChars p.data)) s.categories
          = -1 then
        ({ s with categories := s.categories ++
            [{ id := parseIntChars p.data, name := getProp body "name" }] },
         { status := 200,
           body := .category { id := parseIntChars p.data, name := getProp body "name" } })
      else
        match s.categories[(findIndex (fun c : Category =>
            c.id.strictEq (parseIntChars p.data)) s.categories).toNat]? with
        | none => (s, errorResponse)
        | some c0 =>
          ({ s with
              categories :=
                s.categories.set
                  (findIndex (fun c : Category => c.id.strictEq (parseIntChars p.data))
                    s.categories).toNat
                  { c0 with name := getProp body "name" } },
           { status := 200, body := .category { c0 with name := getProp body "name" } }) := rfl

/-! ## Effect of each handler, case by case -/

/-- The insert branch of `PUT /books/:bookId`. -/
theorem putBookById_absent (s : Store) (p : String) (body : ReqBody)
    (h : ∀ b ∈ s.books, b.id.strictEq (parseIntChars p.data) = false) :
    putBookById s p body =
      match newBook (parseIntChars p.data) (getProp body "title") (getProp body "author_id")
          (getProp body "category_id") (getProp body "published_year") with
      | none => (s, errorResponse)
      | some b => ({ s with books := s.books ++ [b] }, { status := 200, body := .book b }) := by
  have hi : findIndex (fun b : Book => b.id.strictEq (parseIntChars p.data)) s.books = -1 :=
    (findIndex_eq_neg_one_iff _ _).2 h
  rw [putBookById_eq, if_pos hi]

/-- The insert branch when the body fields parse. -/
theorem putBookById_absent_ok (s : Store) (p : String) (body : ReqBody) (a c y : JsNum)
    (h : ∀ b ∈ s.books, b.id.strictEq (parseIntChars p.data) = false)
    (ha : parseInt (getProp body "author_id") = some a)
    (hc : parseInt (getProp body "category_id") = some c)
    (hy : parseInt (getProp body "published_year") = some y) :
    putBookById s p body =
      ({ s with books := s.books ++
          [{ id := parseIntChars p.data, title := getProp body "title",
             author_id := a, category_id := c, published_year := y }] },
       { status := 200,
         body := .book
           { id := parseIntChars p.data, title := getProp body "title",
             author_id := a, category_id := c, published_year := y } }) := by
  rw [putBookById_absent s p body h, newBook_of_parse _ _ _ _ _ a c y ha hc hy]

/-- The insert branch when a `parseInt` throws: nothing is pushed. -/
theorem putBookById_absent_throw (s : Store) (p : String) (body : ReqBody)
    (h : ∀ b ∈ s.books, b.id.strictEq (parseIntChars p.data) = false)
    (hb : bookFieldsParse body = false) :
    putBookById s p body = (s, errorResponse) := by
  rw [putBookById_absent s p body h, newBook_none _ body hb]

/-- The update branch of `PUT /books/:bookId`. -/
theorem putBookById_present (s : Store) (p : String) (body : ReqBody)
    (pre : List Book) (b : Book) (post : List Book)
    (hs : s.books = pre ++ b :: post)
    (hpre : ∀ x ∈ pre, x.id.strictEq (parseIntChars p.data) = false)
    (hb : b.id.strictEq (parseIntChars p.data) = true) :
    putBookById s p body =
      ({ s with books := pre ++
          storedAfter (updateBookFields b (getProp body "title") (getProp body "author_id")
            (getProp body "category_id") (getProp body "published_year")) :: post },
       updateResponse (updateBookFields b (getProp body "title") (getProp body "author_id")
            (getProp body "category_id") (getProp body "published_year"))) := by
  have hi : findIndex (fun b : Book => b.id.strictEq (parseIntChars p.data)) s.books
      = (pre.length : Int) := by
    rw [hs]; exact findIndex_split _ pre b post hpre hb
  have hne : ¬ ((pre.length : Int) = -1) := by omega
  rw [putBookById_eq, hi, if_neg hne, hs, getElem?_split]
  dsimp only
  generalize updateBookFields b (getProp body "title") (getProp body "author_id")
      (getProp body "category_id") (getProp body "published_year") = u
  cases u <;> simp only [set_split, storedAfter, updateResponse]

theorem putAuthorById_absent (s : Store) (p : String) (body : ReqBody)
    (h : ∀ a ∈ s.authors, a.id.strictEq (parseIntChars p.data) = false) :
    putAuthorById s p body =
      ({ s with authors := s.authors ++
          [{ id := parseIntChars p.data, name := getProp body "name" }] },
       { status := 200,
         body := .author { id := parseIntChars p.data, name := getProp body "name" } }) := by
  have hi : findIndex (fun a : Author => a.id.strictEq (parseIntChars p.data)) s.authors = -1 :=
    (findIndex_eq_neg_one_iff _ _).2 h
  rw [putAuthorById_eq, if_pos hi]

theorem putAuthorById_present (s : Store) (p : String) (body : ReqBody)
    (pre : List Author) (a : Author) (post : List Author)
    (hs : s.authors = pre ++ a :: post)
    (hpre : ∀ x ∈ pre, x.id.strictEq (parseIntChars p.data) = false)
    (ha : a.id.strictEq (parseIntChars p.data) = true) :
    putAuthorById s p body =
      ({ s with authors := pre ++ { a with name := getProp body "name" } :: post },
       { status := 200, body := .author { a with name := getProp body "name" } }) := by
  have hi : findIndex (fun a : Author => a.id.strictEq (parseIntChars p.data)) s.authors
      = (pre.length : Int) := by
    rw [hs]; exact findIndex_split _ pre a post hpre ha
  have hne : ¬ ((pre.length : Int) = -1) := by omega
  rw [putAuthorById_eq, hi, if_neg hne, hs, getElem?_split]
  simp only [set_split]

theorem putCategoryById_absent (s : Store) (p : String) (body : ReqBody)
    (h : ∀ c ∈ s.categories, c.id.strictEq (parseIntChars p.data) = false) :
    putCategoryById s p body =
      ({ s with categories := s.categories ++
          [{ id := parseIntChars p.data, name := getProp body "name" }] },
       { status := 200,
         body := .category { id := parseIntChars p.data, name := getProp body "name" } }) := by
  have hi : findIndex (fun c : Category => c.id.strictEq (parseIntChars p.data)) s.categories
      = -1 := (findIndex_eq_neg_one_iff _ _).2 h
  rw [putCategoryById_eq, if_pos hi]

theorem putCategoryById_present (s : Store) (p : String) (body : ReqBody)
    (pre : List Category) (c : Category) (post : List Category)
    (hs : s.categories = pre ++ c :: post)
    (hpre : ∀ x ∈ pre, x.id.strictEq (parseIntChars p.data) = false)
    (hc : c.id.strictEq (parseIntChars p.data) = true) :
    putCategoryById s p body =
      ({ s with categories := pre ++ { c with name := getProp body "name" } :: post },
       { status := 200, body := .category { c with name := getProp body "name" } }) := by
  have hi : findIndex (fun c : Category => c.id.strictEq (parseIntChars p.data)) s.categories
      = (pre.length : Int) := by
    rw [hs]; exact findIndex_split _ pre c post hpre hc
  have hne : ¬ ((pre.length : Int) = -1) := by omega
  rw [putCategoryById_eq, hi, if_neg hne, hs, getElem?_split]
  simp only [set_split]

theorem getBookById_fst (s : Store) (p : String) : (getBookById s p).1 = s := by
  rw [getBookById_eq]
  split <;> rfl

theorem getAuthorById_fst (s : Store) (p : String) : (getAuthorById s p).1 = s := by
  rw [getAuthorById_eq]
  split <;> rfl

theorem getCategoryById_fst (s : Store) (p : String) : (getCategoryById s p).1 = s := by
  rw [getCategoryById_eq]
  split <;> rfl

/-- The two outcomes of `POST /books`. -/
theorem postBooks_ok (s : Store) (body : ReqBody) (a c y : JsNum)
    (ha : parseInt (getProp body "author_id") = some a)
    (hc : parseInt (getProp body "category_id") = some c)
    (hy : parseInt (getProp body "published_year") = some y) :
    postBooks s body =
      ({ s with
          books :=
            s.books ++
              [{ id := .int s.currentBookId, title := getProp body "title",
                 author_id := a, category_id := c, published_year := y }]
          currentBookId := s.currentBookId + 1 },
       { status := 201,
         body := .book
           { id := .int s.currentBookId, title := getProp body "title",
             author_id := a, category_id := c, published_year := y } }) := by
  simp only [postBooks, newBook_of_parse _ _ _ _ _ a c y ha hc hy]

theorem postBooks_throw (s : Store) (body : ReqBody) (hb : bookFieldsParse body = false) :
    postBooks s body = ({ s with currentBookId := s.currentBookId + 1 }, errorResponse) := by
  simp only [postBooks, newBook_none _ body hb]

/-! ## Effect of a request on ids and counters -/

theorem ids_none_books {s : Store} {pid : JsNum}
    (h : ∀ x ∈ ids s .books, x.strictEq pid = false) :
    ∀ b ∈ s.books, b.id.strictEq pid = false :=
  fun b hb => h b.id (List.mem_map.2 ⟨b, hb, rfl⟩)

theorem ids_none_authors {s : Store} {pid : JsNum}
    (h : ∀ x ∈ ids s .authors, x.strictEq pid = false) :
    ∀ a ∈ s.authors, a.id.strictEq pid = false :=
  fun a ha => h a.id (List.mem_map.2 ⟨a, ha, rfl⟩)

theorem ids_none_categories {s : Store} {pid : JsNum}
    (h : ∀ x ∈ ids s .categories, x.strictEq pid = false) :
    ∀ c ∈ s.categories, c.id.strictEq pid = false :=
  fun c hc => h c.id (List.mem_map.2 ⟨c, hc, rfl⟩)

theorem updateResponse_of_parse (b : Book) (body : ReqBody) (h : bookFieldsParse body = true) :
    updateResponse (updateBookFields b (getProp body "title") (getProp body "author_id")
        (getProp body "category_id") (getProp body "published_year")) =
      { status := 200,
        body := .book (storedAfter (updateBookFields b (getProp body "title")
          (getProp body "author_id") (getProp body "category_id")
          (getProp body "published_year"))) } := by
  obtain ⟨b1, hb1⟩ := (updateBookFields_isOk_iff b body).2 h
  rw [hb1]
  rfl

theorem updateResponse_of_throw (b : Book) (body : ReqBody) (h : bookFieldsParse body = false) :
    updateResponse (updateBookFields b (getProp body "title") (getProp body "author_id")
        (getProp body "category_id") (getProp body "published_year")) = errorResponse := by
  cases hu : updateBookFields b (getProp body "title") (getProp body "author_id")
      (getProp body "category_id") (getProp body "published_year") with
  | error b1 => rfl
  | ok b1 =>
    have := (updateBookFields_isOk_iff b body).1 ⟨b1, hu⟩
    rw [h] at this
    exact absurd this (by decide)

theorem get_effect (s : Store) (e : Entity) (p : String) :
    (handle s (.getAll e)).1 = s ∧ (handle s (.getById e p)).1 = s := by
  cases e
  · exact ⟨rfl, getBookById_fst s p⟩
  · exact ⟨rfl, getAuthorById_fst s p⟩
  · exact ⟨rfl, getCategoryById_fst s p⟩

/-- Effect of a `POST`: the counter of the entity advances in every case; a record with the
prior counter as id is appended when the body fields parse, nothing is appended and the
error answer is sent when they do not. -/
theorem post_effect (s : Store) (e : Entity) (body : ReqBody) :
    counter (handle s (.post e body)).1 e = counter s e + 1 ∧
    (∀ e', e' ≠ e → counter (handle s (.post e body)).1 e' = counter s e') ∧
    (∀ e', e' ≠ e → ids (handle s (.post e body)).1 e' = ids s e') ∧
    (fieldsParse e body = true →
      (handle s (.post e body)).2.status = 201 ∧
      (handle s (.post e body)).2.body.recordId = some (.int (counter s e)) ∧
      ids (handle s (.post e body)).1 e = ids s e ++ [.int (counter s e)]) ∧
    (fieldsParse e body = false →
      (handle s (.post e body)).2 = errorResponse ∧
      ids (handle s (.post e body)).1 e = ids s e) := by
  cases e
  · by_cases hb : bookFieldsParse body = true
    · obtain ⟨a, c, y, ha, hc, hy⟩ := (bookFieldsParse_iff body).1 hb
      have hpost : handle s (.post .books body) = _ := postBooks_ok s body a c y ha hc hy
      rw [hpost]
      refine ⟨rfl, ?_, ?_, fun _ => ⟨rfl, rfl, by simp [ids, counter]⟩, ?_⟩
      · intro e' he; cases e' <;> first | exact absurd rfl he | rfl
      · intro e' he; cases e' <;> first | exact absurd rfl he | rfl
      · intro h; simp only [fieldsParse] at h; rw [hb] at h; exact absurd h (by decide)
    · simp only [Bool.not_eq_true] at hb
      have hpost : handle s (.post .books body) = _ := postBooks_throw s body hb
      rw [hpost]
      refine ⟨rfl, ?_, ?_, ?_, fun _ => ⟨rfl, rfl⟩⟩
      · intro e' he; cases e' <;> first | exact absurd rfl he | rfl
      · intro e' he; cases e' <;> first | exact absurd rfl he | rfl
      · intro h; simp only [fieldsParse] at h; rw [hb] at h; exact absurd h (by decide)
  · refine ⟨rfl, ?_, ?_, fun _ => ⟨rfl, rfl, by simp [handle, postAuthors, ids, counter]⟩, ?_⟩
    · intro e' he; cases e' <;> first | exact absurd rfl he | rfl
    · intro e' he; cases e' <;> first | exact absurd rfl he | rfl
    · intro h; simp [fieldsParse] at h
  · refine ⟨rfl, ?_, ?_,
      fun _ => ⟨rfl, rfl, by simp [handle, postCategories, ids, counter]⟩, ?_⟩
    · intro e' he; cases e' <;> first | exact absurd rfl he | rfl
    · intro e' he; cases e' <;> first | exact absurd rfl he | rfl
    · intro h; simp [fieldsParse] at h

theorem delete_effect (s : Store) (e : Entity) (p : String) :
    (handle s (.delete e p)).2 = { status := 204, body := .empty } ∧
    ids (handle s (.delete e p)).1 e
      = (ids s e).filter (fun x => !(x.strictEq (parseIntChars p.data))) ∧
    (∀ e', counter (handle s (.delete e p)).1 e' = counter s e') ∧
    (∀ e', e' ≠ e → ids (handle s (.delete e p)).1 e' = ids s e') := by
  cases e
  · refine ⟨rfl, ?_, fun e' => by cases e' <;> rfl, ?_⟩
    · simp only [handle, deleteBookById_eq, ids, List.filter_map]; rfl
    · intro e' he; cases e' <;> first | exact absurd rfl he | rfl
  · refine ⟨rfl, ?_, fun e' => by cases e' <;> rfl, ?_⟩
    · simp only [handle, deleteAuthorById_eq, ids, List.filter_map]; rfl
    · intro e' he; cases e' <;> first | exact absurd rfl he | rfl
  · refine ⟨rfl, ?_, fun e' => by cases e' <;> rfl, ?_⟩
    · simp only [handle, deleteCategoryById_eq, ids, List.filter_map]; rfl
    · intro e' he; cases e' <;> first | exact absurd rfl he | rfl

/-- Effect of a `PUT` whose parsed id matches no record: a record with that id is appended
when the body fields parse; the store is left alone and the error answer is sent when they
do not. -/
theorem put_effect_absent (s : Store) (e : Entity) (p : String) (body : ReqBody)
    (h : ∀ x ∈ ids s e, x.strictEq (parseIntChars p.data) = false) :
    (∀ e', counter (handle s (.put e p body)).1 e' = counter s e') ∧
    (∀ e', e' ≠ e → ids (handle s (.put e p body)).1 e' = ids s e') ∧
    (fieldsParse e body = true →
      (handle s (.put e p body)).2.status = 200 ∧
      (handle s (.put e p body)).2.body.recordId = some (parseIntChars p.data) ∧
      ids (handle s (.put e p body)).1 e = ids s e ++ [parseIntChars p.data]) ∧
    (fieldsParse e body = false → handle s (.put e p body) = (s, errorResponse)) := by
  cases e
  · by_cases hb : bookFieldsParse body = true
    · obtain ⟨a, c, y, ha, hc, hy⟩ := (bookFieldsParse_iff body).1 hb
      have hput : handle s (.put .books p body) = _ :=
        putBookById_absent_ok s p body a c y (ids_none_books h) ha hc hy
      rw [hput]
      refine ⟨fun e' => by cases e' <;> rfl, ?_, fun _ => ⟨rfl, rfl, by simp [ids]⟩, ?_⟩
      · intro e' he; cases e' <;> first | exact absurd rfl he | rfl
      · intro h'; simp only [fieldsParse] at h'; rw [hb] at h'; exact absurd h' (by decide)
    · simp only [Bool.not_eq_true] at hb
      have hput : handle s (.put .books p body) = _ :=
        putBookById_absent_throw s p body (ids_none_books h) hb
      rw [hput]
      refine ⟨fun e' => rfl, fun e' _ => rfl, ?_, fun _ => rfl⟩
      intro h'; simp only [fieldsParse] at h'; rw [hb] at h'; exact absurd h' (by decide)
  · have hput : handle s (.put .authors p body) = _ :=
      putAuthorById_absent s p body (ids_none_authors h)
    rw [hput]
    refine ⟨fun e' => by cases e' <;> rfl, ?_, fun _ => ⟨rfl, rfl, by simp [ids]⟩, ?_⟩
    · intro e' he; cases e' <;> first | exact absurd rfl he | rfl
    · intro h'; simp [fieldsParse] at h'
  · have hput : handle s (.put .categories p body) = _ :=
      putCategoryById_absent s p body (ids_none_categories h)
    rw [hput]
    refine ⟨fun e' => by cases e' <;> rfl, ?_, fun _ => ⟨rfl, rfl, by simp [ids]⟩, ?_⟩
    · intro e' he; cases e' <;> first | exact absurd rfl he | rfl
    · intro h'; simp [fieldsParse] at h'

/-- Effect of a `PUT` whose parsed id matches a record: ids and counters stay as they are;
the answer is 200 when the body fields parse and the error answer when they do not. -/
theorem put_effect_present (s : Store) (e : Entity) (p : String) (body : ReqBody)
    (h : ¬ ∀ x ∈ ids s e, x.strictEq (parseIntChars p.data) = false) :
    ids (handle s (.put e p body)).1 e = ids s e ∧
    (∀ e', counter (handle s (.put e p body)).1 e' = counter s e') ∧
    (∀ e', e' ≠ e → ids (handle s (.put e p body)).1 e' = ids s e') ∧
    (fieldsParse e body = true → (handle s (.put e p body)).2.status = 200) ∧
    (fieldsParse e body = false → (handle s (.put e p body)).2 = errorResponse) := by
  cases e
  · rcases none_or_split (fun b : Book => b.id.strictEq (parseIntChars p.data)) s.books with
      hn | ⟨pre, b, post, hs, hpre, hb⟩
    · exact absurd (fun x hx => by
        obtain ⟨b, hb, rfl⟩ := List.mem_map.1 hx
        exact hn b hb) h
    · have hput : handle s (.put .books p body) = _ :=
        putBookById_present s p body pre b post hs hpre hb
      rw [hput]
      refine ⟨by simp [ids, hs, updateBookFields_id], fun e' => by cases e' <;> rfl, ?_, ?_, ?_⟩
      · intro e' he; cases e' <;> first | exact absurd rfl he | rfl
      · intro h'
        simp only [fieldsParse] at h'
        simp only [updateResponse_of_parse b body h']
      · intro h'
        simp only [fieldsParse] at h'
        exact updateResponse_of_throw b body h'
  · rcases none_or_split (fun a : Author => a.id.strictEq (parseIntChars p.data)) s.authors with
      hn | ⟨pre, a, post, hs, hpre, ha⟩
    · exact absurd (fun x hx => by
        obtain ⟨a, ha, rfl⟩ := List.mem_map.1 hx
        exact hn a ha) h
    · have hput : handle s (.put .authors p body) = _ :=
        putAuthorById_present s p body pre a post hs hpre ha
      rw [hput]
      refine ⟨by simp [ids, hs], fun e' => by cases e' <;> rfl, ?_, fun _ => rfl, ?_⟩
      · intro e' he; cases e' <;> first | exact absurd rfl he | rfl
      · intro h'; simp [fieldsParse] at h'
  · rcases none_or_split (fun c : Category => c.id.strictEq (parseIntChars p.data))
      s.categories with hn | ⟨pre, c, post, hs, hpre, hc⟩
    · exact absurd (fun x hx => by
        obtain ⟨c, hc, rfl⟩ := List.mem_map.1 hx
        exact hn c hc) h
    · have hput : handle s (.put .categories p body) = _ :=
        putCategoryById_present s p body pre c post hs hpre hc
      rw [hput]
      refine ⟨by simp [ids, hs], fun e' => by cases e' <;> rfl, ?_, fun _ => rfl, ?_⟩
      · intro e' he; cases e' <;> first | exact absurd rfl he | rfl
      · intro h'; simp [fieldsParse] at h'

/-! ## Id uniqueness -/

theorem uniqueIds_append_singleton_iff (l : List JsNum) (x : JsNum) (hl : uniqueIds l) :
    uniqueIds (l ++ [x]) ↔ x ∉ l := by
  unfold uniqueIds at *
  rw [List.nodup_append_comm, List.singleton_append, List.nodup_cons]
  exact ⟨fun h => h.1, fun h => ⟨h, hl⟩⟩

theorem uniqueIds_of_ids_eq {s s1 : Store} (e : Entity) (hu : UniqueIds s)
    (hother : ∀ e', e' ≠ e → ids s1 e' = ids s e') (he : uniqueIds (ids s1 e)) :
    UniqueIds s1 := by
  intro e'
  by_cases h : e' = e
  · subst h; exact he
  · rw [hother e' h]; exact hu e'

/-- When the parsed id matches no record under `===`, it is among the ids only if it is
`NaN`. -/
theorem mem_of_absent_iff (l : List JsNum) (pid : JsNum)
    (h : ∀ x ∈ l, x.strictEq pid = false) : pid ∈ l ↔ pid = .nan ∧ JsNum.nan ∈ l := by
  constructor
  · intro hm
    have hn : pid = .nan := by
      by_contra hne
      have := h pid hm
      rw [strictEq_self hne] at this
      exact absurd this (by decide)
    exact ⟨hn, hn ▸ hm⟩
  · rintro ⟨hn, hm⟩
    rw [hn]; exact hm

/-- From a store with unique ids, a request leaves the ids unique exactly when it is not a
colliding append. -/
theorem uniqueIds_step_iff (s : Store) (r : Request) (hu : UniqueIds s) :
    UniqueIds (handle s r).1 ↔ collides s r = false := by
  cases r with
  | getAll e => rw [(get_effect s e "").1]; exact ⟨fun _ => rfl, fun _ => hu⟩
  | getById e p => rw [(get_effect s e p).2]; exact ⟨fun _ => rfl, fun _ => hu⟩
  | post e body =>
    obtain ⟨-, -, hi', hok, hthrow⟩ := post_effect s e body
    cases hb : fieldsParse e body with
    | true =>
      obtain ⟨-, -, hi⟩ := hok hb
      have key : UniqueIds (handle s (.post e body)).1 ↔ JsNum.int (counter s e) ∉ ids s e := by
        constructor
        · intro h
          have := h e
          rw [hi] at this
          exact (uniqueIds_append_singleton_iff _ _ (hu e)).1 this
        · intro h
          refine uniqueIds_of_ids_eq e hu hi' ?_
          rw [hi]
          exact (uniqueIds_append_singleton_iff _ _ (hu e)).2 h
      rw [key]
      simp [collides, hb]
    | false =>
      obtain ⟨-, hi⟩ := hthrow hb
      have : UniqueIds (handle s (.post e body)).1 :=
        uniqueIds_of_ids_eq e hu hi' (by rw [hi]; exact hu e)
      simp [collides, hb, this]
  | put e p body =>
    by_cases h : ∀ x ∈ ids s e, x.strictEq (parseIntChars p.data) = false
    · obtain ⟨-, hi', hok, hthrow⟩ := put_effect_absent s e p body h
      cases hb : fieldsParse e body with
      | true =>
        obtain ⟨-, -, hi⟩ := hok hb
        have key : UniqueIds (handle s (.put e p body)).1 ↔ parseIntChars p.data ∉ ids s e := by
          constructor
          · intro h1
            have := h1 e
            rw [hi] at this
            exact (uniqueIds_append_singleton_iff _ _ (hu e)).1 this
          · intro h1
            refine uniqueIds_of_ids_eq e hu hi' ?_
            rw [hi]
            exact (uniqueIds_append_singleton_iff _ _ (hu e)).2 h1
        rw [key, mem_of_absent_iff _ _ h]
        simp [collides, hb]
      | false =>
        rw [hthrow hb]
        simp [collides, hb, hu]
    · obtain ⟨hi, -, hi', -, -⟩ := put_effect_present s e p body h
      have hne : parseIntChars p.data ≠ .nan := by
        intro hn
        apply h
        intro x _
        rw [hn]
        exact strictEq_nan_right x
      have : UniqueIds (handle s (.put e p body)).1 :=
        uniqueIds_of_ids_eq e hu hi' (by rw [hi]; exact hu e)
      simp [collides, hne, this]
  | delete e p =>
    obtain ⟨-, hi, -, hi'⟩ := delete_effect s e p
    have : UniqueIds (handle s (.delete e p)).1 :=
      uniqueIds_of_ids_eq e hu hi' (by rw [hi]; exact List.Nodup.filter _ (hu e))
    simp [collides, this]

theorem uniqueIds_seed : UniqueIds seed := by
  intro e
  cases e <;> unfold uniqueIds <;> decide

theorem uniqueIds_run (rs : List Request) :
    ∀ s, UniqueIds s → noCollision s rs = true → UniqueIds (run s rs) := by
  induction rs with
  | nil => intro s hs _; exact hs
  | cons r rs ih =>
    intro s hs h
    simp only [noCollision, Bool.and_eq_true, Bool.not_eq_true'] at h
    exact ih _ ((uniqueIds_step_iff s r hs).2 h.1) h.2

/-- C1 (as stated, refuted): a `PUT` that inserts the id the counter is about to hand out,
followed by a `POST`, leaves two books with id 3 in the store reached from the seed; and two
`PUT`s with an unparsable path id leave two books keyed by `NaN`. -/
theorem c1_duplicate_id_after_put_then_post :
    ids (run seed [.put .books "3" [("title", .str "X")], .post .books [("title", .str "Y")]])
        .books = [.int 1, .int 2, .int 3, .int 3] ∧
    ¬ UniqueIds
        (run seed [.put .books "3" [("title", .str "X")], .post .books [("title", .str "Y")]]) ∧
    ids (run seed [.put .books "abc" [], .put .books "abc" []]) .books
        = [.int 1, .int 2, .nan, .nan] ∧
    ¬ UniqueIds (run seed [.put .books "abc" [], .put .books "abc" []]) := by
  refine ⟨by decide, fun h => ?_, by decide, fun h => ?_⟩
  · have h3 := h .books
    revert h3
    unfold uniqueIds
    decide
  · have h3 := h .books
    revert h3
    unfold uniqueIds
    decide

/-- C1 (amended): in every state reached from the seeded store by a request sequence none of
whose requests is a colliding append (a `POST` that appends while a record of its
collection already has the counter value as id, or a `PUT` with a path id parsing to `NaN`
that appends while its collection already holds a record keyed by `NaN`), no two records of
a collection have the same id; and from any store with unique ids a request leaves the ids
unique exactly when it is not a colliding append. -/
theorem c1_unique_ids_without_colliding_append (rs : List Request)
    (h : noCollision seed rs = true) :
    UniqueIds (run seed rs) ∧
    ∀ s r, UniqueIds s → (UniqueIds (handle s r).1 ↔ collides s r = false) :=
  ⟨uniqueIds_run rs seed uniqueIds_seed h, uniqueIds_step_iff⟩

/-- Witness for C1 (amended): create, upsert an existing id, upsert the absent id 999, upsert
a deleted id, one upsert with an unparsable id, a create whose body throws, delete. -/
theorem c1_unique_ids_without_colliding_append_witness :
    noCollision seed
        [.post .books [("title", .str "A")], .put .books "1" [("title", .str "B")],
         .put .books "999" [("title", .str "C")],
         .delete .authors "2", .put .authors "2" [("name", .str "C")],
         .put .categories "abc" [],
         .post .books [("author_id", .obj [("toString", .num (.int 1))])],
         .getById .books "3"] = true ∧
    (UniqueIds (run seed
        [.post .books [("title", .str "A")], .put .books "1" [("title", .str "B")],
         .put .books "999" [("title", .str "C")],
         .delete .authors "2", .put .authors "2" [("name", .str "C")],
         .put .categories "abc" [],
         .post .books [("author_id", .obj [("toString", .num (.int 1))])],
         .getById .books "3"]) ∧
     ∀ s r, UniqueIds s → (UniqueIds (handle s r).1 ↔ collides s r = false)) :=
  ⟨by decide, c1_unique_ids_without_colliding_append _ (by decide)⟩

/-! ## Lookup and creation -/

theorem parseIntChars_of_parseInt {p : String} {n : JsNum}
    (h : parseInt (.str p) = some n) : parseIntChars p.data = n :=
  Option.some.inj h

theorem find?_none_of_noneWithId {α : Type} (key : α → JsNum) (l : List α) (pid : JsNum)
    (h : NoneWithId key l pid) : l.find? (fun x => (key x).strictEq pid) = none := by
  rw [List.find?_eq_none]
  intro x hx
  simp [h x hx]

theorem find?_of_firstWithId {α : Type} (key : α → JsNum) (l : List α) (pid : JsNum) (b : α)
    (h : FirstWithId key l pid b) : l.find? (fun x => (key x).strictEq pid) = some b := by
  obtain ⟨pre, post, rfl, hpre, hb⟩ := h
  exact find?_split (fun x => (key x).strictEq pid) pre b post hpre hb

theorem firstWithId_or_none {α : Type} (key : α → JsNum) (l : List α) (pid : JsNum) :
    NoneWithId key l pid ∨ ∃ b, FirstWithId key l pid b := by
  rcases none_or_split (fun x => (key x).strictEq pid) l with h | ⟨pre, b, post, hs, hpre, hb⟩
  · exact Or.inl h
  · exact Or.inr ⟨b, pre, post, hs, hpre, hb⟩

/-- C2: `GET` by id always answers 200 and leaves the store alone; when some record of the
collection has the parsed id (compared with `===`, as the code does) the body is the first
such record in list order and its id is the parsed id; when none has, the body is `{}`.
One of the two cases always applies.  Stated for books, authors and categories; the parsed
id is `parseIntChars p.data`, the value of `parseInt` on the path string `p`. -/
theorem c2_get_by_id_total (s : Store) (p : String) :
    ((getBookById s p).2.status = 200 ∧ (getBookById s p).1 = s ∧
      (∀ b, FirstWithId Book.id s.books (parseIntChars p.data) b →
        (getBookById s p).2.body = .book b ∧ b.id = parseIntChars p.data) ∧
      (NoneWithId Book.id s.books (parseIntChars p.data) →
        (getBookById s p).2.body = .emptyObject) ∧
      (NoneWithId Book.id s.books (parseIntChars p.data) ∨
        ∃ b, FirstWithId Book.id s.books (parseIntChars p.data) b)) ∧
    ((getAuthorById s p).2.status = 200 ∧ (getAuthorById s p).1 = s ∧
      (∀ a, FirstWithId Author.id s.authors (parseIntChars p.data) a →
        (getAuthorById s p).2.body = .author a ∧ a.id = parseIntChars p.data) ∧
      (NoneWithId Author.id s.authors (parseIntChars p.data) →
        (getAuthorById s p).2.body = .emptyObject) ∧
      (NoneWithId Author.id s.authors (parseIntChars p.data) ∨
        ∃ a, FirstWithId Author.id s.authors (parseIntChars p.data) a)) ∧
    ((getCategoryById s p).2.status = 200 ∧ (getCategoryById s p).1 = s ∧
      (∀ c, FirstWithId Category.id s.categories (parseIntChars p.data) c →
        (getCategoryById s p).2.body = .category c ∧ c.id = parseIntChars p.data) ∧
      (NoneWithId Category.id s.categories (parseIntChars p.data) →
        (getCategoryById s p).2.body = .emptyObject) ∧
      (NoneWithId Category.id s.categories (parseIntChars p.data) ∨
        ∃ c, FirstWithId Category.id s.categories (parseIntChars p.data) c)) := by
  refine ⟨⟨?_, getBookById_fst s p, ?_, ?_, firstWithId_or_none _ _ _⟩,
    ⟨?_, getAuthorById_fst s p, ?_, ?_, firstWithId_or_none _ _ _⟩,
    ⟨?_, getCategoryById_fst s p, ?_, ?_, firstWithId_or_none _ _ _⟩⟩
  · rw [getBookById_eq]; split <;> rfl
  · intro b hb
    have hid : b.id = parseIntChars p.data := by
      obtain ⟨_, _, _, _, h⟩ := hb
      exact strictEq_eq_of_true h
    refine ⟨?_, hid⟩
    simp only [getBookById_eq, find?_of_firstWithId Book.id s.books _ b hb]
  · intro h
    simp only [getBookById_eq, find?_none_of_noneWithId Book.id s.books _ h]
  · rw [getAuthorById_eq]; split <;> rfl
  · intro a ha
    have hid : a.id = parseIntChars p.data := by
      obtain ⟨_, _, _, _, h⟩ := ha
      exact strictEq_eq_of_true h
    refine ⟨?_, hid⟩
    simp only [getAuthorById_eq, find?_of_firstWithId Author.id s.authors _ a ha]
  · intro h
    simp only [getAuthorById_eq, find?_none_of_noneWithId Author.id s.authors _ h]
  · rw [getCategoryById_eq]; split <;> rfl
  · intro c hc
    have hid : c.id = parseIntChars p.data := by
      obtain ⟨_, _, _, _, h⟩ := hc
      exact strictEq_eq_of_true h
    refine ⟨?_, hid⟩
    simp only [getCategoryById_eq, find?_of_firstWithId Category.id s.categories _ c hc]
  · intro h
    simp only [getCategoryById_eq, find?_none_of_noneWithId Category.id s.categories _ h]

/-- Witness for C2: in the seeded store book 1 is found and book 999 gives `{}`. -/
theorem c2_get_by_id_total_witness :
    (getBookById seed "1").2.body =
      .book { id := .int 1, title := .str "The Great Gatsby", author_id := .int 1,
              category_id := .int 1, published_year := .int 1925 } ∧
    (getBookById seed "999").2.body = .emptyObject :=
  ⟨((c2_get_by_id_total seed "1").1.2.2.1 _ ⟨[], _, rfl, by simp, by decide⟩).1,
   (c2_get_by_id_total seed "999").1.2.2.2.1 (by unfold NoneWithId; decide)⟩

theorem responses_post_enum (e : Entity) (bodies : List ReqBody) :
    ∀ (k : Nat) (s : Store) (c : Int), counter s e = c + (k : Int) →
      (responses s (bodies.map (Request.post e))).map (fun r => (r.status, r.body.recordId)) =
        (List.enumFrom k bodies).map
          (fun ib => if fieldsParse e ib.2 = true
            then (201, some (JsNum.int (c + (ib.1 : Int)))) else (500, none)) := by
  induction bodies with
  | nil => intro k s c _; rfl
  | cons b bs ih =>
    intro k s c hc
    obtain ⟨hcount, -, -, hok, hthrow⟩ := post_effect s e b
    have hnext : counter (handle s (.post e b)).1 e = c + ((k + 1 : Nat) : Int) := by
      rw [hcount, hc]; push_cast; ring
    simp only [List.map_cons, responses, List.enumFrom_cons, ih (k + 1) _ c hnext]
    refine congrArg₂ _ ?_ rfl
    cases hb : fieldsParse e b with
    | true =>
      obtain ⟨hst, hid, -⟩ := hok hb
      rw [hst, hid, hc]
      rfl
    | false =>
      obtain ⟨hres, -⟩ := hthrow hb
      rw [hres]
      rfl

theorem enumFrom_map_of_all (e : Entity) (bodies : List ReqBody) (c : Int) :
    ∀ (k : Nat), (∀ b ∈ bodies, fieldsParse e b = true) →
      (List.enumFrom k bodies).map
          (fun ib => if fieldsParse e ib.2 = true
            then (201, some (JsNum.int (c + (ib.1 : Int)))) else (500, none)) =
        (List.range' k bodies.length).map
          (fun (i : Nat) => (201, some (JsNum.int (c + (i : Int))))) := by
  induction bodies with
  | nil => intro k _; rfl
  | cons b bs ih =>
    intro k hall
    have hb : fieldsParse e b = true := hall b (List.mem_cons_self _ _)
    simp only [List.enumFrom_cons, List.map_cons, List.length_cons, List.range'_succ, hb,
      if_true, ih (k + 1) (fun x hx => hall x (List.mem_cons_of_mem _ hx))]

/-- C3 (as stated, refuted): on the seeded store a `POST /books` whose `author_id` is an
object with an own `toString` entry throws in `parseInt` and is answered 500 with no record,
after the counter was advanced; the next `POST /books` gets id 4.  The two consecutive
creates do not return the ids 3 and 4. -/
theorem c3_throwing_create_returns_no_id :
    (responses seed
        [.post .books [("title", .str "A"), ("author_id", .obj [("toString", .num (.int 1))])],
         .post .books [("title", .str "B")]]).map (fun r => (r.status, r.body.recordId))
      = [(500, none), (201, some (.int 4))] := by
  decide

/-- C3 (amended): of `k` consecutive `POST`s to one entity served from a store whose counter
for that entity is `n`, the one at position `i` (from 0) answers 201 with id `n + i` when its
body fields parse, and 500 with no record when a `parseInt` on them throws (books only), the
counter advancing in both cases; so when all the bodies parse (always, for authors and
categories) the answers are 201 with the ids `n, n+1, ..., n+k-1` in that order. -/
theorem c3_consecutive_creates_contiguous (e : Entity) (bodies : List ReqBody) (s : Store) :
    (responses s (bodies.map (Request.post e))).map (fun r => (r.status, r.body.recordId)) =
      (List.enum bodies).map
        (fun ib => if fieldsParse e ib.2 = true
          then (201, some (JsNum.int (counter s e + (ib.1 : Int)))) else (500, none)) ∧
    ((∀ b ∈ bodies, fieldsParse e b = true) →
      (responses s (bodies.map (Request.post e))).map (fun r => (r.status, r.body.recordId)) =
        (List.range bodies.length).map
          (fun (i : Nat) => (201, some (JsNum.int (counter s e + (i : Int)))))) := by
  have hgen := responses_post_enum e bodies 0 s (counter s e) (by simp)
  refine ⟨hgen, fun hall => ?_⟩
  rw [hgen, List.range_eq_range']
  exact enumFrom_map_of_all e bodies (counter s e) 0 hall

/-- Witness for C3 (amended): two consecutive `POST /books` on the seeded store return the
ids 3 and 4. -/
theorem c3_consecutive_creates_contiguous_witness :
    (responses seed ([[("title", .str "A")], [("title", .str "B")]].map
        (Request.post .books))).map (fun r => (r.status, r.body.recordId))
      = [(201, some (.int 3)), (201, some (.int 4))] :=
  (c3_consecutive_creates_contiguous .books [[("title", .str "A")], [("title", .str "B")]]
    seed).2 (by decide)

/-- C4 (as stated, refuted): on the seeded store a `POST /books` whose `category_id` is an
object with an own `toString` entry is answered 500, and no record is appended (the counter
has been advanced all the same). -/
theorem c4_throwing_create_appends_nothing :
    (postBooks seed [("title", .str "T"), ("category_id", .obj [("toString", .null)])]).2.status
      = 500 ∧
    (postBooks seed [("title", .str "T"),
      ("category_id", .obj [("toString", .null)])]).2.body.recordId = none ∧
    (postBooks seed [("title", .str "T"),
      ("category_id", .obj [("toString", .null)])]).1.books.map Book.id = [.int 1, .int 2] ∧
    (postBooks seed [("title", .str "T"),
      ("category_id", .obj [("toString", .null)])]).1.currentBookId = 4 := by
  decide

/-- C4 (amended): `POST` answers 201 with a new record whose id is the prior counter and
whose title (name) is the body's value; the collection afterwards is the prior one with that
record appended last, so list-all returns one more record.  This holds for every body for
authors and categories, and for books for every body on whose `author_id`, `category_id` and
`published_year` `parseInt` does not throw; when it throws, `POST /books` is answered 500,
the collection is left as it was and the counter is advanced. -/
theorem c4_create_appends_one (s : Store) (body : ReqBody) :
    (bookFieldsParse body = true →
      ∃ nb : Book, (postBooks s body).2 = { status := 201, body := .book nb } ∧
        nb.id = .int s.currentBookId ∧ nb.title = getProp body "title" ∧
        (postBooks s body).1.books = s.books ++ [nb] ∧
        (getBooks (postBooks s body).1).2.body = .books (s.books ++ [nb]) ∧
        (postBooks s body).1.books.length = s.books.length + 1) ∧
    (bookFieldsParse body = false →
      (postBooks s body).2 = errorResponse ∧ (postBooks s body).1.books = s.books ∧
      (postBooks s body).1.currentBookId = s.currentBookId + 1) ∧
    (∃ na : Author, (postAuthors s body).2 = { status := 201, body := .author na } ∧
      na.id = .int s.currentAuthorId ∧ na.name = getProp body "name" ∧
      (postAuthors s body).1.authors = s.authors ++ [na] ∧
      (getAuthors (postAuthors s body).1).2.body = .authors (s.authors ++ [na]) ∧
      (postAuthors s body).1.authors.length = s.authors.length + 1) ∧
    (∃ nc : Category, (postCategories s body).2 = { status := 201, body := .category nc } ∧
      nc.id = .int s.currentCategoryId ∧ nc.name = getProp body "name" ∧
      (postCategories s body).1.categories = s.categories ++ [nc] ∧
      (getCategories (postCategories s body).1).2.body = .categories (s.categories ++ [nc]) ∧
      (postCategories s body).1.categories.length = s.categories.length + 1) := by
  refine ⟨fun hb => ?_, fun hb => ?_, ⟨_, rfl, rfl, rfl, rfl, rfl, ?_⟩,
    ⟨_, rfl, rfl, rfl, rfl, rfl, ?_⟩⟩
  · obtain ⟨a, c, y, ha, hc, hy⟩ := (bookFieldsParse_iff body).1 hb
    rw [postBooks_ok s body a c y ha hc hy]
    exact ⟨_, rfl, rfl, rfl, rfl, rfl, by simp⟩
  · rw [postBooks_throw s body hb]
    exact ⟨rfl, rfl, rfl⟩
  · simp [postAuthors]
  · simp [postCategories]

/-- Witness for C4 (amended): `POST /books` with a title and an author id on the seeded
store. -/
theorem c4_create_appends_one_witness :
    bookFieldsParse [("title", .str "New Book"), ("author_id", .num (.int 1))] = true ∧
    ∃ nb : Book,
      (postBooks seed [("title", .str "New Book"), ("author_id", .num (.int 1))]).2
        = { status := 201, body := .book nb } ∧
      nb.id = .int seed.currentBookId ∧
      nb.title = getProp [("title", .str "New Book"), ("author_id", .num (.int 1))] "title" ∧
      (postBooks seed [("title", .str "New Book"), ("author_id", .num (.int 1))]).1.books
        = seed.books ++ [nb] ∧
      (getBooks (postBooks seed
        [("title", .str "New Book"), ("author_id", .num (.int 1))]).1).2.body
        = .books (seed.books ++ [nb]) ∧
      (postBooks seed [("title", .str "New Book"), ("author_id", .num (.int 1))]).1.books.length
        = seed.books.length + 1 :=
  ⟨by decide,
   (c4_create_appends_one seed [("title", .str "New Book"), ("author_id", .num (.int 1))]).1
     (by decide)⟩

/-! ## Upsert -/

theorem getProp_absent (body : ReqBody) (key : String) (h : absentKey body key) :
    getProp body key = .undefined := by
  have hf : body.reverse.find? (fun kv => kv.1 == key) = none := by
    rw [List.find?_eq_none]
    intro kv hkv
    have := h kv (List.mem_reverse.1 hkv)
    simpa using this
  simp only [getProp, hf]

/-- A field whose body value is falsy keeps its prior value, whether or not the update
runs to the end; the title is replaced by a truthy body value in every case. -/
theorem storedAfter_fields (b : Book) (t a c y : JsVal) :
    (storedAfter (updateBookFields b t a c y)).title = (if t.truthy then t else b.title) ∧
    (a.truthy = false → (storedAfter (updateBookFields b t a c y)).author_id = b.author_id) ∧
    (c.truthy = false →
      (storedAfter (updateBookFields b t a c y)).category_id = b.category_id) ∧
    (y.truthy = false →
      (storedAfter (updateBookFields b t a c y)).published_year = b.published_year) := by
  unfold updateBookFields assignParsed
  cases t.truthy <;> cases a.truthy <;> cases c.truthy <;> cases y.truthy <;>
    cases parseInt a <;> cases parseInt c <;> cases parseInt y <;>
    exact ⟨rfl, fun h => by first | rfl | exact absurd h (by decide),
      fun h => by first | rfl | exact absurd h (by decide),
      fun h => by first | rfl | exact absurd h (by decide)⟩

/-- The numeric fields after an update that runs to the end. -/
theorem storedAfter_parsed (b : Book) (t a c y : JsVal) (a1 c1 y1 : JsNum)
    (ha : parseInt a = some a1) (hc : parseInt c = some c1) (hy : parseInt y = some y1) :
    (storedAfter (updateBookFields b t a c y)).author_id
      = (if a.truthy then a1 else b.author_id) ∧
    (storedAfter (updateBookFields b t a c y)).category_id
      = (if c.truthy then c1 else b.category_id) ∧
    (storedAfter (updateBookFields b t a c y)).published_year
      = (if y.truthy then y1 else b.published_year) := by
  rw [updateBookFields_ok b t a c y a1 c1 y1 ha hc hy]
  exact ⟨rfl, rfl, rfl⟩

theorem strictEq_false_of_ne_int {a : JsNum} {m : Int} (h : a ≠ .int m) :
    a.strictEq (.int m) = false := by
  cases hs : a.strictEq (.int m)
  · rfl
  · exact absurd ((strictEq_int_right a m).1 hs) h

theorem exists_first_of_mem_int {α : Type} (key : α → JsNum) (l : List α) (m : Int)
    (h : ∃ x ∈ l, key x = .int m) :
    ∃ pre b post, l = pre ++ b :: post ∧ (∀ x ∈ pre, key x ≠ .int m) ∧ key b = .int m ∧
      (∀ x ∈ pre, (key x).strictEq (.int m) = false) ∧ (key b).strictEq (.int m) = true := by
  obtain ⟨x, hx, hk⟩ := h
  obtain ⟨pre, b, post, hs, hpre, hb⟩ :=
    exists_split_of_exists (fun y => (key y).strictEq (.int m)) l
      ⟨x, hx, (strictEq_int_right _ m).2 hk⟩
  refine ⟨pre, b, post, hs, ?_, (strictEq_int_right _ m).1 hb, hpre, hb⟩
  intro y hy hk'
  have := hpre y hy
  rw [(strictEq_int_right _ m).2 hk'] at this
  exact Bool.noConfusion this

/-- The response of `POST /books` depends on the store through the counter only. -/
theorem postBooks_snd_congr (s1 s2 : Store) (body : ReqBody)
    (h : s1.currentBookId = s2.currentBookId) : (postBooks s1 body).2 = (postBooks s2 body).2 := by
  unfold postBooks
  simp only [h]
  cases newBook (.int s2.currentBookId) (getProp body "title") (getProp body "author_id")
    (getProp body "category_id") (getProp body "published_year") <;> rfl

/-- C5 (as stated, refuted): on the seeded store `PUT /books/999` with a `published_year` that
is an object with an own `toString` entry is answered 500 and inserts nothing. -/
theorem c5_throwing_put_inserts_nothing :
    (putBookById seed "999"
      [("title", .str "New via PUT"), ("published_year", .obj [("toString", .bool true)])]).2.status
      = 500 ∧
    (putBookById seed "999"
      [("title", .str "New via PUT"),
       ("published_year", .obj [("toString", .bool true)])]).1.books.map Book.id
      = [.int 1, .int 2] := by
  decide

/-- C5 (amended): a `PUT` whose path id parses to an integer `m` that no record of the
collection has leaves the counter alone, so the next `POST` hands out the same id as it would
have before.  For authors and categories, and for books when `parseInt` does not throw on the
body's `author_id`, `category_id` and `published_year`, it answers 200 with a record of id
exactly `m` built from the body (title/name as given, numeric book fields through
`parseInt`) and appends that record to the collection; when `parseInt` throws,
`PUT /books/:bookId` is answered 500 and leaves the store as it was. -/
theorem c5_put_absent_id_inserts (s : Store) (p : String) (m : Int) (body : ReqBody)
    (hp : parseInt (.str p) = some (.int m)) :
    ((∀ b ∈ s.books, b.id ≠ .int m) →
      (bookFieldsParse body = true →
        ∃ nb : Book, (putBookById s p body).2 = { status := 200, body := .book nb } ∧
          nb.id = .int m ∧ nb.title = getProp body "title" ∧
          parseInt (getProp body "author_id") = some nb.author_id ∧
          parseInt (getProp body "category_id") = some nb.category_id ∧
          parseInt (getProp body "published_year") = some nb.published_year ∧
          (putBookById s p body).1.books = s.books ++ [nb]) ∧
      (bookFieldsParse body = false → putBookById s p body = (s, errorResponse)) ∧
      (putBookById s p body).1.currentBookId = s.currentBookId ∧
      (∀ body1, (postBooks (putBookById s p body).1 body1).2.body.recordId
        = (postBooks s body1).2.body.recordId)) ∧
    ((∀ a ∈ s.authors, a.id ≠ .int m) →
      (putAuthorById s p body).2 =
        { status := 200, body := .author { id := .int m, name := getProp body "name" } } ∧
      (putAuthorById s p body).1.authors
        = s.authors ++ [{ id := .int m, name := getProp body "name" }] ∧
      (putAuthorById s p body).1.currentAuthorId = s.currentAuthorId ∧
      (∀ body1, (postAuthors (putAuthorById s p body).1 body1).2.body.recordId
        = (postAuthors s body1).2.body.recordId)) ∧
    ((∀ c ∈ s.categories, c.id ≠ .int m) →
      (putCategoryById s p body).2 =
        { status := 200, body := .category { id := .int m, name := getProp body "name" } } ∧
      (putCategoryById s p body).1.categories
        = s.categories ++ [{ id := .int m, name := getProp body "name" }] ∧
      (putCategoryById s p body).1.currentCategoryId = s.currentCategoryId ∧
      (∀ body1, (postCategories (putCategoryById s p body).1 body1).2.body.recordId
        = (postCategories s body1).2.body.recordId)) := by
  have hp1 : parseIntChars p.data = .int m := parseIntChars_of_parseInt hp
  refine ⟨fun h => ?_, fun h => ?_, fun h => ?_⟩
  · have habs : ∀ b ∈ s.books, b.id.strictEq (parseIntChars p.data) = false :=
      fun b hb => by rw [hp1]; exact strictEq_false_of_ne_int (h b hb)
    have hcount : (putBookById s p body).1.currentBookId = s.currentBookId := by
      rw [putBookById_absent s p body habs]
      cases newBook (parseIntChars p.data) (getProp body "title") (getProp body "author_id")
        (getProp body "category_id") (getProp body "published_year") <;> rfl
    refine ⟨fun hb => ?_, fun hb => putBookById_absent_throw s p body habs hb, hcount,
      fun body1 => by rw [postBooks_snd_congr _ s body1 hcount]⟩
    obtain ⟨a, c, y, ha, hc, hy⟩ := (bookFieldsParse_iff body).1 hb
    rw [putBookById_absent_ok s p body a c y habs ha hc hy, hp1]
    exact ⟨_, rfl, rfl, rfl, ha, hc, hy, rfl⟩
  · rw [putAuthorById_absent s p body
      (fun a ha => by rw [hp1]; exact strictEq_false_of_ne_int (h a ha)), hp1]
    exact ⟨rfl, rfl, rfl, fun _ => rfl⟩
  · rw [putCategoryById_absent s p body
      (fun c hc => by rw [hp1]; exact strictEq_false_of_ne_int (h c hc)), hp1]
    exact ⟨rfl, rfl, rfl, fun _ => rfl⟩

/-- Witness for C5 (amended): `PUT /books/999` on the seeded store. -/
theorem c5_put_absent_id_inserts_witness :
    parseInt (.str "999") = some (.int 999) ∧
    (∃ nb : Book,
      (putBookById seed "999" [("title", .str "New via PUT"), ("author_id", .num (.int 1))]).2
        = { status := 200, body := .book nb } ∧
      nb.id = .int 999 ∧
      nb.title = getProp [("title", .str "New via PUT"), ("author_id", .num (.int 1))] "title" ∧
      parseInt (getProp [("title", .str "New via PUT"), ("author_id", .num (.int 1))]
        "author_id") = some nb.author_id ∧
      parseInt (getProp [("title", .str "New via PUT"), ("author_id", .num (.int 1))]
        "category_id") = some nb.category_id ∧
      parseInt (getProp [("title", .str "New via PUT"), ("author_id", .num (.int 1))]
        "published_year") = some nb.published_year ∧
      (putBookById seed "999"
        [("title", .str "New via PUT"), ("author_id", .num (.int 1))]).1.books
        = seed.books ++ [nb]) ∧
    (putBookById seed "999"
      [("title", .str "New via PUT"), ("author_id", .num (.int 1))]).1.currentBookId = 3 :=
  ⟨by decide,
   ((c5_put_absent_id_inserts seed "999" 999 _ (by decide)).1 (by decide)).1 (by decide),
   ((c5_put_absent_id_inserts seed "999" 999 _ (by decide)).1 (by decide)).2.2.1⟩

/-- C6 (as stated, refuted): on the seeded store `PUT /books/1` with a title and an
`author_id` that is an object with an own `toString` entry is answered 500: there is no
response record in which `published_year`, absent from the body, could have kept its value
(the stored title has already been replaced). -/
theorem c6_throwing_update_has_no_response_record :
    (putBookById seed "1"
      [("title", .str "Just Title Updated"),
       ("author_id", .obj [("toString", .num (.int 1))])]).2.status = 500 ∧
    (putBookById seed "1"
      [("title", .str "Just Title Updated"),
       ("author_id", .obj [("toString", .num (.int 1))])]).2.body.recordId = none ∧
    (putBookById seed "1"
      [("title", .str "Just Title Updated"),
       ("author_id", .obj [("toString", .num (.int 1))])]).1.books.map
        (fun b => b.title.toStr)
      = [some "Just Title Updated".data, some "To Kill a Mockingbird".data] := by
  decide

/-- C6 (amended): a `PUT` on the id of an existing book stores, in place of the first book
with that id, a record in which every one of `title`, `author_id`, `category_id`,
`published_year` whose key is absent from the body keeps its prior value; that record is
also the response record, with status 200, when `parseInt` does not throw on the body's
`author_id`, `category_id` and `published_year`, and the answer is 500 when it throws. -/
theorem c6_update_keeps_absent_fields (s : Store) (p : String) (m : Int)
    (body : ReqBody) (hp : parseInt (.str p) = some (.int m))
    (hex : ∃ x ∈ s.books, x.id = .int m) :
    ∃ pre b post b1, s.books = pre ++ b :: post ∧ (∀ x ∈ pre, x.id ≠ .int m) ∧
      b.id = .int m ∧
      (putBookById s p body).1.books = pre ++ b1 :: post ∧
      (absentKey body "title" → b1.title = b.title) ∧
      (absentKey body "author_id" → b1.author_id = b.author_id) ∧
      (absentKey body "category_id" → b1.category_id = b.category_id) ∧
      (absentKey body "published_year" → b1.published_year = b.published_year) ∧
      (bookFieldsParse body = true →
        (putBookById s p body).2 = { status := 200, body := .book b1 }) ∧
      (bookFieldsParse body = false → (putBookById s p body).2 = errorResponse) := by
  have hp1 : parseIntChars p.data = .int m := parseIntChars_of_parseInt hp
  obtain ⟨pre, b, post, hs, hne, hid, hpre, hb⟩ := exists_first_of_mem_int Book.id s.books m hex
  rw [← hp1] at hpre hb
  obtain ⟨ht, ha, hc, hy⟩ := storedAfter_fields b (getProp body "title")
    (getProp body "author_id") (getProp body "category_id") (getProp body "published_year")
  refine ⟨pre, b, post,
    storedAfter (updateBookFields b (getProp body "title") (getProp body "author_id")
      (getProp body "category_id") (getProp body "published_year")),
    hs, hne, hid, ?_, ?_, ?_, ?_, ?_, ?_, ?_⟩
  · rw [putBookById_present s p body pre b post hs hpre hb]
  · intro h; rw [ht, getProp_absent body _ h]; rfl
  · intro h; exact ha (by rw [getProp_absent body _ h]; rfl)
  · intro h; exact hc (by rw [getProp_absent body _ h]; rfl)
  · intro h; exact hy (by rw [getProp_absent body _ h]; rfl)
  · intro h
    rw [putBookById_present s p body pre b post hs hpre hb]
    exact updateResponse_of_parse b body h
  · intro h
    rw [putBookById_present s p body pre b post hs hpre hb]
    exact updateResponse_of_throw b body h

/-- Witness for C6 (amended): `PUT /books/1` with only a title on the seeded store. -/
theorem c6_update_keeps_absent_fields_witness :
    parseInt (.str "1") = some (.int 1) ∧ (∃ x ∈ seed.books, x.id = .int 1) ∧
    ∃ pre b post b1, seed.books = pre ++ b :: post ∧ (∀ x ∈ pre, x.id ≠ .int 1) ∧
      b.id = .int 1 ∧
      (putBookById seed "1" [("title", .str "Just Title Updated")]).1.books
        = pre ++ b1 :: post ∧
      (absentKey [("title", .str "Just Title Updated")] "title" → b1.title = b.title) ∧
      (absentKey [("title", .str "Just Title Updated")] "author_id" →
        b1.author_id = b.author_id) ∧
      (absentKey [("title", .str "Just Title Updated")] "category_id" →
        b1.category_id = b.category_id) ∧
      (absentKey [("title", .str "Just Title Updated")] "published_year" →
        b1.published_year = b.published_year) ∧
      (bookFieldsParse [("title", .str "Just Title Updated")] = true →
        (putBookById seed "1" [("title", .str "Just Title Updated")]).2
          = { status := 200, body := .book b1 }) ∧
      (bookFieldsParse [("title", .str "Just Title Updated")] = false →
        (putBookById seed "1" [("title", .str "Just Title Updated")]).2 = errorResponse) :=
  ⟨by decide, ⟨_, List.mem_cons_self _ _, rfl⟩,
   c6_update_keeps_absent_fields seed "1" 1 [("title", .str "Just Title Updated")]
     (by decide) ⟨_, List.mem_cons_self _ _, rfl⟩⟩

/-- C7 (as stated, refuted): two failures.  On the seeded store `PUT /books/1` with a title
and an `author_id` that is an object with an own `toString` entry is answered 500, not with
the updated record and status 200, although the title has been replaced.  And after
`POST /books` with `published_year: 0` has created book 3, `PUT /books/3` with
`published_year: 0` leaves the field equal to the body's parsed value although that value
is falsy, so the field equals the body's value without the value being truthy. -/
theorem c7_update_throws_and_falsy_value_can_coincide :
    (putBookById seed "1"
      [("title", .str "T"), ("author_id", .obj [("toString", .num (.int 1))])]).2.status = 500 ∧
    (putBookById seed "1"
      [("title", .str "T"), ("author_id", .obj [("toString", .num (.int 1))])]).1.books.map
        (fun b => b.title.toStr)
      = [some "T".data, some "To Kill a Mockingbird".data] ∧
    (getProp [("published_year", .num (.int 0))] "published_year").truthy = false ∧
    parseInt (getProp [("published_year", .num (.int 0))] "published_year")
      = some (.int 0) ∧
    (putBookById (postBooks seed [("published_year", .num (.int 0))]).1 "3"
      [("published_year", .num (.int 0))]).1.books.map Book.published_year
      = [.int 1925, .int 1960, .int 0] := by
  decide

/-- C7 (amended): a `PUT` on the id of an existing book replaces the first book with that
id by a record with the same id whose title is the body's title when that is truthy and the
prior title otherwise.  When `parseInt` does not throw on the body's `author_id`,
`category_id` and `published_year`, the answer is 200 with that record, and each of these
three fields is the parsed body value when the body value is truthy and the prior value
otherwise (the prior value may happen to equal the parsed body value); when `parseInt`
throws, the answer is 500.  In every case the number 0 for `published_year` and the empty
string for `title` change nothing. -/
theorem c7_update_is_truthiness_gated (s : Store) (p : String) (m : Int) (body : ReqBody)
    (hp : parseInt (.str p) = some (.int m)) (hex : ∃ x ∈ s.books, x.id = .int m) :
    ∃ pre b post b1, s.books = pre ++ b :: post ∧ (∀ x ∈ pre, x.id ≠ .int m) ∧
      b.id = .int m ∧
      (putBookById s p body).1.books = pre ++ b1 :: post ∧
      b1.id = b.id ∧
      b1.title = (if (getProp body "title").truthy then getProp body "title" else b.title) ∧
      (bookFieldsParse body = true →
        (putBookById s p body).2 = { status := 200, body := .book b1 } ∧
        (∀ a, parseInt (getProp body "author_id") = some a →
          b1.author_id = (if (getProp body "author_id").truthy then a else b.author_id)) ∧
        (∀ c, parseInt (getProp body "category_id") = some c →
          b1.category_id = (if (getProp body "category_id").truthy then c
            else b.category_id)) ∧
        (∀ y, parseInt (getProp body "published_year") = some y →
          b1.published_year = (if (getProp body "published_year").truthy then y
            else b.published_year))) ∧
      (bookFieldsParse body = false → (putBookById s p body).2 = errorResponse) ∧
      (getProp body "published_year" = .num (.int 0) → b1.published_year = b.published_year) ∧
      (getProp body "title" = .str "" → b1.title = b.title) := by
  have hp1 : parseIntChars p.data = .int m := parseIntChars_of_parseInt hp
  obtain ⟨pre, b, post, hs, hne, hid, hpre, hb⟩ := exists_first_of_mem_int Book.id s.books m hex
  rw [← hp1] at hpre hb
  obtain ⟨ht, -, -, hy⟩ := storedAfter_fields b (getProp body "title")
    (getProp body "author_id") (getProp body "category_id") (getProp body "published_year")
  refine ⟨pre, b, post,
    storedAfter (updateBookFields b (getProp body "title") (getProp body "author_id")
      (getProp body "category_id") (getProp body "published_year")),
    hs, hne, hid, ?_, updateBookFields_id _ _ _ _ _, ht, ?_, ?_, ?_, ?_⟩
  · rw [putBookById_present s p body pre b post hs hpre hb]
  · intro h
    obtain ⟨a1, c1, y1, ha1, hc1, hy1⟩ := (bookFieldsParse_iff body).1 h
    obtain ⟨fa, fc, fy⟩ := storedAfter_parsed b (getProp body "title") _ _ _ a1 c1 y1 ha1 hc1 hy1
    refine ⟨?_, ?_, ?_, ?_⟩
    · rw [putBookById_present s p body pre b post hs hpre hb]
      exact updateResponse_of_parse b body h
    · intro a ha
      rw [ha1] at ha
      rw [fa, Option.some.inj ha]
    · intro c hc
      rw [hc1] at hc
      rw [fc, Option.some.inj hc]
    · intro y hy2
      rw [hy1] at hy2
      rw [fy, Option.some.inj hy2]
  · intro h
    rw [putBookById_present s p body pre b post hs hpre hb]
    exact updateResponse_of_throw b body h
  · intro h; exact hy (by rw [h]; rfl)
  · intro h; rw [ht, h]; rfl

/-- Witness for C7 (amended): `PUT /books/1` with a new title and `published_year: 0`. -/
theorem c7_update_is_truthiness_gated_witness :
    parseInt (.str "1") = some (.int 1) ∧ (∃ x ∈ seed.books, x.id = .int 1) ∧
    ∃ pre b post b1, seed.books = pre ++ b :: post ∧ (∀ x ∈ pre, x.id ≠ .int 1) ∧
      b.id = .int 1 ∧
      (putBookById seed "1" [("title", .str "T"), ("published_year", .num (.int 0))]).1.books
        = pre ++ b1 :: post ∧
      b1.id = b.id ∧
      b1.title = (if (getProp [("title", .str "T"), ("published_year", .num (.int 0))]
          "title").truthy
        then getProp [("title", .str "T"), ("published_year", .num (.int 0))] "title"
        else b.title) ∧
      (bookFieldsParse [("title", .str "T"), ("published_year", .num (.int 0))] = true →
        (putBookById seed "1" [("title", .str "T"), ("published_year", .num (.int 0))]).2
          = { status := 200, body := .book b1 } ∧
        (∀ a, parseInt (getProp [("title", .str "T"), ("published_year", .num (.int 0))]
            "author_id") = some a →
          b1.author_id = (if (getProp [("title", .str "T"),
            ("published_year", .num (.int 0))] "author_id").truthy then a else b.author_id)) ∧
        (∀ c, parseInt (getProp [("title", .str "T"), ("published_year", .num (.int 0))]
            "category_id") = some c →
          b1.category_id = (if (getProp [("title", .str "T"),
            ("published_year", .num (.int 0))] "category_id").truthy then c
            else b.category_id)) ∧
        (∀ y, parseInt (getProp [("title", .str "T"), ("published_year", .num (.int 0))]
            "published_year") = some y →
          b1.published_year = (if (getProp [("title", .str "T"),
            ("published_year", .num (.int 0))] "published_year").truthy then y
            else b.published_year))) ∧
      (bookFieldsParse [("title", .str "T"), ("published_year", .num (.int 0))] = false →
        (putBookById seed "1" [("title", .str "T"), ("published_year", .num (.int 0))]).2
          = errorResponse) ∧
      (getProp [("title", .str "T"), ("published_year", .num (.int 0))] "published_year"
        = .num (.int 0) → b1.published_year = b.published_year) ∧
      (getProp [("title", .str "T"), ("published_year", .num (.int 0))] "title" = .str "" →
        b1.title = b.title) :=
  ⟨by decide, ⟨_, List.mem_cons_self _ _, rfl⟩,
   c7_update_is_truthiness_gated seed "1" 1
     [("title", .str "T"), ("published_year", .num (.int 0))]
     (by decide) ⟨_, List.mem_cons_self _ _, rfl⟩⟩

/-- C8 (the code at the failing inputs): on the seeded store `PUT /authors/1` with an empty
body replaces the name of author 1 by `undefined`, and `PUT /categories/1` with an
empty-string name replaces the name of category 1 by the empty string; the record's
prior name is lost in both handlers. -/
theorem c8_author_category_put_overwrites_name :
    (putAuthorById seed "1" []).2 =
      { status := 200, body := .author { id := .int 1, name := .undefined } } ∧
    (putAuthorById seed "1" []).1.authors =
      [{ id := .int 1, name := .undefined }, { id := .int 2, name := .str "Harper Lee" }] ∧
    (putAuthorById seed "1" [("name", .str "")]).2 =
      { status := 200, body := .author { id := .int 1, name := .str "" } } ∧
    (putCategoryById seed "1" []).2 =
      { status := 200, body := .category { id := .int 1, name := .undefined } } ∧
    (putCategoryById seed "1" [("name", .str "")]).1.categories =
      [{ id := .int 1, name := .str "" }, { id := .int 2, name := .str "Classic" }] :=
  ⟨rfl, rfl, rfl, rfl, rfl⟩

/-! ## Delete -/

theorem not_strictEq_int (a : JsNum) (m : Int) :
    (!(a.strictEq (.int m))) = decide (a ≠ .int m) := by
  cases a <;> simp [JsNum.strictEq]

theorem filter_not_strictEq_nan {α : Type} (key : α → JsNum) (l : List α) :
    l.filter (fun x => !((key x).strictEq .nan)) = l := by
  rw [List.filter_eq_self]
  intro x _
  simp [strictEq_nan_right]

/-- C9: `DELETE` answers 204 with no body; the collection afterwards is the prior one with
exactly the records whose id equals the parsed id removed (none when the id parses to
`NaN`, which no id equals), the others keeping their relative order; the two other
collections and the three counters are unchanged.  Stated for the three entities; the parsed
id is `parseIntChars p.data`, the value of `parseInt` on the path string `p`. -/
theorem c9_delete_is_order_preserving_filter (s : Store) (p : String) :
    ((deleteBookById s p).2 = { status := 204, body := .empty } ∧
      (∀ m, parseInt (.str p) = some (.int m) →
        (deleteBookById s p).1.books = s.books.filter (fun b => decide (b.id ≠ .int m))) ∧
      (parseInt (.str p) = some .nan → (deleteBookById s p).1.books = s.books) ∧
      (deleteBookById s p).1.books.Sublist s.books ∧
      (∀ b, b ∈ (deleteBookById s p).1.books ↔
        b ∈ s.books ∧ b.id.strictEq (parseIntChars p.data) = false) ∧
      (deleteBookById s p).1.authors = s.authors ∧
      (deleteBookById s p).1.categories = s.categories ∧
      (deleteBookById s p).1.currentBookId = s.currentBookId ∧
      (deleteBookById s p).1.currentAuthorId = s.currentAuthorId ∧
      (deleteBookById s p).1.currentCategoryId = s.currentCategoryId) ∧
    ((deleteAuthorById s p).2 = { status := 204, body := .empty } ∧
      (∀ m, parseInt (.str p) = some (.int m) →
        (deleteAuthorById s p).1.authors
          = s.authors.filter (fun a => decide (a.id ≠ .int m))) ∧
      (parseInt (.str p) = some .nan → (deleteAuthorById s p).1.authors = s.authors) ∧
      (deleteAuthorById s p).1.authors.Sublist s.authors ∧
      (∀ a, a ∈ (deleteAuthorById s p).1.authors ↔
        a ∈ s.authors ∧ a.id.strictEq (parseIntChars p.data) = false) ∧
      (deleteAuthorById s p).1.books = s.books ∧
      (deleteAuthorById s p).1.categories = s.categories ∧
      (deleteAuthorById s p).1.currentBookId = s.currentBookId ∧
      (deleteAuthorById s p).1.currentAuthorId = s.currentAuthorId ∧
      (deleteAuthorById s p).1.currentCategoryId = s.currentCategoryId) ∧
    ((deleteCategoryById s p).2 = { status := 204, body := .empty } ∧
      (∀ m, parseInt (.str p) = some (.int m) →
        (deleteCategoryById s p).1.categories
          = s.categories.filter (fun c => decide (c.id ≠ .int m))) ∧
      (parseInt (.str p) = some .nan → (deleteCategoryById s p).1.categories = s.categories) ∧
      (deleteCategoryById s p).1.categories.Sublist s.categories ∧
      (∀ c, c ∈ (deleteCategoryById s p).1.categories ↔
        c ∈ s.categories ∧ c.id.strictEq (parseIntChars p.data) = false) ∧
      (deleteCategoryById s p).1.books = s.books ∧
      (deleteCategoryById s p).1.authors = s.authors ∧
      (deleteCategoryById s p).1.currentBookId = s.currentBookId ∧
      (deleteCategoryById s p).1.currentAuthorId = s.currentAuthorId ∧
      (deleteCategoryById s p).1.currentCategoryId = s.currentCategoryId) := by
  refine ⟨⟨rfl, ?_, ?_, List.filter_sublist _, ?_, rfl, rfl, rfl, rfl, rfl⟩,
    ⟨rfl, ?_, ?_, List.filter_sublist _, ?_, rfl, rfl, rfl, rfl, rfl⟩,
    ⟨rfl, ?_, ?_, List.filter_sublist _, ?_, rfl, rfl, rfl, rfl, rfl⟩⟩
  · intro m hm
    simp only [deleteBookById_eq, parseIntChars_of_parseInt hm, not_strictEq_int]
  · intro hn
    simp only [deleteBookById_eq, parseIntChars_of_parseInt hn]
    exact filter_not_strictEq_nan Book.id s.books
  · intro b
    simp [deleteBookById_eq, List.mem_filter]
  · intro m hm
    simp only [deleteAuthorById_eq, parseIntChars_of_parseInt hm, not_strictEq_int]
  · intro hn
    simp only [deleteAuthorById_eq, parseIntChars_of_parseInt hn]
    exact filter_not_strictEq_nan Author.id s.authors
  · intro a
    simp [deleteAuthorById_eq, List.mem_filter]
  · intro m hm
    simp only [deleteCategoryById_eq, parseIntChars_of_parseInt hm, not_strictEq_int]
  · intro hn
    simp only [deleteCategoryById_eq, parseIntChars_of_parseInt hn]
    exact filter_not_strictEq_nan Category.id s.categories
  · intro c
    simp [deleteCategoryById_eq, List.mem_filter]

/-- Witness for C9: `DELETE /books/1` on the seeded store keeps exactly book 2. -/
theorem c9_delete_is_order_preserving_filter_witness :
    parseInt (.str "1") = some (.int 1) ∧
    (deleteBookById seed "1").1.books = seed.books.filter (fun b => decide (b.id ≠ .int 1)) :=
  ⟨by decide, (c9_delete_is_order_preserving_filter seed "1").1.2.1 1 (by decide)⟩

theorem filter_eq_self_of_none {α : Type} (key : α → JsNum) (l : List α) (pid : JsNum)
    (h : ∀ x ∈ l.map key, x.strictEq pid = false) :
    l.filter (fun x => !((key x).strictEq pid)) = l := by
  rw [List.filter_eq_self]
  intro x hx
  simp [h (key x) (List.mem_map.2 ⟨x, hx, rfl⟩)]

/-- C10: serving the same `DELETE` twice leaves exactly the store left by serving it once,
both answers are 204, and a `DELETE` for an id that no record of the collection has leaves
the whole store unchanged (the parsed id is `parseIntChars p.data`, the value of `parseInt`
on the path string `p`). -/
theorem c10_delete_idempotent (s : Store) (e : Entity) (p : String) :
    run s [.delete e p, .delete e p] = run s [.delete e p] ∧
    (responses s [.delete e p, .delete e p]).map (fun r => r.status) = [204, 204] ∧
    ((∀ x ∈ ids s e, x.strictEq (parseIntChars p.data) = false) → run s [.delete e p] = s) := by
  cases e
  · refine ⟨?_, rfl, fun h => ?_⟩
    · simp [run, handle, deleteBookById_eq, List.filter_filter]
    · have := filter_eq_self_of_none Book.id s.books _ h
      simp only [run, handle, deleteBookById_eq, this]
  · refine ⟨?_, rfl, fun h => ?_⟩
    · simp [run, handle, deleteAuthorById_eq, List.filter_filter]
    · have := filter_eq_self_of_none Author.id s.authors _ h
      simp only [run, handle, deleteAuthorById_eq, this]
  · refine ⟨?_, rfl, fun h => ?_⟩
    · simp [run, handle, deleteCategoryById_eq, List.filter_filter]
    · have := filter_eq_self_of_none Category.id s.categories _ h
      simp only [run, handle, deleteCategoryById_eq, this]

/-- Witness for C10: no seeded book has id 999, so `DELETE /books/999` changes nothing. -/
theorem c10_delete_idempotent_witness :
    (∀ x ∈ ids seed .books, x.strictEq (parseIntChars "999".data) = false) ∧
    run seed [.delete .books "999"] = seed :=
  ⟨by decide, (c10_delete_idempotent seed .books "999").2.2 (by decide)⟩

/-! ## Delete then get, frame conditions, statuses and counters -/

theorem getBookById_none (s : Store) (p : String)
    (h : NoneWithId Book.id s.books (parseIntChars p.data)) :
    getBookById s p = (s, { status := 200, body := .emptyObject }) := by
  simp only [getBookById_eq, find?_none_of_noneWithId Book.id s.books _ h]

theorem getAuthorById_none (s : Store) (p : String)
    (h : NoneWithId Author.id s.authors (parseIntChars p.data)) :
    getAuthorById s p = (s, { status := 200, body := .emptyObject }) := by
  simp only [getAuthorById_eq, find?_none_of_noneWithId Author.id s.authors _ h]

theorem getCategoryById_none (s : Store) (p : String)
    (h : NoneWithId Category.id s.categories (parseIntChars p.data)) :
    getCategoryById s p = (s, { status := 200, body := .emptyObject }) := by
  simp only [getCategoryById_eq, find?_none_of_noneWithId Category.id s.categories _ h]

theorem noneWithId_filter {α : Type} (key : α → JsNum) (l : List α) (pid : JsNum) :
    NoneWithId key (l.filter (fun x => !((key x).strictEq pid))) pid := by
  intro x hx
  have := (List.mem_filter.1 hx).2
  simpa using this

theorem noneWithId_nan {α : Type} (key : α → JsNum) (l : List α) :
    NoneWithId key l .nan :=
  fun x _ => strictEq_nan_right (key x)

theorem getById_status (s : Store) (e : Entity) (p : String) :
    (handle s (.getById e p)).2.status = 200 := by
  cases e
  · show (getBookById s p).2.status = 200
    rw [getBookById_eq]; split <;> rfl
  · show (getAuthorById s p).2.status = 200
    rw [getAuthorById_eq]; split <;> rfl
  · show (getCategoryById s p).2.status = 200
    rw [getCategoryById_eq]; split <;> rfl

/-- The status of a `PUT`: 200 when the body fields parse, 500 when they do not. -/
theorem put_status (s : Store) (e : Entity) (p : String) (body : ReqBody) :
    (handle s (.put e p body)).2.status = (if fieldsParse e body = true then 200 else 500) := by
  cases hb : fieldsParse e body with
  | true =>
    by_cases h : ∀ x ∈ ids s e, x.strictEq (parseIntChars p.data) = false
    · exact ((put_effect_absent s e p body h).2.2.1 hb).1
    · exact (put_effect_present s e p body h).2.2.2.1 hb
  | false =>
    by_cases h : ∀ x ∈ ids s e, x.strictEq (parseIntChars p.data) = false
    · rw [(put_effect_absent s e p body h).2.2.2 hb]; rfl
    · rw [(put_effect_present s e p body h).2.2.2.2 hb]; rfl

theorem put_counter (s : Store) (e : Entity) (p : String) (body : ReqBody) (e' : Entity) :
    counter (handle s (.put e p body)).1 e' = counter s e' := by
  by_cases h : ∀ x ∈ ids s e, x.strictEq (parseIntChars p.data) = false
  · exact (put_effect_absent s e p body h).1 e'
  · exact (put_effect_present s e p body h).2.1 e'

/-- C11: after a `DELETE` of an id, a `GET` by the same id answers 200 with the empty
object, in every store state (several records with that id included) and for every
entity; the `DELETE` itself answers 204. -/
theorem c11_delete_then_get_is_empty (s : Store) (e : Entity) (p : String) :
    (handle s (.delete e p)).2.status = 204 ∧
    (handle (handle s (.delete e p)).1 (.getById e p)).2
      = { status := 200, body := .emptyObject } ∧
    (responses s [.delete e p, .getById e p]).map (fun r => r.status) = [204, 200] := by
  have key : (handle (handle s (.delete e p)).1 (.getById e p)).2
      = { status := 200, body := .emptyObject } := by
    cases e
    · show (getBookById (deleteBookById s p).1 p).2 = _
      rw [deleteBookById_eq, getBookById_none _ p (noneWithId_filter Book.id s.books _)]
    · show (getAuthorById (deleteAuthorById s p).1 p).2 = _
      rw [deleteAuthorById_eq, getAuthorById_none _ p (noneWithId_filter Author.id s.authors _)]
    · show (getCategoryById (deleteCategoryById s p).1 p).2 = _
      rw [deleteCategoryById_eq,
        getCategoryById_none _ p (noneWithId_filter Category.id s.categories _)]
  refine ⟨(congrArg Response.status (delete_effect s e p).1), key, ?_⟩
  simp only [responses, List.map_cons, List.map_nil, key,
    congrArg Response.status (delete_effect s e p).1]

theorem putBookById_frame (s : Store) (p : String) (body : ReqBody) :
    (putBookById s p body).1.authors = s.authors ∧
    (putBookById s p body).1.categories = s.categories ∧
    (putBookById s p body).1.currentBookId = s.currentBookId ∧
    (putBookById s p body).1.currentAuthorId = s.currentAuthorId ∧
    (putBookById s p body).1.currentCategoryId = s.currentCategoryId := by
  rcases none_or_split (fun b : Book => b.id.strictEq (parseIntChars p.data)) s.books with
    hn | ⟨pre, b, post, hs, hpre, hb⟩
  · rw [putBookById_absent s p body hn]
    cases newBook (parseIntChars p.data) (getProp body "title") (getProp body "author_id")
      (getProp body "category_id") (getProp body "published_year") <;>
      exact ⟨rfl, rfl, rfl, rfl, rfl⟩
  · rw [putBookById_present s p body pre b post hs hpre hb]; exact ⟨rfl, rfl, rfl, rfl, rfl⟩

theorem putAuthorById_frame (s : Store) (p : String) (body : ReqBody) :
    (putAuthorById s p body).1.books = s.books ∧
    (putAuthorById s p body).1.categories = s.categories ∧
    (putAuthorById s p body).1.currentBookId = s.currentBookId ∧
    (putAuthorById s p body).1.currentAuthorId = s.currentAuthorId ∧
    (putAuthorById s p body).1.currentCategoryId = s.currentCategoryId := by
  rcases none_or_split (fun a : Author => a.id.strictEq (parseIntChars p.data)) s.authors with
    hn | ⟨pre, a, post, hs, hpre, ha⟩
  · rw [putAuthorById_absent s p body hn]; exact ⟨rfl, rfl, rfl, rfl, rfl⟩
  · rw [putAuthorById_present s p body pre a post hs hpre ha]
    exact ⟨rfl, rfl, rfl, rfl, rfl⟩

theorem putCategoryById_frame (s : Store) (p : String) (body : ReqBody) :
    (putCategoryById s p body).1.books = s.books ∧
    (putCategoryById s p body).1.authors = s.authors ∧
    (putCategoryById s p body).1.currentBookId = s.currentBookId ∧
    (putCategoryById s p body).1.currentAuthorId = s.currentAuthorId ∧
    (putCategoryById s p body).1.currentCategoryId = s.currentCategoryId := by
  rcases none_or_split (fun c : Category => c.id.strictEq (parseIntChars p.data))
    s.categories with hn | ⟨pre, c, post, hs, hpre, hc⟩
  · rw [putCategoryById_absent s p body hn]; exact ⟨rfl, rfl, rfl, rfl, rfl⟩
  · rw [putCategoryById_present s p body pre c post hs hpre hc]
    exact ⟨rfl, rfl, rfl, rfl, rfl⟩

theorem postBooks_frame (s : Store) (body : ReqBody) :
    (postBooks s body).1.authors = s.authors ∧
    (postBooks s body).1.categories = s.categories ∧
    (postBooks s body).1.currentBookId = s.currentBookId + 1 ∧
    (postBooks s body).1.currentAuthorId = s.currentAuthorId ∧
    (postBooks s body).1.currentCategoryId = s.currentCategoryId := by
  by_cases hb : bookFieldsParse body = true
  · obtain ⟨a, c, y, ha, hc, hy⟩ := (bookFieldsParse_iff body).1 hb
    rw [postBooks_ok s body a c y ha hc hy]
    exact ⟨rfl, rfl, rfl, rfl, rfl⟩
  · simp only [Bool.not_eq_true] at hb
    rw [postBooks_throw s body hb]
    exact ⟨rfl, rfl, rfl, rfl, rfl⟩

/-- C13: a request addressed to one entity type leaves the record lists and the counters
of the two other entity types exactly as they were, whatever its method, path id and
body. -/
theorem c13_other_entities_untouched (s : Store) (r : Request) :
    (r.entity ≠ .books →
      (handle s r).1.books = s.books ∧ (handle s r).1.currentBookId = s.currentBookId) ∧
    (r.entity ≠ .authors →
      (handle s r).1.authors = s.authors ∧
      (handle s r).1.currentAuthorId = s.currentAuthorId) ∧
    (r.entity ≠ .categories →
      (handle s r).1.categories = s.categories ∧
      (handle s r).1.currentCategoryId = s.currentCategoryId) := by
  cases r with
  | getAll e =>
    rw [(get_effect s e "").1]
    exact ⟨fun _ => ⟨rfl, rfl⟩, fun _ => ⟨rfl, rfl⟩, fun _ => ⟨rfl, rfl⟩⟩
  | getById e p =>
    rw [(get_effect s e p).2]
    exact ⟨fun _ => ⟨rfl, rfl⟩, fun _ => ⟨rfl, rfl⟩, fun _ => ⟨rfl, rfl⟩⟩
  | post e body =>
    cases e
    · obtain ⟨h1, h2, -, h4, h5⟩ := postBooks_frame s body
      exact ⟨fun h => absurd rfl h, fun _ => ⟨h1, h4⟩, fun _ => ⟨h2, h5⟩⟩
    · exact ⟨fun _ => ⟨rfl, rfl⟩, fun h => absurd rfl h, fun _ => ⟨rfl, rfl⟩⟩
    · exact ⟨fun _ => ⟨rfl, rfl⟩, fun _ => ⟨rfl, rfl⟩, fun h => absurd rfl h⟩
  | put e p body =>
    cases e
    · obtain ⟨h1, h2, -, h4, h5⟩ := putBookById_frame s p body
      exact ⟨fun h => absurd rfl h, fun _ => ⟨h1, h4⟩, fun _ => ⟨h2, h5⟩⟩
    · obtain ⟨h1, h2, h3, -, h5⟩ := putAuthorById_frame s p body
      exact ⟨fun _ => ⟨h1, h3⟩, fun h => absurd rfl h, fun _ => ⟨h2, h5⟩⟩
    · obtain ⟨h1, h2, h3, h4, -⟩ := putCategoryById_frame s p body
      exact ⟨fun _ => ⟨h1, h3⟩, fun _ => ⟨h2, h4⟩, fun h => absurd rfl h⟩
  | delete e p =>
    cases e
    · exact ⟨fun h => absurd rfl h, fun _ => ⟨rfl, rfl⟩, fun _ => ⟨rfl, rfl⟩⟩
    · exact ⟨fun _ => ⟨rfl, rfl⟩, fun h => absurd rfl h, fun _ => ⟨rfl, rfl⟩⟩
    · exact ⟨fun _ => ⟨rfl, rfl⟩, fun _ => ⟨rfl, rfl⟩, fun h => absurd rfl h⟩

/-- Witness for C13: creating a book on the seeded store leaves the authors as seeded. -/
theorem c13_other_entities_untouched_witness :
    (Request.post .books [("title", .str "New Book")]).entity ≠ .authors ∧
    (handle seed (.post .books [("title", .str "New Book")])).1.authors = seed.authors ∧
    (handle seed (.post .books [("title", .str "New Book")])).1.currentAuthorId
      = seed.currentAuthorId :=
  ⟨by decide,
   ((c13_other_entities_untouched seed (.post .books [("title", .str "New Book")])).2.1
      (by decide)).1,
   ((c13_other_entities_untouched seed (.post .books [("title", .str "New Book")])).2.1
      (by decide)).2⟩

/-- The status of a `POST`: 201 when the body fields parse, 500 when they do not. -/
theorem post_status (s : Store) (e : Entity) (body : ReqBody) :
    (handle s (.post e body)).2.status = (if fieldsParse e body = true then 201 else 500) := by
  obtain ⟨-, -, -, hok, hthrow⟩ := post_effect s e body
  cases hb : fieldsParse e body with
  | true => exact (hok hb).1
  | false => rw [(hthrow hb).1]; rfl

/-- C15 (as stated, refuted): on the seeded store `POST /books` and `PUT /books/1` with a
`published_year` that is an object with an own `toString` entry are answered 500. -/
theorem c15_throwing_parse_answers_500 :
    (handle seed (.post .books
      [("title", .str "T"), ("published_year", .obj [("toString", .str "x")])])).2.status
      = 500 ∧
    (handle seed (.put .books "1"
      [("published_year", .obj [("toString", .str "x")])])).2.status = 500 := by
  decide

/-- C15 (amended): every entity request is answered with the success status of its method
(200 for `GET` of a collection, `GET` by id and `PUT` by id, inserting or updating, 201 for
`POST`, 204 for `DELETE`), whatever the store, the path id string and the body, except a
`POST /books` or `PUT /books/:bookId` on whose `author_id`, `category_id` or
`published_year` `parseInt` throws, which is answered 500; requests to authors and
categories never throw, and no answer is 404. -/
theorem c15_no_error_status (s : Store) (r : Request) :
    (handle s r).2.status = (if throwsInParseInt r = true then 500 else expectedStatus r) ∧
    (handle s r).2.status ≠ 404 ∧
    ((handle s r).2.status = 500 ↔ throwsInParseInt r = true) ∧
    (r.entity ≠ .books → (handle s r).2.status = expectedStatus r) := by
  have h : (handle s r).2.status
      = (if throwsInParseInt r = true then 500 else expectedStatus r) := by
    cases r with
    | getAll e => cases e <;> rfl
    | getById e p => exact getById_status s e p
    | post e body =>
      rw [post_status]
      cases hb : fieldsParse e body <;> simp [throwsInParseInt, expectedStatus, hb]
    | put e p body =>
      rw [put_status]
      cases hb : fieldsParse e body <;> simp [throwsInParseInt, expectedStatus, hb]
    | delete e p => exact congrArg Response.status (delete_effect s e p).1
  refine ⟨h, ?_, ?_, ?_⟩
  · rw [h]
    cases r <;> simp only [throwsInParseInt, expectedStatus] <;> split <;> decide
  · rw [h]
    cases ht : throwsInParseInt r
    · cases r <;> simp [expectedStatus]
    · simp
  · intro hne
    rw [h]
    have : throwsInParseInt r = false := by
      cases r with
      | getAll e => rfl
      | getById e p => rfl
      | post e body => cases e <;> first | exact absurd rfl hne | rfl
      | put e p body => cases e <;> first | exact absurd rfl hne | rfl
      | delete e p => rfl
    simp [this]

/-- Witness for C15 (amended): a `PUT /authors/7` with an object as name is answered 200. -/
theorem c15_no_error_status_witness :
    (Request.put .authors "7" [("name", .obj [("toString", .num (.int 1))])]).entity ≠ .books ∧
    (handle seed (.put .authors "7" [("name", .obj [("toString", .num (.int 1))])])).2.status
      = expectedStatus (.put .authors "7" [("name", .obj [("toString", .num (.int 1))])]) :=
  ⟨by decide,
   (c15_no_error_status seed
      (.put .authors "7" [("name", .obj [("toString", .num (.int 1))])])).2.2.2 (by decide)⟩

theorem counter_step (s : Store) (r : Request) (e : Entity) :
    counter (handle s r).1 e = counter s e + (postCount e [r] : Int) := by
  cases r with
  | getAll e' => rw [(get_effect s e' "").1]; simp [postCount]
  | getById e' p => rw [(get_effect s e' p).2]; simp [postCount]
  | post e' body =>
    obtain ⟨hc, hc', -, -, -⟩ := post_effect s e' body
    by_cases he : e = e'
    · subst he; rw [hc]; simp [postCount]
    · rw [hc' e he]
      have : ¬ e' = e := fun h => he h.symm
      simp [postCount, this]
  | put e' p body => rw [put_counter]; simp [postCount]
  | delete e' p => rw [(delete_effect s e' p).2.2.1 e]; simp [postCount]

theorem counter_run (rs : List Request) (e : Entity) :
    ∀ s, counter (run s rs) e = counter s e + (postCount e rs : Int) := by
  induction rs with
  | nil => intro s; simp [run, postCount]
  | cons r rs ih =>
    intro s
    rw [run, ih, counter_step]
    cases r <;> simp only [postCount, List.foldl] <;> push_cast <;> ring

/-- C16: `GET`, `PUT` (inserting ones included) and `DELETE` leave the three counters
unchanged; a `POST` to an entity raises that entity's counter by exactly 1 and leaves the
two others; hence after any request sequence from the seeded store each counter is 3 plus
the number of `POST`s to its entity, and a counter never decreases. -/
theorem c16_counter_only_advanced_by_post :
    (∀ s e e' p, counter (handle s (.getAll e)).1 e' = counter s e' ∧
      counter (handle s (.getById e p)).1 e' = counter s e' ∧
      counter (handle s (.delete e p)).1 e' = counter s e') ∧
    (∀ s e e' p body, counter (handle s (.put e p body)).1 e' = counter s e') ∧
    (∀ s e body, counter (handle s (.post e body)).1 e = counter s e + 1) ∧
    (∀ s e e' body, e' ≠ e → counter (handle s (.post e body)).1 e' = counter s e') ∧
    (∀ s r e, counter s e ≤ counter (handle s r).1 e) ∧
    (∀ rs e, counter (run seed rs) e = 3 + (postCount e rs : Int)) := by
  refine ⟨?_, ?_, ?_, ?_, ?_, ?_⟩
  · intro s e e' p
    rw [(get_effect s e p).1, (get_effect s e p).2]
    exact ⟨rfl, rfl, (delete_effect s e p).2.2.1 e'⟩
  · intro s e e' p body
    exact put_counter s e p body e'
  · intro s e body
    exact (post_effect s e body).1
  · intro s e e' body he
    exact (post_effect s e body).2.1 e' he
  · intro s r e
    rw [counter_step]
    omega
  · intro rs e
    rw [counter_run]
    cases e <;> rfl

/-- C17: when the path id string parses to `NaN`, `GET` by id answers 200 with the empty
object in every store state, those holding records keyed by `NaN` included. -/
theorem c17_get_unparsable_id_is_empty (s : Store) (e : Entity) (p : String)
    (hp : parseInt (.str p) = some .nan) :
    (handle s (.getById e p)).2 = { status := 200, body := .emptyObject } := by
  have hp1 : parseIntChars p.data = .nan := parseIntChars_of_parseInt hp
  cases e
  · show (getBookById s p).2 = _
    rw [getBookById_none s p (by rw [hp1]; exact noneWithId_nan _ _)]
  · show (getAuthorById s p).2 = _
    rw [getAuthorById_none s p (by rw [hp1]; exact noneWithId_nan _ _)]
  · show (getCategoryById s p).2 = _
    rw [getCategoryById_none s p (by rw [hp1]; exact noneWithId_nan _ _)]

/-- Witness for C17: after `PUT /books/abc` stored a record keyed by `NaN`,
`GET /books/abc` still answers the empty object. -/
theorem c17_get_unparsable_id_is_empty_witness :
    parseInt (.str "abc") = some .nan ∧
    ids (run seed [.put .books "abc" [("title", .str "X")]]) .books
      = [.int 1, .int 2, .nan] ∧
    (handle (run seed [.put .books "abc" [("title", .str "X")]]) (.getById .books "abc")).2
      = { status := 200, body := .emptyObject } :=
  ⟨by decide, by decide,
   c17_get_unparsable_id_is_empty _ .books "abc" (by decide)⟩

/-- C20 (as stated, refuted): when the first `POST /books` after process start carries an
`author_id` that is an object with an own `toString` entry it is answered 500 and returns
no id, and the `POST /books` after it returns id 4: neither returns id 3. -/
theorem c20_first_create_can_throw :
    (responses seed
        [.post .books [("author_id", .obj [("toString", .arr [])])],
         .post .books [("title", .str "New Book")]]).map (fun r => (r.status, r.body.recordId))
      = [(500, none), (201, some (.int 4))] := by
  decide

/-- C20 (amended): at process start each collection holds exactly two records, with ids 1
and 2 in that order, so list-all returns two records; `GET` by id 1 returns the record with
id 1; and the first `POST` to each collection answers 201 with id 3, unless it is a
`POST /books` on whose `author_id`, `category_id` or `published_year` `parseInt` throws,
which is answered 500 with no record. -/
theorem c20_seeded_initial_state :
    (∀ e, ids seed e = [.int 1, .int 2]) ∧
    (∃ b1 b2, (handle seed (.getAll .books)).2 = { status := 200, body := .books [b1, b2] } ∧
      b1.id = .int 1 ∧ b2.id = .int 2) ∧
    (∃ a1 a2, (handle seed (.getAll .authors)).2
        = { status := 200, body := .authors [a1, a2] } ∧
      a1.id = .int 1 ∧ a2.id = .int 2) ∧
    (∃ c1 c2, (handle seed (.getAll .categories)).2
        = { status := 200, body := .categories [c1, c2] } ∧
      c1.id = .int 1 ∧ c2.id = .int 2) ∧
    (∀ e, (handle seed (.getById e "1")).2.status = 200 ∧
      (handle seed (.getById e "1")).2.body.recordId = some (.int 1)) ∧
    (∀ e body, fieldsParse e body = true →
      (handle seed (.post e body)).2.status = 201 ∧
      (handle seed (.post e body)).2.body.recordId = some (.int 3)) ∧
    (∀ e body, fieldsParse e body = false → (handle seed (.post e body)).2 = errorResponse) := by
  refine ⟨fun e => by cases e <;> rfl, ⟨_, _, rfl, rfl, rfl⟩, ⟨_, _, rfl, rfl, rfl⟩,
    ⟨_, _, rfl, rfl, rfl⟩, fun e => by cases e <;> exact ⟨rfl, rfl⟩, fun e body hb => ?_,
    fun e body hb => ((post_effect seed e body).2.2.2.2 hb).1⟩
  obtain ⟨h1, h2, -⟩ := (post_effect seed e body).2.2.2.1 hb
  refine ⟨h1, ?_⟩
  rw [h2]
  cases e <;> rfl

/-- Witness for C20 (amended): the first `POST /authors` returns id 3. -/
theorem c20_seeded_initial_state_witness :
    fieldsParse .authors [("name", .str "New Author")] = true ∧
    (handle seed (.post .authors [("name", .str "New Author")])).2.status = 201 ∧
    (handle seed (.post .authors [("name", .str "New Author")])).2.body.recordId
      = some (.int 3) :=
  ⟨by decide, c20_seeded_initial_state.2.2.2.2.2.1 .authors _ (by decide)⟩

/-! ## Length accounting -/

theorem absentId_eq_true_iff (s : Store) (e : Entity) (pid : JsNum) :
    absentId s e pid = true ↔ ∀ x ∈ ids s e, x.strictEq pid = false := by
  unfold absentId
  rw [List.all_eq_true]
  constructor
  · intro h x hx; simpa using h x hx
  · intro h x hx; simp [h x hx]

theorem length_step (s : Store) (r : Request) (e : Entity) :
    (ids (handle s r).1 e).length + removedBy e s r
      = (ids s e).length + (if appendsTo e s r then 1 else 0) := by
  cases r with
  | getAll e' => rw [(get_effect s e' "").1]; simp [removedBy, appendsTo]
  | getById e' p => rw [(get_effect s e' p).2]; simp [removedBy, appendsTo]
  | post e' body =>
    obtain ⟨-, -, hi', hok, hthrow⟩ := post_effect s e' body
    by_cases he : e = e'
    · subst he
      cases hb : fieldsParse e body with
      | true => rw [(hok hb).2.2]; simp [removedBy, appendsTo, hb]
      | false => rw [(hthrow hb).2]; simp [removedBy, appendsTo, hb]
    · rw [hi' e he]
      have : ¬ e' = e := fun h => he h.symm
      simp [removedBy, appendsTo, this]
  | put e' p body =>
    by_cases he : e = e'
    · subst he
      by_cases h : ∀ x ∈ ids s e, x.strictEq (parseIntChars p.data) = false
      · have hall : absentId s e (parseIntChars p.data) = true :=
          (absentId_eq_true_iff s e _).2 h
        obtain ⟨-, -, hok, hthrow⟩ := put_effect_absent s e p body h
        cases hb : fieldsParse e body with
        | true => rw [(hok hb).2.2]; simp [removedBy, appendsTo, hb, hall]
        | false => rw [hthrow hb]; simp [removedBy, appendsTo, hb]
      · have hall : absentId s e (parseIntChars p.data) = false := by
          rw [Bool.eq_false_iff]
          intro hall
          exact h ((absentId_eq_true_iff s e _).1 hall)
        rw [(put_effect_present s e p body h).1]
        simp [removedBy, appendsTo, hall]
    · have hne : ¬ e' = e := fun h => he h.symm
      have hi : ids (handle s (.put e' p body)).1 e = ids s e := by
        by_cases h : ∀ x ∈ ids s e', x.strictEq (parseIntChars p.data) = false
        · exact (put_effect_absent s e' p body h).2.1 e he
        · exact (put_effect_present s e' p body h).2.2.1 e he
      rw [hi]; simp [removedBy, appendsTo, hne]
  | delete e' p =>
    obtain ⟨-, hi, -, hi'⟩ := delete_effect s e' p
    by_cases he : e = e'
    · subst he
      rw [hi]
      simp only [removedBy, appendsTo, if_true, Bool.false_eq_true, if_false, Nat.add_zero]
      rw [Nat.add_comm]
      exact (List.length_eq_length_filter_add _).symm
    · rw [hi' e he]
      have : ¬ e' = e := fun h => he h.symm
      simp [removedBy, appendsTo, this]

theorem length_run (rs : List Request) (e : Entity) :
    ∀ s, (ids (run s rs) e).length + removedCount e s rs
      = (ids s e).length + createCount e s rs := by
  induction rs with
  | nil => intro s; rfl
  | cons r rs ih =>
    intro s
    have h1 := ih (handle s r).1
    have h2 := length_step s r e
    simp only [run, removedCount, createCount]
    omega

/-- C12 (as stated, refuted): on the seeded store one `DELETE /books/999`, which matches no
book, leaves list-all at 2 records, while "records at reset plus creates minus deletes"
gives 2 + 0 - 1 = 1.  After `PUT /books/3`, `POST /books`, `DELETE /books/3` (two creates,
one delete that removes both books with id 3) list-all has 2 records, not 2 + 2 - 1 = 3.
And one `POST /books` on whose `author_id` `parseInt` throws leaves list-all at 2 records,
not 2 + 1 - 0 = 3. -/
theorem c12_delete_count_differs_from_removed :
    ((ids (run seed [.delete .books "999"]) .books).length : Int) = 2 ∧
    ((ids seed .books).length : Int) + (createCount .books seed [.delete .books "999"] : Int)
      - (deleteCount .books [.delete .books "999"] : Int) = 1 ∧
    ((ids (run seed [.delete .books "999"]) .books).length : Int) ≠
      ((ids seed .books).length : Int)
        + (createCount .books seed [.delete .books "999"] : Int)
        - (deleteCount .books [.delete .books "999"] : Int) ∧
    ((ids (run seed [.put .books "3" [], .post .books [], .delete .books "3"])
        .books).length : Int) ≠
      ((ids seed .books).length : Int)
        + (createCount .books seed
            [.put .books "3" [], .post .books [], .delete .books "3"] : Int)
        - (deleteCount .books [.put .books "3" [], .post .books [], .delete .books "3"] : Int) ∧
    ((ids (run seed [.post .books [("author_id", .obj [("toString", .num (.int 1))])]])
        .books).length : Int) ≠
      ((ids seed .books).length : Int)
        + (postCount .books [.post .books [("author_id", .obj [("toString", .num (.int 1))])]]
            : Int)
        - (deleteCount .books
            [.post .books [("author_id", .obj [("toString", .num (.int 1))])]] : Int) := by
  refine ⟨by decide, by decide, by decide, by decide, by decide⟩

/-- C12 (amended): after any request sequence served from the seeded store, the number of
records of a collection is the number at reset (2) plus the number of requests that
appended a record to it (`POST`s, and `PUT`s whose id matched no record, in both cases
only those on whose body fields `parseInt` did not throw) minus the number of records its
`DELETE`s removed (none for an id matching no record, all of them for an id matching
several). -/
theorem c12_length_is_creates_minus_removed (rs : List Request) (e : Entity) :
    ((ids (run seed rs) e).length : Int)
      = 2 + (createCount e seed rs : Int) - (removedCount e seed rs : Int) ∧
    (ids seed e).length = 2 ∧
    removedCount e seed rs ≤ (ids seed e).length + createCount e seed rs := by
  have h := length_run rs e seed
  have h2 : (ids seed e).length = 2 := by cases e <;> rfl
  refine ⟨?_, h2, ?_⟩ <;> omega

/-! ## Updating one record leaves the others in place -/

theorem getElem?_replace_ne {α : Type} (pre : List α) (b b' : α) (post : List α) (i : Nat)
    (hi : i ≠ pre.length) : (pre ++ b' :: post)[i]? = (pre ++ b :: post)[i]? := by
  have h : pre ++ b' :: post = (pre ++ b :: post).set pre.length b' := by simp
  rw [h, List.getElem?_set_ne (Ne.symm hi)]

theorem getElem?_append_singleton_lt {α : Type} (l : List α) (x : α) (i : Nat)
    (hi : i < l.length) : (l ++ [x])[i]? = l[i]? :=
  List.getElem?_append_left hi

/-- C14: a `PUT` changes at most the record it updates, the first one whose id matches:
when the collection splits as `pre ++ b :: post` at that record, it becomes
`pre ++ b' :: post`, so every other position holds the record it held before and the
length is unchanged; when no record matches, every prior position holds the record it
held before (the new record goes to the end).  Stated for the three entities; the parsed
id is `parseIntChars p.data`, the value of `parseInt` on the path string `p`. -/
theorem c14_update_leaves_other_records (s : Store) (p : String) (body : ReqBody) :
    ((∀ pre b post, s.books = pre ++ b :: post →
        (∀ x ∈ pre, x.id.strictEq (parseIntChars p.data) = false) →
        b.id.strictEq (parseIntChars p.data) = true →
        (∃ b', (putBookById s p body).1.books = pre ++ b' :: post) ∧
        (putBookById s p body).1.books.length = s.books.length ∧
        (∀ i, i ≠ pre.length → (putBookById s p body).1.books[i]? = s.books[i]?)) ∧
      (NoneWithId Book.id s.books (parseIntChars p.data) →
        ∀ i, i < s.books.length → (putBookById s p body).1.books[i]? = s.books[i]?)) ∧
    ((∀ pre a post, s.authors = pre ++ a :: post →
        (∀ x ∈ pre, x.id.strictEq (parseIntChars p.data) = false) →
        a.id.strictEq (parseIntChars p.data) = true →
        (∃ a', (putAuthorById s p body).1.authors = pre ++ a' :: post) ∧
        (putAuthorById s p body).1.authors.length = s.authors.length ∧
        (∀ i, i ≠ pre.length → (putAuthorById s p body).1.authors[i]? = s.authors[i]?)) ∧
      (NoneWithId Author.id s.authors (parseIntChars p.data) →
        ∀ i, i < s.authors.length → (putAuthorById s p body).1.authors[i]? = s.authors[i]?)) ∧
    ((∀ pre c post, s.categories = pre ++ c :: post →
        (∀ x ∈ pre, x.id.strictEq (parseIntChars p.data) = false) →
        c.id.strictEq (parseIntChars p.data) = true →
        (∃ c', (putCategoryById s p body).1.categories = pre ++ c' :: post) ∧
        (putCategoryById s p body).1.categories.length = s.categories.length ∧
        (∀ i, i ≠ pre.length →
          (putCategoryById s p body).1.categories[i]? = s.categories[i]?)) ∧
      (NoneWithId Category.id s.categories (parseIntChars p.data) →
        ∀ i, i < s.categories.length →
          (putCategoryById s p body).1.categories[i]? = s.categories[i]?)) := by
  refine ⟨⟨?_, ?_⟩, ⟨?_, ?_⟩, ⟨?_, ?_⟩⟩
  · intro pre b post hs hpre hb
    rw [putBookById_present s p body pre b post hs hpre hb, hs]
    exact ⟨⟨_, rfl⟩, by simp, fun i hi => getElem?_replace_ne pre b _ post i hi⟩
  · intro hn i hi
    rw [putBookById_absent s p body hn]
    cases newBook (parseIntChars p.data) (getProp body "title") (getProp body "author_id")
      (getProp body "category_id") (getProp body "published_year") with
    | none => rfl
    | some nb => exact getElem?_append_singleton_lt _ _ i hi
  · intro pre a post hs hpre ha
    rw [putAuthorById_present s p body pre a post hs hpre ha, hs]
    exact ⟨⟨_, rfl⟩, by simp, fun i hi => getElem?_replace_ne pre a _ post i hi⟩
  · intro hn i hi
    rw [putAuthorById_absent s p body hn]
    exact getElem?_append_singleton_lt _ _ i hi
  · intro pre c post hs hpre hc
    rw [putCategoryById_present s p body pre c post hs hpre hc, hs]
    exact ⟨⟨_, rfl⟩, by simp, fun i hi => getElem?_replace_ne pre c _ post i hi⟩
  · intro hn i hi
    rw [putCategoryById_absent s p body hn]
    exact getElem?_append_singleton_lt _ _ i hi

/-- Witness for C14: `PUT /books/1` on the seeded store leaves book 2 at position 1. -/
theorem c14_update_leaves_other_records_witness :
    (putBookById seed "1" [("title", .str "Updated")]).1.books.length = seed.books.length ∧
    (putBookById seed "1" [("title", .str "Updated")]).1.books[1]? = seed.books[1]? :=
  ⟨((c14_update_leaves_other_records seed "1" [("title", .str "Updated")]).1.1
      [] _ _ rfl (by simp) (by decide)).2.1,
   ((c14_update_leaves_other_records seed "1" [("title", .str "Updated")]).1.1
      [] _ _ rfl (by simp) (by decide)).2.2 1 (by decide)⟩

/-! ## Parsing of path ids -/

theorem roundToDouble_of_lt {n : Nat} (h : n < 2 ^ 53) : roundToDouble n = some n := by
  unfold roundToDouble
  rw [if_pos h]

theorem toDouble_of_lt {n : Nat} (h : n < 2 ^ 53) : toDouble n = .int n := by
  unfold toDouble
  rw [roundToDouble_of_lt h]

theorem isStrWhiteSpaceChar_of_digit (c : Char) (h : isDecimalDigit c = true) :
    isStrWhiteSpaceChar c = false := by
  simp only [isDecimalDigit, decide_eq_true_eq] at h
  simp only [isStrWhiteSpaceChar, Bool.or_eq_false_iff, Bool.and_eq_false_iff,
    decide_eq_false_iff_not]
  omega

theorem digitValue_of_digit (c : Char) (h : isDecimalDigit c = true) :
    digitValue 10 c = some (c.toNat - 48) := by
  simp only [isDecimalDigit, decide_eq_true_eq] at h
  have h2 : c.toNat - 48 < 10 := by omega
  simp [digitValue, h, h2]

theorem digitValue_of_not_digit (c : Char) (h : isDecimalDigit c = false) :
    digitValue 10 c = none := by
  simp only [isDecimalDigit, decide_eq_false_iff_not] at h
  unfold digitValue
  simp only [h, if_false]
  split_ifs <;> simp

theorem takeDigits_digits (ds suffix : List Char) (hds : ∀ c ∈ ds, isDecimalDigit c = true)
    (hsuf : startsWithDigit suffix = false) :
    takeDigits 10 (ds ++ suffix) = ds.map (fun c => c.toNat - 48) := by
  induction ds with
  | nil =>
    cases suffix with
    | nil => rfl
    | cons c cs =>
      simp only [startsWithDigit] at hsuf
      simp [takeDigits, digitValue_of_not_digit c hsuf]
  | cons d ds ih =>
    have hd := hds d (List.mem_cons_self _ _)
    simp [takeDigits, digitValue_of_digit d hd,
      ih (fun c hc => hds c (List.mem_cons_of_mem _ hc))]

theorem digitsToNat_map (ds : List Char) :
    digitsToNat 10 (ds.map (fun c => c.toNat - 48)) = decimalValue ds := by
  simp [digitsToNat, decimalValue, List.foldl_map]

theorem digitValue_of_hex (c : Char) (h : isHexDigit c = true) :
    digitValue 16 c = some (hexDigitValue c) := by
  simp only [isHexDigit, decide_eq_true_eq] at h
  unfold digitValue hexDigitValue
  dsimp only
  rcases h with h | h | h
  · have h2 : c.toNat - 48 < 16 := by omega
    simp [h, h2]
  · have h1 : ¬ (48 ≤ c.toNat ∧ c.toNat ≤ 57) := by omega
    have h2 : 97 ≤ c.toNat ∧ c.toNat ≤ 122 := by omega
    have h3 : c.toNat - 97 + 10 < 16 := by omega
    have h4 : ¬ c.toNat ≤ 57 := by omega
    have h5 : c.toNat - 97 + 10 = c.toNat - 87 := by omega
    rw [if_neg h1, if_pos h2, if_neg h4, if_pos h.1]
    dsimp only
    rw [if_pos h3, h5]
  · have h1 : ¬ (48 ≤ c.toNat ∧ c.toNat ≤ 57) := by omega
    have h2 : ¬ (97 ≤ c.toNat ∧ c.toNat ≤ 122) := by omega
    have h3 : 65 ≤ c.toNat ∧ c.toNat ≤ 90 := by omega
    have h4 : c.toNat - 65 + 10 < 16 := by omega
    have h5 : ¬ c.toNat ≤ 57 := by omega
    have h6 : ¬ 97 ≤ c.toNat := by omega
    have h7 : c.toNat - 65 + 10 = c.toNat - 55 := by omega
    rw [if_neg h1, if_neg h2, if_pos h3, if_neg h5, if_neg h6]
    dsimp only
    rw [if_pos h4, h7]

theorem digitValue_of_not_hex (c : Char) (h : isHexDigit c = false) :
    digitValue 16 c = none := by
  simp only [isHexDigit, decide_eq_false_iff_not, not_or] at h
  obtain ⟨h1, h2, h3⟩ := h
  unfold digitValue
  by_cases a : 97 ≤ c.toNat ∧ c.toNat ≤ 122
  · have hlt : ¬ (c.toNat - 97 + 10 < 16) := by omega
    simp only [h1, a, hlt, and_self, if_true, if_false]
  · by_cases b : 65 ≤ c.toNat ∧ c.toNat ≤ 90
    · have hlt : ¬ (c.toNat - 65 + 10 < 16) := by omega
      simp only [h1, a, b, hlt, and_self, if_true, if_false]
    · simp only [h1, a, b, if_false]

theorem takeDigits_hex (hs rest : List Char) (hhs : ∀ c ∈ hs, isHexDigit c = true)
    (hrest : startsWithHexDigit rest = false) :
    takeDigits 16 (hs ++ rest) = hs.map hexDigitValue := by
  induction hs with
  | nil =>
    cases rest with
    | nil => rfl
    | cons c cs =>
      simp only [startsWithHexDigit] at hrest
      simp [takeDigits, digitValue_of_not_hex c hrest]
  | cons d hs ih =>
    have hd := hhs d (List.mem_cons_self _ _)
    simp [takeDigits, digitValue_of_hex d hd,
      ih (fun c hc => hhs c (List.mem_cons_of_mem _ hc))]

theorem digitsToNat_map_hex (hs : List Char) :
    digitsToNat 16 (hs.map hexDigitValue) = hexValue hs := by
  simp [digitsToNat, hexValue, List.foldl_map]

theorem char_ne_of_toNat_ne {c d : Char} (h : c.toNat ≠ d.toNat) : c ≠ d :=
  fun hcd => h (by rw [hcd])

/-- A string that starts with a run of decimal digits, not with `0x` or `0X`, parses to the
double nearest to the integer the run denotes. -/
theorem parseIntChars_digits (ds suffix : List Char) (hne : ds ≠ [])
    (hds : ∀ c ∈ ds, isDecimalDigit c = true) (hsuf : startsWithDigit suffix = false)
    (hhex : startsWithHexMark (ds ++ suffix) = false) :
    parseIntChars (ds ++ suffix) = toDouble (decimalValue ds) := by
  cases ds with
  | nil => exact absurd rfl hne
  | cons d ds =>
    have hd := hds d (List.mem_cons_self _ _)
    have hws := isStrWhiteSpaceChar_of_digit d hd
    have hd' : 48 ≤ d.toNat ∧ d.toNat ≤ 57 := by
      simpa [isDecimalDigit] using hd
    have hminus : d ≠ '-' := char_ne_of_toNat_ne (by
      have : ('-' : Char).toNat = 45 := by decide
      omega)
    have hplus : d ≠ '+' := char_ne_of_toNat_ne (by
      have : ('+' : Char).toNat = 43 := by decide
      omega)
    have hdrop : List.dropWhile isStrWhiteSpaceChar (d :: ds ++ suffix) = d :: ds ++ suffix := by
      simp [List.dropWhile, hws]
    have htake := takeDigits_digits (d :: ds) suffix hds hsuf
    have hsign : (match d :: ds ++ suffix with
        | '-' :: r => ((-1 : Int), r)
        | '+' :: r => (1, r)
        | _ => (1, d :: ds ++ suffix)) = (1, d :: ds ++ suffix) := by
      split
      · rename_i h; exact absurd (List.cons.inj h).1 hminus
      · rename_i h; exact absurd (List.cons.inj h).1 hplus
      · rfl
    have hradix : (match d :: ds ++ suffix with
        | '0' :: 'x' :: r => (16, r)
        | '0' :: 'X' :: r => (16, r)
        | _ => (10, d :: ds ++ suffix)) = (10, d :: ds ++ suffix) := by
      split
      · rename_i h; rw [h] at hhex; simp [startsWithHexMark] at hhex
      · rename_i h; rw [h] at hhex; simp [startsWithHexMark] at hhex
      · rfl
    unfold parseIntChars toDouble
    simp only [hdrop, hsign, hradix, htake, digitsToNat_map]
    cases roundToDouble (decimalValue (d :: ds)) <;> simp

theorem parseIntChars_hex_tail (x : Char) (tail : List Char) (hx : x = 'x' ∨ x = 'X') :
    parseIntChars ('0' :: x :: tail) =
      (if (takeDigits 16 tail).isEmpty then JsNum.nan
       else toDouble (digitsToNat 16 (takeDigits 16 tail))) := by
  have hws : isStrWhiteSpaceChar '0' = false := by decide
  have hdrop : List.dropWhile isStrWhiteSpaceChar ('0' :: x :: tail) = '0' :: x :: tail := by
    simp [List.dropWhile, hws]
  have hsign : (match '0' :: x :: tail with
      | '-' :: r => ((-1 : Int), r)
      | '+' :: r => (1, r)
      | _ => (1, '0' :: x :: tail)) = (1, '0' :: x :: tail) := rfl
  have hradix : (match '0' :: x :: tail with
      | '0' :: 'x' :: r => (16, r)
      | '0' :: 'X' :: r => (16, r)
      | _ => (10, '0' :: x :: tail)) = (16, tail) := by
    rcases hx with rfl | rfl <;> rfl
  unfold parseIntChars toDouble
  simp only [hdrop, hsign, hradix]
  split
  · rfl
  · cases roundToDouble (digitsToNat 16 (takeDigits 16 tail)) <;> simp

/-- A string that starts with `0x` or `0X` is read in base 16: the run of hexadecimal
digits after the mark gives the double nearest to the integer it denotes, and an empty run
gives `NaN`. -/
theorem parseIntChars_hex (x : Char) (hs rest : List Char) (hx : x = 'x' ∨ x = 'X')
    (hhs : ∀ c ∈ hs, isHexDigit c = true) (hrest : startsWithHexDigit rest = false) :
    parseIntChars ('0' :: x :: (hs ++ rest))
      = (if hs = [] then JsNum.nan else toDouble (hexValue hs)) := by
  rw [parseIntChars_hex_tail x _ hx, takeDigits_hex hs rest hhs hrest, digitsToNat_map_hex]
  cases hs <;> simp

theorem parseIntChars_no_number (c : Char) (cs : List Char)
    (hdig : isDecimalDigit c = false) (hws : isStrWhiteSpaceChar c = false)
    (hminus : c ≠ '-') (hplus : c ≠ '+') : parseIntChars (c :: cs) = .nan := by
  have hzero : c ≠ '0' := by
    intro h
    rw [h] at hdig
    exact absurd hdig (by decide)
  have hdrop : List.dropWhile isStrWhiteSpaceChar (c :: cs) = c :: cs := by
    simp [List.dropWhile, hws]
  have hsign : (match c :: cs with
      | '-' :: r => ((-1 : Int), r)
      | '+' :: r => (1, r)
      | _ => (1, c :: cs)) = (1, c :: cs) := by
    split
    · rename_i h; exact absurd (List.cons.inj h).1 hminus
    · rename_i h; exact absurd (List.cons.inj h).1 hplus
    · rfl
  have hradix : (match c :: cs with
      | '0' :: 'x' :: r => (16, r)
      | '0' :: 'X' :: r => (16, r)
      | _ => (10, c :: cs)) = (10, c :: cs) := by
    split
    · rename_i h; exact absurd (List.cons.inj h).1 hzero
    · rename_i h; exact absurd (List.cons.inj h).1 hzero
    · rfl
  have htake : takeDigits 10 (c :: cs) = [] := by
    simp [takeDigits, digitValue_of_not_digit c hdig]
  unfold parseIntChars
  simp only [hdrop, hsign, hradix, htake]
  rfl

set_option maxRecDepth 100000 in
/-- A run of 400 nines is beyond the range of a double: it parses to `Infinity`. -/
theorem parseInt_long_run_is_infinity :
    parseInt (.str (String.mk (List.replicate 400 '9'))) = some (.inf false) := by
  decide

/-- C18 (as stated, refuted): the path id `0x1A` starts with the digit run `0` followed by
a suffix that does not start with a digit, yet the handlers use 26, not 0: `parseInt`
without a radix reads a `0x` mark as base 16.  And the path id `9007199254740993` is a
digit run, yet the handlers use 9007199254740992: `parseInt` returns the nearest double. -/
theorem c18_hex_mark_and_rounding :
    (∀ c ∈ ['0'], isDecimalDigit c = true) ∧ startsWithDigit ['x', '1', 'A'] = false ∧
    decimalValue ['0'] = 0 ∧
    parseInt (.str (String.mk (['0'] ++ ['x', '1', 'A']))) = some (.int 26) ∧
    parseInt (.str (String.mk (['0'] ++ ['x', '1', 'A']))) ≠ some (.int (decimalValue ['0'])) ∧
    (∀ c ∈ "9007199254740993".data, isDecimalDigit c = true) ∧
    decimalValue "9007199254740993".data = 9007199254740993 ∧
    parseInt (.str "9007199254740993") = some (.int 9007199254740992) ∧
    parseInt (.str "9007199254740993")
      ≠ some (.int (decimalValue "9007199254740993".data)) := by
  refine ⟨by decide, by decide, by decide, by decide, by decide, by decide, by decide,
    by decide, by decide⟩

/-- C18 (amended): a path id string made of a non-empty run of decimal digits followed by
a suffix that does not start with a digit, and that does not start with `0x` or `0X`, is
parsed to the double nearest to the integer denoted by the digit run (`Infinity` when out
of range), which is that integer itself when it is below `2 ^ 53`; a string made of `0x`
or `0X`, a run of hexadecimal digits and a suffix not starting with a hexadecimal digit is
parsed likewise from the run read in base 16, and to `NaN` when the run is empty; a string
whose first character is not a digit, a sign or white space, and the empty string, parse to
`NaN`; so `GET` by id `1.99` returns exactly what `GET` by id `1` returns, the book with id
1 in the seeded state. -/
theorem c18_path_id_is_leading_digit_run (p : String) (ds suffix : List Char)
    (hp : p.data = ds ++ suffix) (hne : ds ≠ [])
    (hds : ∀ c ∈ ds, isDecimalDigit c = true) (hsuf : startsWithDigit suffix = false)
    (hhex : startsWithHexMark p.data = false) :
    parseInt (.str p) = some (toDouble (decimalValue ds)) ∧
    (decimalValue ds < 2 ^ 53 → parseInt (.str p) = some (.int (decimalValue ds))) ∧
    (∀ x hs rest, (x = 'x' ∨ x = 'X') → (∀ c ∈ hs, isHexDigit c = true) →
      startsWithHexDigit rest = false →
      (hs ≠ [] →
        parseInt (.str (String.mk ('0' :: x :: (hs ++ rest)))) = some (toDouble (hexValue hs)) ∧
        (hexValue hs < 2 ^ 53 →
          parseInt (.str (String.mk ('0' :: x :: (hs ++ rest)))) = some (.int (hexValue hs)))) ∧
      (hs = [] → parseInt (.str (String.mk ('0' :: x :: (hs ++ rest)))) = some .nan)) ∧
    (∀ c cs, isDecimalDigit c = false → isStrWhiteSpaceChar c = false → c ≠ '-' → c ≠ '+' →
      parseInt (.str (String.mk (c :: cs))) = some .nan) ∧
    parseInt (.str "") = some .nan ∧
    (∀ s e, handle s (.getById e "1.99") = handle s (.getById e "1")) ∧
    (handle seed (.getById .books "1.99")).2 =
      { status := 200,
        body := .book { id := .int 1, title := .str "The Great Gatsby", author_id := .int 1,
                        category_id := .int 1, published_year := .int 1925 } } := by
  have hmain : parseIntChars p.data = toDouble (decimalValue ds) := by
    rw [hp] at hhex ⊢
    exact parseIntChars_digits ds suffix hne hds hsuf hhex
  refine ⟨?_, ?_, ?_, ?_, by decide, ?_, rfl⟩
  · rw [parseInt_str, hmain]
  · intro hlt
    rw [parseInt_str, hmain, toDouble_of_lt hlt]
  · intro x hs rest hx hhs hrest
    have hq : parseInt (.str (String.mk ('0' :: x :: (hs ++ rest))))
        = some (if hs = [] then JsNum.nan else toDouble (hexValue hs)) := by
      rw [parseInt_str]
      exact congrArg some (parseIntChars_hex x hs rest hx hhs hrest)
    refine ⟨fun hn => ⟨?_, fun hlt => ?_⟩, fun hn => ?_⟩
    · rw [hq, if_neg hn]
    · rw [hq, if_neg hn, toDouble_of_lt hlt]
    · rw [hq, if_pos hn]
  · intro c cs h1 h2 h3 h4
    rw [parseInt_str]
    exact congrArg some (parseIntChars_no_number c cs h1 h2 h3 h4)
  · intro s e
    have h1 : parseIntChars "1.99".data = .int 1 := by decide
    have h2 : parseIntChars "1".data = .int 1 := by decide
    cases e
    · simp only [handle, getBookById_eq, h1, h2]
    · simp only [handle, getAuthorById_eq, h1, h2]
    · simp only [handle, getCategoryById_eq, h1, h2]

/-- Witness for C18 (amended): `1.99` is the digit run `1` followed by `.99`. -/
theorem c18_path_id_is_leading_digit_run_witness :
    ("1.99" : String).data = ['1'] ++ ['.', '9', '9'] ∧ ['1'] ≠ [] ∧
    (∀ c ∈ ['1'], isDecimalDigit c = true) ∧ startsWithDigit ['.', '9', '9'] = false ∧
    startsWithHexMark ("1.99" : String).data = false ∧
    decimalValue ['1'] < 2 ^ 53 ∧
    parseInt (.str "1.99") = some (.int (decimalValue ['1'])) :=
  ⟨rfl, by decide, by decide, by decide, by decide, by decide,
   (c18_path_id_is_leading_digit_run "1.99" ['1'] ['.', '9', '9'] rfl (by decide)
      (by decide) (by decide) (by decide)).2.1 (by decide)⟩

/-! ## Creation from an incomplete body -/

theorem parseInt_undefined : parseInt .undefined = some .nan := by decide

/-- C19 (as stated, refuted): `POST /books` with only a title on the seeded store answers
201 with a record whose `author_id`, `category_id` and `published_year` are `NaN`
(`parseInt(undefined)`), not absent or `undefined`.  And `POST /books` with a body that
omits `published_year` and carries an `author_id` with an own `toString` entry is answered
500, not 201. -/
theorem c19_omitted_numeric_fields_are_nan :
    absentKey [("title", .str "Incomplete")] "author_id" ∧
    (postBooks seed [("title", .str "Incomplete")]).2 =
      { status := 201,
        body := .book { id := .int 3, title := .str "Incomplete", author_id := .nan,
                        category_id := .nan, published_year := .nan } } ∧
    (postBooks seed [("title", .str "Incomplete")]).1.books.getLast? =
      some { id := .int 3, title := .str "Incomplete", author_id := .nan,
             category_id := .nan, published_year := .nan } ∧
    Book.prop { id := .int 3, title := .str "Incomplete", author_id := .nan,
                category_id := .nan, published_year := .nan } "author_id" = .num .nan ∧
    Book.prop { id := .int 3, title := .str "Incomplete", author_id := .nan,
                category_id := .nan, published_year := .nan } "author_id" ≠ .undefined ∧
    absentKey [("title", .str "Incomplete"), ("author_id", .obj [("toString", .null)])]
      "published_year" ∧
    (postBooks seed
      [("title", .str "Incomplete"), ("author_id", .obj [("toString", .null)])]).2.status
      = 500 := by
  refine ⟨by unfold absentKey; decide, rfl, rfl, rfl, ?_, by unfold absentKey; decide,
    by decide⟩
  intro h
  have h' : JsVal.num JsNum.nan = JsVal.undefined := h
  exact JsVal.noConfusion h'

/-- C19 (amended): `POST /books` with a body on whose `author_id`, `category_id` and
`published_year` `parseInt` does not throw (omitted fields never make it throw) answers 201
with a record whose title is the body's title and which is the last record stored; a
numeric field (`author_id`, `category_id`, `published_year`) omitted from the body is `NaN`
in that record, and an omitted title is `undefined`.  When `parseInt` throws on a supplied
field the answer is 500 and no record is stored. -/
theorem c19_create_from_incomplete_body (s : Store) (body : ReqBody) :
    (bookFieldsParse body = true →
      ∃ nb : Book, (postBooks s body).2 = { status := 201, body := .book nb } ∧
        (postBooks s body).1.books = s.books ++ [nb] ∧
        nb.title = getProp body "title" ∧
        (absentKey body "title" → nb.title = .undefined ∧ nb.prop "title" = .undefined) ∧
        (absentKey body "author_id" →
          nb.author_id = .nan ∧ nb.prop "author_id" = .num .nan) ∧
        (absentKey body "category_id" →
          nb.category_id = .nan ∧ nb.prop "category_id" = .num .nan) ∧
        (absentKey body "published_year" →
          nb.published_year = .nan ∧ nb.prop "published_year" = .num .nan)) ∧
    (bookFieldsParse body = false →
      (postBooks s body).2 = errorResponse ∧ (postBooks s body).1.books = s.books) ∧
    (absentKey body "author_id" → absentKey body "category_id" →
      absentKey body "published_year" → bookFieldsParse body = true) := by
  refine ⟨fun hb => ?_, fun hb => ?_, fun h1 h2 h3 => ?_⟩
  · obtain ⟨a, c, y, ha, hc, hy⟩ := (bookFieldsParse_iff body).1 hb
    rw [postBooks_ok s body a c y ha hc hy]
    refine ⟨_, rfl, rfl, rfl, ?_, ?_, ?_, ?_⟩
    · intro h
      have := getProp_absent body _ h
      exact ⟨this, by simp [Book.prop, this]⟩
    · intro h
      rw [getProp_absent body _ h, parseInt_undefined] at ha
      have : a = .nan := (Option.some.inj ha).symm
      exact ⟨this, by simp [Book.prop, this]⟩
    · intro h
      rw [getProp_absent body _ h, parseInt_undefined] at hc
      have : c = .nan := (Option.some.inj hc).symm
      exact ⟨this, by simp [Book.prop, this]⟩
    · intro h
      rw [getProp_absent body _ h, parseInt_undefined] at hy
      have : y = .nan := (Option.some.inj hy).symm
      exact ⟨this, by simp [Book.prop, this]⟩
  · rw [postBooks_throw s body hb]
    exact ⟨rfl, rfl⟩
  · rw [bookFieldsParse_iff]
    exact ⟨.nan, .nan, .nan, by rw [getProp_absent body _ h1, parseInt_undefined],
      by rw [getProp_absent body _ h2, parseInt_undefined],
      by rw [getProp_absent body _ h3, parseInt_undefined]⟩

/-- Witness for C19 (amended): the body `{title: "Incomplete"}` omits `published_year`. -/
theorem c19_create_from_incomplete_body_witness :
    bookFieldsParse [("title", .str "Incomplete")] = true ∧
    absentKey [("title", .str "Incomplete")] "published_year" ∧
    ∃ nb : Book, (postBooks seed [("title", .str "Incomplete")]).2
        = { status := 201, body := .book nb } ∧
      (postBooks seed [("title", .str "Incomplete")]).1.books = seed.books ++ [nb] ∧
      nb.title = getProp [("title", .str "Incomplete")] "title" ∧
      (absentKey [("title", .str "Incomplete")] "title" →
        nb.title = .undefined ∧ nb.prop "title" = .undefined) ∧
      (absentKey [("title", .str "Incomplete")] "author_id" →
        nb.author_id = .nan ∧ nb.prop "author_id" = .num .nan) ∧
      (absentKey [("title", .str "Incomplete")] "category_id" →
        nb.category_id = .nan ∧ nb.prop "category_id" = .num .nan) ∧
      (absentKey [("title", .str "Incomplete")] "published_year" →
        nb.published_year = .nan ∧ nb.prop "published_year" = .num .nan) :=
  ⟨by decide, by unfold absentKey; decide,
   (c19_create_from_incomplete_body seed [("title", .str "Incomplete")]).1 (by decide)⟩

/-! ## Agreement of `PUT` with `GET`, idempotence of `PUT`, create then get -/

theorem getBookById_first (s : Store) (p : String) (b : Book)
    (h : FirstWithId Book.id s.books (parseIntChars p.data) b) :
    getBookById s p = (s, { status := 200, body := .book b }) := by
  simp only [getBookById_eq, find?_of_firstWithId Book.id s.books _ b h]

theorem getAuthorById_first (s : Store) (p : String) (a : Author)
    (h : FirstWithId Author.id s.authors (parseIntChars p.data) a) :
    getAuthorById s p = (s, { status := 200, body := .author a }) := by
  simp only [getAuthorById_eq, find?_of_firstWithId Author.id s.authors _ a h]

theorem getCategoryById_first (s : Store) (p : String) (c : Category)
    (h : FirstWithId Category.id s.categories (parseIntChars p.data) c) :
    getCategoryById s p = (s, { status := 200, body := .category c }) := by
  simp only [getCategoryById_eq, find?_of_firstWithId Category.id s.categories _ c h]

theorem strictEq_int_self (m : Int) : (JsNum.int m).strictEq (.int m) = true := by
  simp [JsNum.strictEq]

/-- Updating a record just built from the same body changes nothing. -/
theorem updateBookFields_new (i : JsNum) (t a c y : JsVal) (a1 c1 y1 : JsNum)
    (ha : parseInt a = some a1) (hc : parseInt c = some c1) (hy : parseInt y = some y1) :
    updateBookFields
      { id := i, title := t, author_id := a1, category_id := c1, published_year := y1 } t a c y
      = .ok { id := i, title := t, author_id := a1, category_id := c1,
              published_year := y1 } := by
  rw [updateBookFields_ok _ t a c y a1 c1 y1 ha hc hy]
  cases t.truthy <;> cases a.truthy <;> cases c.truthy <;> cases y.truthy <;> rfl

/-- The outcome of a `PUT` on books whose body fields parse, in both branches: the store
keeps everything but the books, which become `pre ++ b :: post` with `b` the record
answered, and `b` is the first book whose id matches when the path id parses to an
integer. -/
theorem putBookById_shape (s : Store) (p : String) (body : ReqBody)
    (hparse : bookFieldsParse body = true) :
    ∃ pre b post, putBookById s p body =
        ({ s with books := pre ++ b :: post }, { status := 200, body := .book b }) ∧
      (∀ x ∈ pre, x.id.strictEq (parseIntChars p.data) = false) ∧
      (∀ m, parseIntChars p.data = .int m → b.id.strictEq (parseIntChars p.data) = true) ∧
      updateBookFields b (getProp body "title") (getProp body "author_id")
        (getProp body "category_id") (getProp body "published_year") = .ok b := by
  obtain ⟨a, c, y, ha, hc, hy⟩ := (bookFieldsParse_iff body).1 hparse
  rcases none_or_split (fun b : Book => b.id.strictEq (parseIntChars p.data)) s.books with
    hn | ⟨pre, b, post, hs, hpre, hb⟩
  · refine ⟨s.books, _, [], putBookById_absent_ok s p body a c y hn ha hc hy, hn, ?_,
      updateBookFields_new _ _ _ _ _ a c y ha hc hy⟩
    intro m hm
    rw [hm]
    exact strictEq_int_self m
  · obtain ⟨b1, hb1⟩ := (updateBookFields_isOk_iff b body).2 hparse
    have hidem := updateBookFields_idem b (getProp body "title") (getProp body "author_id")
      (getProp body "category_id") (getProp body "published_year")
    have hid := updateBookFields_id b (getProp body "title") (getProp body "author_id")
      (getProp body "category_id") (getProp body "published_year")
    rw [hb1] at hidem hid
    refine ⟨pre, b1, post, ?_, hpre, ?_, hidem⟩
    · rw [putBookById_present s p body pre b post hs hpre hb, hb1]
      rfl
    · intro _ _
      have : b1.id = b.id := hid
      rw [this]
      exact hb

theorem putAuthorById_shape (s : Store) (p : String) (body : ReqBody) :
    ∃ pre a post, putAuthorById s p body =
        ({ s with authors := pre ++ a :: post }, { status := 200, body := .author a }) ∧
      (∀ x ∈ pre, x.id.strictEq (parseIntChars p.data) = false) ∧
      (∀ m, parseIntChars p.data = .int m → a.id.strictEq (parseIntChars p.data) = true) ∧
      ({ a with name := getProp body "name" } : Author) = a := by
  rcases none_or_split (fun a : Author => a.id.strictEq (parseIntChars p.data)) s.authors with
    hn | ⟨pre, a, post, hs, hpre, ha⟩
  · refine ⟨s.authors, _, [], putAuthorById_absent s p body hn, hn, ?_, rfl⟩
    intro m hm
    rw [hm]
    exact strictEq_int_self m
  · exact ⟨pre, _, post, putAuthorById_present s p body pre a post hs hpre ha, hpre,
      fun _ _ => ha, rfl⟩

theorem putCategoryById_shape (s : Store) (p : String) (body : ReqBody) :
    ∃ pre c post, putCategoryById s p body =
        ({ s with categories := pre ++ c :: post },
         { status := 200, body := .category c }) ∧
      (∀ x ∈ pre, x.id.strictEq (parseIntChars p.data) = false) ∧
      (∀ m, parseIntChars p.data = .int m → c.id.strictEq (parseIntChars p.data) = true) ∧
      ({ c with name := getProp body "name" } : Category) = c := by
  rcases none_or_split (fun c : Category => c.id.strictEq (parseIntChars p.data))
    s.categories with hn | ⟨pre, c, post, hs, hpre, hc⟩
  · refine ⟨s.categories, _, [], putCategoryById_absent s p body hn, hn, ?_, rfl⟩
    intro m hm
    rw [hm]
    exact strictEq_int_self m
  · exact ⟨pre, _, post, putCategoryById_present s p body pre c post hs hpre hc, hpre,
      fun _ _ => hc, rfl⟩

/-- C21 (as stated, refuted): on the seeded store `PUT /books/1` with an `author_id` that
is an object with an own `toString` entry is answered 500, and the `GET /books/1` served
right after it is answered 200 with book 1: the two answers differ. -/
theorem c21_get_after_throwing_put_differs :
    (handle seed (.put .books "1"
      [("title", .str "T"), ("author_id", .obj [("toString", .num (.int 1))])])).2.status
      = 500 ∧
    (handle (handle seed (.put .books "1"
      [("title", .str "T"), ("author_id", .obj [("toString", .num (.int 1))])])).1
        (.getById .books "1")).2.status = 200 ∧
    (handle (handle seed (.put .books "1"
      [("title", .str "T"), ("author_id", .obj [("toString", .num (.int 1))])])).1
        (.getById .books "1")).2.body.recordId = some (.int 1) ∧
    (handle seed (.put .books "1"
      [("title", .str "T"),
       ("author_id", .obj [("toString", .num (.int 1))])])).2.body.recordId = none := by
  decide

/-- C21 (amended): when the path id parses to an integer and `parseInt` does not throw on
the body fields (never, for authors and categories), a `GET` by that id served right after
a `PUT` to it answers exactly what the `PUT` answered (status 200 and the same record), in
every store state, duplicate ids included, and for every entity; when `parseInt` throws,
the `PUT` is answered 500 while the `GET` is answered 200. -/
theorem c21_get_after_put_returns_put_body (s : Store) (e : Entity) (p : String) (m : Int)
    (body : ReqBody) (hp : parseInt (.str p) = some (.int m)) :
    (fieldsParse e body = true →
      (handle (handle s (.put e p body)).1 (.getById e p)).2 = (handle s (.put e p body)).2 ∧
      (handle (handle s (.put e p body)).1 (.getById e p)).2.status = 200 ∧
      (handle s (.put e p body)).2.body.recordId = some (.int m)) ∧
    (fieldsParse e body = false →
      (handle s (.put e p body)).2 = errorResponse ∧
      (handle (handle s (.put e p body)).1 (.getById e p)).2.status = 200) := by
  have hp1 : parseIntChars p.data = .int m := parseIntChars_of_parseInt hp
  refine ⟨fun hparse => ?_, fun hthrow => ?_⟩
  · cases e
    · obtain ⟨pre, b, post, hput, hpre, hb, -⟩ := putBookById_shape s p body hparse
      have hb' := hb m hp1
      have hget := getBookById_first { s with books := pre ++ b :: post } p b
        ⟨pre, post, rfl, hpre, hb'⟩
      have hid : b.id = .int m := by rw [← hp1]; exact strictEq_eq_of_true hb'
      show (getBookById (putBookById s p body).1 p).2 = (putBookById s p body).2 ∧
        (getBookById (putBookById s p body).1 p).2.status = 200 ∧
        (putBookById s p body).2.body.recordId = some (.int m)
      rw [hput]
      dsimp only
      rw [hget]
      exact ⟨rfl, rfl, congrArg some hid⟩
    · obtain ⟨pre, a, post, hput, hpre, ha, -⟩ := putAuthorById_shape s p body
      have ha' := ha m hp1
      have hget := getAuthorById_first { s with authors := pre ++ a :: post } p a
        ⟨pre, post, rfl, hpre, ha'⟩
      have hid : a.id = .int m := by rw [← hp1]; exact strictEq_eq_of_true ha'
      show (getAuthorById (putAuthorById s p body).1 p).2 = (putAuthorById s p body).2 ∧
        (getAuthorById (putAuthorById s p body).1 p).2.status = 200 ∧
        (putAuthorById s p body).2.body.recordId = some (.int m)
      rw [hput]
      dsimp only
      rw [hget]
      exact ⟨rfl, rfl, congrArg some hid⟩
    · obtain ⟨pre, c, post, hput, hpre, hc, -⟩ := putCategoryById_shape s p body
      have hc' := hc m hp1
      have hget := getCategoryById_first { s with categories := pre ++ c :: post } p c
        ⟨pre, post, rfl, hpre, hc'⟩
      have hid : c.id = .int m := by rw [← hp1]; exact strictEq_eq_of_true hc'
      show (getCategoryById (putCategoryById s p body).1 p).2 = (putCategoryById s p body).2 ∧
        (getCategoryById (putCategoryById s p body).1 p).2.status = 200 ∧
        (putCategoryById s p body).2.body.recordId = some (.int m)
      rw [hput]
      dsimp only
      rw [hget]
      exact ⟨rfl, rfl, congrArg some hid⟩
  · refine ⟨?_, getById_status _ e p⟩
    by_cases h : ∀ x ∈ ids s e, x.strictEq (parseIntChars p.data) = false
    · rw [(put_effect_absent s e p body h).2.2.2 hthrow]
    · exact (put_effect_present s e p body h).2.2.2.2 hthrow

/-- Witness for C21 (amended): `PUT /books/999` then `GET /books/999` on the seeded store. -/
theorem c21_get_after_put_returns_put_body_witness :
    parseInt (.str "999") = some (.int 999) ∧
    fieldsParse .books [("title", .str "New via PUT")] = true ∧
    (handle (handle seed (.put .books "999" [("title", .str "New via PUT")])).1
        (.getById .books "999")).2
      = (handle seed (.put .books "999" [("title", .str "New via PUT")])).2 :=
  ⟨by decide, by decide,
   ((c21_get_after_put_returns_put_body seed .books "999" 999
      [("title", .str "New via PUT")] (by decide)).1 (by decide)).1⟩

/-- C22: when the path id parses to an integer, serving the same `PUT` a second time
leaves the store left by the first and answers what the first answered, whether the first
inserted the record or updated it; stated for every entity. -/
theorem c22_put_idempotent (s : Store) (e : Entity) (p : String) (m : Int)
    (body : ReqBody) (hp : parseInt (.str p) = some (.int m)) :
    handle (handle s (.put e p body)).1 (.put e p body) = handle s (.put e p body) ∧
    run s [.put e p body, .put e p body] = run s [.put e p body] ∧
    responses s [.put e p body, .put e p body]
      = [(handle s (.put e p body)).2, (handle s (.put e p body)).2] := by
  have hp1 : parseIntChars p.data = .int m := parseIntChars_of_parseInt hp
  have key : handle (handle s (.put e p body)).1 (.put e p body)
      = handle s (.put e p body) := by
    cases e
    · show putBookById (putBookById s p body).1 p body = putBookById s p body
      rcases none_or_split (fun b : Book => b.id.strictEq (parseIntChars p.data)) s.books with
        hn | ⟨pre, b, post, hs, hpre, hb⟩
      · by_cases hparse : bookFieldsParse body = true
        · obtain ⟨pre, b, post, hput, hpre, hb, hupd⟩ := putBookById_shape s p body hparse
          rw [hput]
          dsimp only
          rw [putBookById_present _ p body pre b post rfl hpre (hb m hp1), hupd]
          rfl
        · simp only [Bool.not_eq_true] at hparse
          rw [putBookById_absent_throw s p body hn hparse]
          exact putBookById_absent_throw s p body hn hparse
      · have hid := updateBookFields_id b (getProp body "title") (getProp body "author_id")
          (getProp body "category_id") (getProp body "published_year")
        rw [putBookById_present s p body pre b post hs hpre hb]
        dsimp only
        rw [putBookById_present _ p body pre _ post rfl hpre (by rw [hid]; exact hb),
          updateBookFields_idem]
    · obtain ⟨pre, a, post, hput, hpre, ha, hupd⟩ := putAuthorById_shape s p body
      show putAuthorById (putAuthorById s p body).1 p body = putAuthorById s p body
      rw [hput]
      dsimp only
      rw [putAuthorById_present _ p body pre a post rfl hpre (ha m hp1), hupd]
    · obtain ⟨pre, c, post, hput, hpre, hc, hupd⟩ := putCategoryById_shape s p body
      show putCategoryById (putCategoryById s p body).1 p body = putCategoryById s p body
      rw [hput]
      dsimp only
      rw [putCategoryById_present _ p body pre c post rfl hpre (hc m hp1), hupd]
  refine ⟨key, ?_, ?_⟩
  · simp only [run, key]
  · simp only [responses, key]

/-- Witness for C22: `PUT /books/999` twice on the seeded store. -/
theorem c22_put_idempotent_witness :
    parseInt (.str "999") = some (.int 999) ∧
    run seed [.put .books "999" [("title", .str "T")], .put .books "999" [("title", .str "T")]]
      = run seed [.put .books "999" [("title", .str "T")]] :=
  ⟨by decide,
   (c22_put_idempotent seed .books "999" 999 [("title", .str "T")] (by decide)).2.1⟩

/-- C23 (as stated, refuted): on the seeded store, where no book has id 3, a `POST /books`
whose `category_id` is an object with an own `toString` entry creates no record and returns
no id (it is answered 500), and `GET /books/3` afterwards answers the empty object. -/
theorem c23_throwing_create_returns_nothing_to_get :
    (∀ x ∈ ids seed .books, x ≠ .int (counter seed .books)) ∧
    (handle seed (.post .books
      [("title", .str "1984"), ("category_id", .obj [("toString", .num (.int 2))])])).2.status
      = 500 ∧
    (handle seed (.post .books
      [("title", .str "1984"),
       ("category_id", .obj [("toString", .num (.int 2))])])).2.body.recordId = none ∧
    (handle (handle seed (.post .books
      [("title", .str "1984"), ("category_id", .obj [("toString", .num (.int 2))])])).1
        (.getById .books "3")).2.body.recordId = none := by
  decide

/-- C23 (amended): when no record of the collection has the id the counter is about to hand
out and `parseInt` does not throw on the body fields (never, for authors and categories),
a `GET` by a path id denoting the id a `POST` returned answers 200 with exactly the record
that `POST` created; stated for every entity. -/
theorem c23_create_then_get_round_trip (s : Store) (e : Entity) (p : String)
    (body : ReqBody) (hfresh : ∀ x ∈ ids s e, x ≠ .int (counter s e))
    (hp : parseInt (.str p) = some (.int (counter s e)))
    (hparse : fieldsParse e body = true) :
    (handle s (.post e body)).2.status = 201 ∧
    (handle s (.post e body)).2.body.recordId = some (parseIntChars p.data) ∧
    (handle (handle s (.post e body)).1 (.getById e p)).2.status = 200 ∧
    (handle (handle s (.post e body)).1 (.getById e p)).2.body
      = (handle s (.post e body)).2.body := by
  have hp1 : parseIntChars p.data = .int (counter s e) := parseIntChars_of_parseInt hp
  obtain ⟨hst, hrid, -⟩ := (post_effect s e body).2.2.2.1 hparse
  refine ⟨hst, by rw [hp1]; exact hrid, getById_status _ e p, ?_⟩
  cases e
  · have hn : ∀ x ∈ s.books, x.id.strictEq (parseIntChars p.data) = false := by
      intro x hx
      rw [hp1]
      exact strictEq_false_of_ne_int (hfresh x.id (List.mem_map.2 ⟨x, hx, rfl⟩))
    obtain ⟨a, c, y, ha, hc, hy⟩ := (bookFieldsParse_iff body).1 hparse
    show (getBookById (postBooks s body).1 p).2.body = (postBooks s body).2.body
    rw [postBooks_ok s body a c y ha hc hy]
    dsimp only
    rw [getBookById_first _ p _ ⟨s.books, [], rfl, hn, by rw [hp1]; exact strictEq_int_self _⟩]
  · have hn : ∀ x ∈ s.authors, x.id.strictEq (parseIntChars p.data) = false := by
      intro x hx
      rw [hp1]
      exact strictEq_false_of_ne_int (hfresh x.id (List.mem_map.2 ⟨x, hx, rfl⟩))
    show (getAuthorById (postAuthors s body).1 p).2.body = (postAuthors s body).2.body
    rw [getAuthorById_first (postAuthors s body).1 p _
      ⟨s.authors, [], rfl, hn, by rw [hp1]; exact strictEq_int_self _⟩]
    rfl
  · have hn : ∀ x ∈ s.categories, x.id.strictEq (parseIntChars p.data) = false := by
      intro x hx
      rw [hp1]
      exact strictEq_false_of_ne_int (hfresh x.id (List.mem_map.2 ⟨x, hx, rfl⟩))
    show (getCategoryById (postCategories s body).1 p).2.body
      = (postCategories s body).2.body
    rw [getCategoryById_first (postCategories s body).1 p _
      ⟨s.categories, [], rfl, hn, by rw [hp1]; exact strictEq_int_self _⟩]
    rfl

/-- Witness for C23 (amended): `POST /books` on the seeded store returns id 3, then
`GET /books/3`. -/
theorem c23_create_then_get_round_trip_witness :
    (∀ x ∈ ids seed .books, x ≠ .int (counter seed .books)) ∧
    parseInt (.str "3") = some (.int (counter seed .books)) ∧
    fieldsParse .books [("title", .str "1984")] = true ∧
    (handle (handle seed (.post .books [("title", .str "1984")])).1
        (.getById .books "3")).2.body
      = (handle seed (.post .books [("title", .str "1984")])).2.body :=
  ⟨by decide, by decide, by decide,
   (c23_create_then_get_round_trip seed .books "3" [("title", .str "1984")]
      (by decide) (by decide) (by decide)).2.2.2⟩

/-! ## Records keyed by `NaN` -/

theorem nanKeyed_book (b : Book) : (ResBody.book b).nanKeyed = decide (b.id = .nan) := by
  simp [ResBody.nanKeyed, ResBody.recordId]

theorem nanKeyed_author (a : Author) :
    (ResBody.author a).nanKeyed = decide (a.id = .nan) := by
  simp [ResBody.nanKeyed, ResBody.recordId]

theorem nanKeyed_category (c : Category) :
    (ResBody.category c).nanKeyed = decide (c.id = .nan) := by
  simp [ResBody.nanKeyed, ResBody.recordId]

theorem ne_nan_of_strictEq {a pid : JsNum} (h : a.strictEq pid = true) : a ≠ .nan :=
  ((strictEq_eq_true_iff a pid).1 h).2

theorem filter_nanKeyed_delete {α : Type} (key : α → JsNum) (wrap : α → ResBody)
    (hw : ∀ a, (wrap a).nanKeyed = decide (key a = .nan)) (pid : JsNum) (l : List α) :
    ((l.filter (fun a => !((key a).strictEq pid))).map wrap).filter ResBody.nanKeyed
      = (l.map wrap).filter ResBody.nanKeyed := by
  induction l with
  | nil => rfl
  | cons x xs ih =>
    by_cases hx : (key x).strictEq pid = true
    · have hnk : (wrap x).nanKeyed = false := by
        rw [hw]; exact decide_eq_false (ne_nan_of_strictEq hx)
      simp [List.filter_cons, hx, hnk, ih]
    · simp only [Bool.not_eq_true] at hx
      simp only [List.filter_cons, hx, Bool.not_false, if_true, List.map_cons, ih]

theorem filter_nanKeyed_replace {α : Type} (key : α → JsNum) (wrap : α → ResBody)
    (hw : ∀ a, (wrap a).nanKeyed = decide (key a = .nan)) (pid : JsNum)
    (pre : List α) (b b' : α) (post : List α)
    (hb : (key b).strictEq pid = true) (hb' : key b' = key b) :
    ((pre ++ b' :: post).map wrap).filter ResBody.nanKeyed
      = ((pre ++ b :: post).map wrap).filter ResBody.nanKeyed := by
  have h1 : (wrap b).nanKeyed = false := by
    rw [hw]; exact decide_eq_false (ne_nan_of_strictEq hb)
  have h2 : (wrap b').nanKeyed = false := by
    rw [hw, hb']; exact decide_eq_false (ne_nan_of_strictEq hb)
  simp [List.filter_cons, h1, h2]

theorem records_put_nan (s : Store) (e : Entity) (p : String) (body : ReqBody)
    (hp : parseIntChars p.data = .nan) (hparse : fieldsParse e body = true) :
    (handle s (.put e p body)).2.status = 200 ∧
    (handle s (.put e p body)).2.body.nanKeyed = true ∧
    records (handle s (.put e p body)).1 e
      = records s e ++ [(handle s (.put e p body)).2.body] := by
  cases e
  · obtain ⟨a, c, y, ha, hc, hy⟩ := (bookFieldsParse_iff body).1 hparse
    have h : handle s (.put .books p body) = _ :=
      putBookById_absent_ok s p body a c y
        (by rw [hp]; exact noneWithId_nan Book.id s.books) ha hc hy
    rw [h]
    exact ⟨rfl, by simp [nanKeyed_book, hp], by simp [records]⟩
  · have h : handle s (.put .authors p body) = _ :=
      putAuthorById_absent s p body (by rw [hp]; exact noneWithId_nan Author.id s.authors)
    rw [h]
    exact ⟨rfl, by simp [nanKeyed_author, hp], by simp [records]⟩
  · have h : handle s (.put .categories p body) = _ :=
      putCategoryById_absent s p body
        (by rw [hp]; exact noneWithId_nan Category.id s.categories)
    rw [h]
    exact ⟨rfl, by simp [nanKeyed_category, hp], by simp [records]⟩

theorem put_nan_throw (s : Store) (e : Entity) (p : String) (body : ReqBody)
    (hp : parseIntChars p.data = .nan) (hthrow : fieldsParse e body = false) :
    handle s (.put e p body) = (s, errorResponse) :=
  (put_effect_absent s e p body
    (fun x _ => by rw [hp]; exact strictEq_nan_right x)).2.2.2 hthrow

theorem records_puts_nan (e : Entity) (p : String) (hp : parseIntChars p.data = .nan)
    (bodies : List ReqBody) :
    ∀ s, ∃ added, records (run s (bodies.map (Request.put e p))) e = records s e ++ added ∧
      added.length = (bodies.filter (fieldsParse e)).length ∧
      ∀ x ∈ added, x.nanKeyed = true := by
  induction bodies with
  | nil => intro s; exact ⟨[], by simp [run], rfl, by simp⟩
  | cons b bs ih =>
    intro s
    cases hb : fieldsParse e b with
    | true =>
      obtain ⟨-, hk, hr⟩ := records_put_nan s e p b hp hb
      obtain ⟨added, ha, hl, hall⟩ := ih (handle s (.put e p b)).1
      refine ⟨(handle s (.put e p b)).2.body :: added, ?_, by simp [hl, hb], ?_⟩
      · simp only [List.map_cons, run, ha, hr, List.append_assoc, List.singleton_append]
      · intro x hx
        rcases List.mem_cons.1 hx with rfl | hx
        · exact hk
        · exact hall x hx
    | false =>
      obtain ⟨added, ha, hl, hall⟩ := ih s
      refine ⟨added, ?_, by simp [hl, hb], hall⟩
      simp only [List.map_cons, run, put_nan_throw s e p b hp hb, ha]

theorem delete_nan_noop (s : Store) (e : Entity) (p : String)
    (hp : parseIntChars p.data = .nan) : (handle s (.delete e p)).1 = s := by
  cases e
  · have h := filter_not_strictEq_nan Book.id s.books
    simp only [handle, deleteBookById_eq, hp, h]
  · have h := filter_not_strictEq_nan Author.id s.authors
    simp only [handle, deleteAuthorById_eq, hp, h]
  · have h := filter_not_strictEq_nan Category.id s.categories
    simp only [handle, deleteCategoryById_eq, hp, h]

theorem get_body_not_nanKeyed (s : Store) (e : Entity) (p : String) :
    (handle s (.getById e p)).2.body.nanKeyed = false := by
  cases e
  · show (getBookById s p).2.body.nanKeyed = false
    rw [getBookById_eq]
    split
    · rename_i b hfind
      have hm := List.find?_some hfind
      rw [nanKeyed_book]
      exact decide_eq_false (ne_nan_of_strictEq hm)
    · rfl
  · show (getAuthorById s p).2.body.nanKeyed = false
    rw [getAuthorById_eq]
    split
    · rename_i a hfind
      have hm := List.find?_some hfind
      rw [nanKeyed_author]
      exact decide_eq_false (ne_nan_of_strictEq hm)
    · rfl
  · show (getCategoryById s p).2.body.nanKeyed = false
    rw [getCategoryById_eq]
    split
    · rename_i c hfind
      have hm := List.find?_some hfind
      rw [nanKeyed_category]
      exact decide_eq_false (ne_nan_of_strictEq hm)
    · rfl

theorem records_other (s : Store) (r : Request) (e : Entity) (h : r.entity ≠ e) :
    records (handle s r).1 e = records s e := by
  cases r with
  | getAll e' => rw [(get_effect s e' "").1]
  | getById e' p => rw [(get_effect s e' p).2]
  | post e' body =>
    cases e'
    · obtain ⟨h1, h2, -⟩ := postBooks_frame s body
      cases e
      · exact absurd rfl h
      · show (postBooks s body).1.authors.map ResBody.author = _; rw [h1]; rfl
      · show (postBooks s body).1.categories.map ResBody.category = _; rw [h2]; rfl
    · cases e <;> first | exact absurd rfl h | rfl
    · cases e <;> first | exact absurd rfl h | rfl
  | put e' p body =>
    cases e'
    · obtain ⟨h1, h2, -⟩ := putBookById_frame s p body
      cases e
      · exact absurd rfl h
      · show (putBookById s p body).1.authors.map ResBody.author = _; rw [h1]; rfl
      · show (putBookById s p body).1.categories.map ResBody.category = _; rw [h2]; rfl
    · obtain ⟨h1, h2, -⟩ := putAuthorById_frame s p body
      cases e
      · show (putAuthorById s p body).1.books.map ResBody.book = _; rw [h1]; rfl
      · exact absurd rfl h
      · show (putAuthorById s p body).1.categories.map ResBody.category = _; rw [h2]; rfl
    · obtain ⟨h1, h2, -⟩ := putCategoryById_frame s p body
      cases e
      · show (putCategoryById s p body).1.books.map ResBody.book = _; rw [h1]; rfl
      · show (putCategoryById s p body).1.authors.map ResBody.author = _; rw [h2]; rfl
      · exact absurd rfl h
  | delete e' p => cases e' <;> cases e <;> first | exact absurd rfl h | rfl

theorem nanKeyed_put_same (s : Store) (e : Entity) (p : String) (body : ReqBody) :
    ∃ added, (records (handle s (.put e p body)).1 e).filter ResBody.nanKeyed
      = (records s e).filter ResBody.nanKeyed ++ added := by
  cases e
  · rcases none_or_split (fun b : Book => b.id.strictEq (parseIntChars p.data)) s.books with
      hn | ⟨pre, b, post, hs, hpre, hb⟩
    · have h : handle s (.put .books p body) = _ := putBookById_absent s p body hn
      rw [h]
      cases newBook (parseIntChars p.data) (getProp body "title") (getProp body "author_id")
        (getProp body "category_id") (getProp body "published_year") with
      | none => exact ⟨[], by simp⟩
      | some nb =>
        simp only [records, List.map_append]
        exact ⟨_, List.filter_append _ _⟩
    · have h : handle s (.put .books p body) = _ :=
        putBookById_present s p body pre b post hs hpre hb
      rw [h]
      refine ⟨[], ?_⟩
      simp only [records, List.append_nil, hs]
      exact filter_nanKeyed_replace Book.id ResBody.book nanKeyed_book _ pre b _ post hb
        (updateBookFields_id _ _ _ _ _)
  · rcases none_or_split (fun a : Author => a.id.strictEq (parseIntChars p.data)) s.authors with
      hn | ⟨pre, a, post, hs, hpre, ha⟩
    · have h : handle s (.put .authors p body) = _ := putAuthorById_absent s p body hn
      rw [h]
      simp only [records, List.map_append]
      exact ⟨_, List.filter_append _ _⟩
    · have h : handle s (.put .authors p body) = _ :=
        putAuthorById_present s p body pre a post hs hpre ha
      rw [h]
      refine ⟨[], ?_⟩
      simp only [records, List.append_nil, hs]
      exact filter_nanKeyed_replace Author.id ResBody.author nanKeyed_author _ pre a _ post ha
        rfl
  · rcases none_or_split (fun c : Category => c.id.strictEq (parseIntChars p.data))
      s.categories with hn | ⟨pre, c, post, hs, hpre, hc⟩
    · have h : handle s (.put .categories p body) = _ := putCategoryById_absent s p body hn
      rw [h]
      simp only [records, List.map_append]
      exact ⟨_, List.filter_append _ _⟩
    · have h : handle s (.put .categories p body) = _ :=
        putCategoryById_present s p body pre c post hs hpre hc
      rw [h]
      refine ⟨[], ?_⟩
      simp only [records, List.append_nil, hs]
      exact filter_nanKeyed_replace Category.id ResBody.category nanKeyed_category _ pre c _
        post hc rfl

theorem nanKeyed_post_same (s : Store) (e : Entity) (body : ReqBody) :
    ∃ added, (records (handle s (.post e body)).1 e).filter ResBody.nanKeyed
      = (records s e).filter ResBody.nanKeyed ++ added := by
  cases e
  · by_cases hb : bookFieldsParse body = true
    · obtain ⟨a, c, y, ha, hc, hy⟩ := (bookFieldsParse_iff body).1 hb
      have h : handle s (.post .books body) = _ := postBooks_ok s body a c y ha hc hy
      rw [h]
      simp only [records, List.map_append]
      exact ⟨_, List.filter_append _ _⟩
    · simp only [Bool.not_eq_true] at hb
      have h : handle s (.post .books body) = _ := postBooks_throw s body hb
      rw [h]
      exact ⟨[], by simp [records]⟩
  · simp only [handle, postAuthors, records, List.map_append]
    exact ⟨_, List.filter_append _ _⟩
  · simp only [handle, postCategories, records, List.map_append]
    exact ⟨_, List.filter_append _ _⟩

theorem nanKeyed_step (s : Store) (r : Request) (e : Entity) :
    ∃ added, (records (handle s r).1 e).filter ResBody.nanKeyed
      = (records s e).filter ResBody.nanKeyed ++ added := by
  by_cases he : r.entity = e
  · cases r with
    | getAll e' => rw [(get_effect s e' "").1]; exact ⟨[], by simp⟩
    | getById e' p => rw [(get_effect s e' p).2]; exact ⟨[], by simp⟩
    | post e' body =>
      have he' : e' = e := he
      subst he'
      exact nanKeyed_post_same s e' body
    | put e' p body =>
      have he' : e' = e := he
      subst he'
      exact nanKeyed_put_same s e' p body
    | delete e' p =>
      have he' : e' = e := he
      subst he'
      refine ⟨[], ?_⟩
      rw [List.append_nil]
      cases e'
      · exact filter_nanKeyed_delete Book.id ResBody.book nanKeyed_book _ s.books
      · exact filter_nanKeyed_delete Author.id ResBody.author nanKeyed_author _ s.authors
      · exact filter_nanKeyed_delete Category.id ResBody.category nanKeyed_category _
          s.categories
  · rw [records_other s r e he]
    exact ⟨[], by simp⟩

theorem nanKeyed_run (e : Entity) (rs : List Request) :
    ∀ s, ∃ added, (records (run s rs) e).filter ResBody.nanKeyed
      = (records s e).filter ResBody.nanKeyed ++ added := by
  induction rs with
  | nil => intro s; exact ⟨[], by simp [run]⟩
  | cons r rs ih =>
    intro s
    obtain ⟨a1, h1⟩ := nanKeyed_step s r e
    obtain ⟨a2, h2⟩ := ih (handle s r).1
    exact ⟨a1 ++ a2, by rw [run, h2, h1, List.append_assoc]⟩

/-- C24 (as stated, refuted): on the seeded store `PUT /books/abc`, whose path id parses to
`NaN`, with a `category_id` that is an object with an own `toString` entry is answered 500
and appends no record. -/
theorem c24_throwing_put_appends_nothing :
    parseInt (.str "abc") = some .nan ∧
    (handle seed (.put .books "abc"
      [("title", .str "X"), ("category_id", .obj [("toString", .num (.int 1))])])).2.status
      = 500 ∧
    ids (handle seed (.put .books "abc"
      [("title", .str "X"), ("category_id", .obj [("toString", .num (.int 1))])])).1 .books
      = [.int 1, .int 2] := by
  decide

/-- C24 (amended): when the path id parses to `NaN`, a `PUT` matches no record; it appends
one new record keyed by `NaN` and answers 200 when `parseInt` does not throw on the body
fields (never, for authors and categories), and leaves the store unchanged and answers 500
when it throws; so `n` such `PUT`s append as many records as there are bodies that parse,
after the prior ones, which stay as they were.  A `DELETE` with such an id leaves the store
unchanged.  Consequently, in any store and under any later request sequence, the records
keyed by `NaN` stay in the collection, in order and unchanged (new ones can only be
appended after them), and no `GET` by id ever answers a record keyed by `NaN`. -/
theorem c24_nan_keyed_records_are_write_only (s : Store) (e : Entity) (p : String)
    (hp : parseInt (.str p) = some .nan) :
    (∀ body, fieldsParse e body = true →
      (handle s (.put e p body)).2.status = 200 ∧
      (handle s (.put e p body)).2.body.nanKeyed = true ∧
      records (handle s (.put e p body)).1 e
        = records s e ++ [(handle s (.put e p body)).2.body]) ∧
    (∀ body, fieldsParse e body = false → handle s (.put e p body) = (s, errorResponse)) ∧
    (∀ bodies : List ReqBody, ∃ added,
      records (run s (bodies.map (Request.put e p))) e = records s e ++ added ∧
      added.length = (bodies.filter (fieldsParse e)).length ∧
      ∀ x ∈ added, x.nanKeyed = true) ∧
    (handle s (.delete e p)).1 = s ∧
    (∀ s1 e1 p1, (handle s1 (.getById e1 p1)).2.body.nanKeyed = false) ∧
    (∀ s1 e1 rs, ∃ added, (records (run s1 rs) e1).filter ResBody.nanKeyed
      = (records s1 e1).filter ResBody.nanKeyed ++ added) :=
  ⟨fun body hb => records_put_nan s e p body (parseIntChars_of_parseInt hp) hb,
   fun body hb => put_nan_throw s e p body (parseIntChars_of_parseInt hp) hb,
   fun bodies => records_puts_nan e p (parseIntChars_of_parseInt hp) bodies s,
   delete_nan_noop s e p (parseIntChars_of_parseInt hp),
   fun s1 e1 p1 => get_body_not_nanKeyed s1 e1 p1,
   fun s1 e1 rs => nanKeyed_run e1 rs s1⟩

/-- Witness for C24 (amended): `PUT /books/abc` on the seeded store appends a record keyed
by `NaN`, and `DELETE /books/abc` changes nothing. -/
theorem c24_nan_keyed_records_are_write_only_witness :
    parseInt (.str "abc") = some .nan ∧
    fieldsParse .books [("title", .str "X")] = true ∧
    (handle seed (.put .books "abc" [("title", .str "X")])).2.body.nanKeyed = true ∧
    records (handle seed (.put .books "abc" [("title", .str "X")])).1 .books
      = records seed .books ++ [(handle seed (.put .books "abc" [("title", .str "X")])).2.body] ∧
    (handle seed (.delete .books "abc")).1 = seed :=
  ⟨by decide, by decide,
   ((c24_nan_keyed_records_are_write_only seed .books "abc" (by decide)).1
      [("title", .str "X")] (by decide)).2.1,
   ((c24_nan_keyed_records_are_write_only seed .books "abc" (by decide)).1
      [("title", .str "X")] (by decide)).2.2,
   (c24_nan_keyed_records_are_write_only seed .books "abc" (by decide)).2.2.2.1⟩

end Bookstore
